import Mathlib

/-!
Verification of the Shakmat chess engine core against its specification.

The development shallowly embeds the relevant parts of the source:
* `shakmat-core/src/board/chess_board.rs` (board state, make/unmake, zobrist),
* `shakmat-core/src/board/movegen.rs` (pseudolegal move generation),
* `shakmat-core/src/board/bitboard.rs` (bitboards as `Nat` values below `2^64`),
* `shakmat-core/src/game_elements/*` (colors, piece types, moves, castling),
* `shakmat-core/src/fen/fen_utils.rs` (the parsed-FEN record and board construction),
* `shakmat-engine/src/trasposition/*`, `time.rs`, `search/searching.rs`,
  `search/history.rs` (transposition table, time manager, search fragments).

Zobrist key values are produced at startup by a seeded RNG, so the embedding is
parameterised by an arbitrary key assignment `ZKeys`; every theorem about the
hash holds for all assignments.  The magic-bitboard attack table data files are
not part of the sources, so the attack-table functions are modelled from the
specification (section 4.1/4.4); they are concrete executable functions.
-/

set_option maxRecDepth 10000

namespace Shakmat

/-! ## Bitboards (`bitboard.rs`)

A bitboard is a `u64`; we embed it as a `Nat` kept below `2^64`. -/

/-- `2^64`, the modulus of `u64` arithmetic. -/
def U64 : Nat := 2 ^ 64

/-- The all-ones 64-bit mask, value of `u64::MAX` (`BitBoard::ones`). -/
def u64mask : Nat := U64 - 1

/-- `BitBoard::from_square`: `1 << square` as a `u64`. -/
def fromSquare (s : Nat) : Nat := (1 <<< s) % U64

/-- Bitwise complement of a `u64` value (`!bb` in Rust). -/
def bnot (x : Nat) : Nat := u64mask ^^^ x

/-- `u64` left shift (`<<` on `BitBoard`). -/
def shl64 (x n : Nat) : Nat := (x <<< n) % U64

/-- Recursion worker for `trailingZeros`; the fuel bounds the bit width and is
only there to make the recursion structural. -/
def trailingZerosAux : Nat → Nat → Nat
  | _, 0 => 0
  | n, fuel + 1 => if n % 2 = 1 then 0 else trailingZerosAux (n / 2) fuel + 1

/-- Number of trailing zero bits of a `u64` (`u64::trailing_zeros`); 64 for the
zero value, matching `BitBoard::first_piece_index` on an empty board. -/
def trailingZeros (n : Nat) : Nat :=
  if n = 0 then 64 else trailingZerosAux n 64

/-- Recursion worker for `bbIndices` (structural on the 64-bit fuel). -/
def bbIndicesAux : Nat → Nat → List Nat
  | _, 0 => []
  | bb, fuel + 1 =>
    if bb = 0 then [] else trailingZeros bb :: bbIndicesAux (bb &&& (bb - 1)) fuel

/-- The LSB-first list of set-bit indices of a `u64` bitboard
(`BitBoard::piece_indices`, the `PieceIndexIter` iterator). -/
def bbIndices (bb : Nat) : List Nat := bbIndicesAux bb 64

/-- Recursion worker for `popCount` (structural on the 64-bit fuel). -/
def popCountAux : Nat → Nat → Nat
  | _, 0 => 0
  | n, fuel + 1 => if n = 0 then 0 else n % 2 + popCountAux (n / 2) fuel

/-- Population count of a `u64` (`u64::count_ones`, `BitBoard::count`). -/
def popCount (n : Nat) : Nat := popCountAux n 64

/-! ## Colors and piece types (`game_elements/color.rs`, `piece_type.rs`) -/

/-- The two piece colors. -/
inductive Color where
  | White
  | Black
deriving DecidableEq, Repr, Fintype

open Color

/-- `Color::not` (the `Not` impl): color negation. -/
def Color.opp : Color → Color
  | White => Black
  | Black => White

/-- `Color::to_index`: used for zobrist keys and array indexing. -/
def Color.toIndex : Color → Nat
  | Black => 0
  | White => 1

/-- The six piece types. -/
inductive PieceType where
  | Pawn
  | Knight
  | Bishop
  | Rook
  | Queen
  | King
deriving DecidableEq, Repr, Fintype

open PieceType

/-! ## Moves (`game_elements/movement.rs`) -/

/-- The move variants.  `from`/`to` are square indices (0..=63). -/
inductive Move where
  | Normal (fromSq toSq : Nat)
  | PawnPromotion (fromSq toSq : Nat) (promote_to : PieceType)
  | ShortCastle
  | LongCastle
deriving DecidableEq, Repr

/-- `Move::to`.  The source `unimplemented!()`s on castles; those paths are
never taken by the callers we embed, and we return a junk value there. -/
def Move.toSq : Move → Nat
  | .Normal _ t => t
  | .PawnPromotion _ t _ => t
  | _ => 0

/-- `Move::from`.  Same remark about castles as `Move.toSq`. -/
def Move.fromSq : Move → Nat
  | .Normal f _ => f
  | .PawnPromotion f _ _ => f
  | _ => 0

/-- `matches!(movement, Move::LongCastle | Move::ShortCastle)` / `Move::is_castle`. -/
def Move.is_castle : Move → Bool
  | .ShortCastle => true
  | .LongCastle => true
  | _ => false

/-- `Move::is_promotion`. -/
def Move.is_promotion : Move → Bool
  | .PawnPromotion _ _ _ => true
  | _ => false

/-! ## Castling rights (`game_elements/castling.rs`)

The struct packs four flags into the low 4 bits of a `u8`: `XXXXABCD` with
A = white kingside, B = white queenside, C = black kingside, D = black queenside. -/

/-- Castling rights: the packed `u8`. -/
structure CastlingRights where
  rights : Nat
deriving DecidableEq, Repr

namespace CastlingRights

/-- `CastlingRights::new`. -/
def new (wk wq bk bq : Bool) : CastlingRights :=
  ⟨(cond wk 1 0) <<< 3 ||| (cond wq 1 0) <<< 2 ||| (cond bk 1 0) <<< 1 ||| cond bq 1 0⟩

/-- `CastlingRights::none`. -/
def none : CastlingRights := new false false false false

/-- `CastlingRights::index` (used for zobrist castling keys). -/
def index (c : CastlingRights) : Nat := c.rights

/-- `CastlingRights::can_castle_kingside`. -/
def can_castle_kingside (c : CastlingRights) : Color → Bool
  | White => c.rights &&& 0b00001000 ≠ 0
  | Black => c.rights &&& 0b00000010 ≠ 0

/-- `CastlingRights::can_castle_queenside`. -/
def can_castle_queenside (c : CastlingRights) : Color → Bool
  | White => c.rights &&& 0b00000100 ≠ 0
  | Black => c.rights &&& 0b00000001 ≠ 0

/-- `CastlingRights::update_kingside`. -/
def update_kingside (c : CastlingRights) (color : Color) (can : Bool) : CastlingRights :=
  let b := cond can 1 0
  match color with
  | White => ⟨(c.rights &&& bnot8 (1 <<< 3)) ||| (b <<< 3)⟩
  | Black => ⟨(c.rights &&& bnot8 (1 <<< 1)) ||| (b <<< 1)⟩
where
  /-- Complement of a `u8` value (`!(1 << k)` on a `u8`). -/
  bnot8 (x : Nat) : Nat := 255 ^^^ x

/-- `CastlingRights::update_queenside`. -/
def update_queenside (c : CastlingRights) (color : Color) (can : Bool) : CastlingRights :=
  let b := cond can 1 0
  match color with
  | White => ⟨(c.rights &&& (255 ^^^ (1 <<< 2))) ||| (b <<< 2)⟩
  | Black => ⟨(c.rights &&& (255 ^^^ 1)) ||| b⟩

/-- `CastlingRights::disable_all`. -/
def disable_all (c : CastlingRights) : Color → CastlingRights
  | White => ⟨c.rights &&& 0b00000011⟩
  | Black => ⟨c.rights &&& 0b00001100⟩

end CastlingRights

/-! ## Piece sets (`Pieces` in `chess_board.rs`) -/

/-- One side's piece bitboards. -/
@[ext]
structure Pieces where
  pawns : Nat := 0
  rooks : Nat := 0
  knights : Nat := 0
  bishops : Nat := 0
  queens : Nat := 0
  king : Nat := 0
deriving DecidableEq, Repr

namespace Pieces

/-- `Pieces::get_pieces_of_type`. -/
def get_pieces_of_type (p : Pieces) : PieceType → Nat
  | Pawn => p.pawns
  | Knight => p.knights
  | Bishop => p.bishops
  | Rook => p.rooks
  | Queen => p.queens
  | King => p.king

/-- Functional update corresponding to writing through
`Pieces::get_pieces_of_type_mut`. -/
def set_pieces_of_type (p : Pieces) (t : PieceType) (bb : Nat) : Pieces :=
  match t with
  | Pawn => { p with pawns := bb }
  | Knight => { p with knights := bb }
  | Bishop => { p with bishops := bb }
  | Rook => { p with rooks := bb }
  | Queen => { p with queens := bb }
  | King => { p with king := bb }

/-- `*pieces.get_pieces_of_type_mut(t) ^= x`. -/
def xor_type (p : Pieces) (t : PieceType) (x : Nat) : Pieces :=
  p.set_pieces_of_type t (p.get_pieces_of_type t ^^^ x)

/-- `*pieces.get_pieces_of_type_mut(t) |= x`. -/
def or_type (p : Pieces) (t : PieceType) (x : Nat) : Pieces :=
  p.set_pieces_of_type t (p.get_pieces_of_type t ||| x)

/-- `Pieces::remove_in_all`: clear `target` in all six bitboards. -/
def remove_in_all (p : Pieces) (target : Nat) : Pieces :=
  let mask := bnot target
  { pawns := p.pawns &&& mask
    knights := p.knights &&& mask
    bishops := p.bishops &&& mask
    rooks := p.rooks &&& mask
    queens := p.queens &&& mask
    king := p.king &&& mask }

/-- `Pieces::combine`. -/
def combine (p : Pieces) : Nat :=
  p.pawns ||| p.knights ||| p.bishops ||| p.rooks ||| p.queens ||| p.king

end Pieces

/-! ## Attack tables

Modelled from the spec: the repository's magic-bitboard tables are data files
(`magic/movetables/*.in`, `magic/moves.rs`, `magic/masks.rs`, `magic/magics.rs`)
that are not among the sources; sections 4.1 and 4.4 of the specification define
their contents (king/knight/pawn attack tables, slider attacks under the current
occupancy, pawn pushes with double pushes from the initial rank only, and the
EP-attacker table).  The square mapping is `square = rank*8 + (7 - file)`;
only rank (`s / 8`) and the low octal digit (`s % 8`) matter below. -/

/-- Encode a (rank, low-digit) coordinate pair as a square index. -/
def encSq (r c : Int) : Nat := (r * 8 + c).toNat

/-- Whether an integer coordinate pair lies on the board. -/
def onBoard (r c : Int) : Bool := 0 ≤ r && r < 8 && 0 ≤ c && c < 8

/-- Modelled from the spec: the set of squares reached from `s` by a fixed list
of (rank, file) offsets, clipped to the board. -/
def bbOfOffsets (s : Nat) (offs : List (Int × Int)) : Nat :=
  offs.foldl (fun acc od =>
    let r : Int := (s / 8 : Nat) + od.1
    let c : Int := (s % 8 : Nat) + od.2
    if onBoard r c then acc ||| fromSquare (encSq r c) else acc) 0

/-- Modelled from the spec: king attacks (adjacent squares). -/
def kingMoves (s : Nat) : Nat :=
  bbOfOffsets s [(-1, -1), (-1, 0), (-1, 1), (0, -1), (0, 1), (1, -1), (1, 0), (1, 1)]

/-- Modelled from the spec: knight attacks. -/
def knightMoves (s : Nat) : Nat :=
  bbOfOffsets s [(-2, -1), (-2, 1), (-1, -2), (-1, 2), (1, -2), (1, 2), (2, -1), (2, 1)]

/-- Modelled from the spec: pawn capture targets (diagonally forward). -/
def pawnAttacks (s : Nat) : Color → Nat
  | White => bbOfOffsets s [(1, -1), (1, 1)]
  | Black => bbOfOffsets s [(-1, -1), (-1, 1)]

/-- Modelled from the spec: pawn push targets — one step forward, plus the
double push from the initial rank only (to be masked with empty squares at
use time). -/
def pawnPushes (s : Nat) : Color → Nat
  | White => bbOfOffsets s (if s / 8 = 1 then [(1, 0), (2, 0)] else [(1, 0)])
  | Black => bbOfOffsets s (if s / 8 = 6 then [(-1, 0), (-2, 0)] else [(-1, 0)])

/-- Modelled from the spec: one ray of a sliding piece — step from `(r, c)` by
`(dr, dc)` until leaving the board, including the first blocker square. -/
def rayWalk (r c dr dc : Int) (occ : Nat) : Nat → Nat
  | 0 => 0
  | fuel + 1 =>
    let r' := r + dr
    let c' := c + dc
    if onBoard r' c' then
      let t := encSq r' c'
      if occ.testBit t then fromSquare t
      else fromSquare t ||| rayWalk r' c' dr dc occ fuel
    else 0

/-- Modelled from the spec: one ray from square `s`. -/
def ray (s : Nat) (dr dc : Int) (occ : Nat) : Nat :=
  rayWalk ((s / 8 : Nat)) ((s % 8 : Nat)) dr dc occ 8

/-- Modelled from the spec: rook attacks under occupancy `occ`. -/
def rookMoves (s : Nat) (occ : Nat) : Nat :=
  ray s 0 1 occ ||| ray s 0 (-1) occ ||| ray s 1 0 occ ||| ray s (-1) 0 occ

/-- Modelled from the spec: bishop attacks under occupancy `occ`. -/
def bishopMoves (s : Nat) (occ : Nat) : Nat :=
  ray s 1 1 occ ||| ray s 1 (-1) occ ||| ray s (-1) 1 occ ||| ray s (-1) (-1) occ

/-- `queen_moves`: the OR of bishop and rook attacks (as in `magic/moves.rs`). -/
def queenMoves (s : Nat) (occ : Nat) : Nat :=
  bishopMoves s occ ||| rookMoves s occ

/-- Modelled from the spec: `EP_ATTACKS[e]` — the squares from which a pawn of
the capturing side could capture onto the en-passant square `e`.  EP squares
live on ranks 3 and 6 (indices 16..=23 captured by Black, 40..=47 by White);
other entries are unused by the sources and are empty here. -/
def epAttacks (e : Nat) : Nat :=
  if 40 ≤ e ∧ e < 48 then pawnAttacks e Black
  else if 16 ≤ e ∧ e < 24 then pawnAttacks e White
  else 0

/-! ## Zobrist keys (`zobrist/zobrist_utils.rs`)

The key values are drawn from a seeded RNG at startup; the embedding is
parameterised by an arbitrary assignment.  `get_key_ep_square` keys the EP
square by its file (`square % 8`). -/

/-- A zobrist key assignment: one `u64` per (piece, color, square), per packed
castling-rights value, per EP file, plus the side-to-move flag key. -/
structure ZKeys where
  pieceKey : PieceType → Color → Nat → Nat
  castlingKey : Nat → Nat
  epFileKey : Nat → Nat
  turnKey : Nat

/-- `zobrist::get_key_for_piece`. -/
def ZKeys.get_key_for_piece (zk : ZKeys) (p : PieceType) (c : Color) (sq : Nat) : Nat :=
  zk.pieceKey p c sq

/-- `zobrist::get_key_castling`. -/
def ZKeys.get_key_castling (zk : ZKeys) (cr : CastlingRights) : Nat :=
  zk.castlingKey cr.index

/-- `zobrist::get_key_ep_square` (keyed by the square's file). -/
def ZKeys.get_key_ep_square (zk : ZKeys) (sq : Nat) : Nat :=
  zk.epFileKey (sq % 8)

/-- The all-zero key assignment (used to instantiate witnesses). -/
def zk0 : ZKeys := ⟨fun _ _ _ => 0, fun _ => 0, fun _ => 0, 0⟩

/-! ## Board state (`chess_board.rs`) -/

/-- The `State` struct: fields that change between moves and are snapshotted in
the undo record. -/
@[ext]
structure State where
  castling_rights : CastlingRights
  fifty_move_rule_counter : Nat
  en_passant_target : Nat
  last_moved : Nat
  black_attacks : Nat
  white_attacks : Nat
  zobrist_key : Nat
deriving DecidableEq, Repr

/-- The `MoveUndoData` struct. -/
@[ext]
structure MoveUndoData where
  state : State
  captured_piece : Option PieceType
  ep : Bool
deriving DecidableEq, Repr

/-- The `Board` struct.  The `previous_moves` `Vec` is used as a stack
(push/pop at the end); we embed it with the list head as the stack top. -/
@[ext]
structure Board where
  state : State
  previous_moves : List MoveUndoData
  turn : Color
  full_turns : Nat
  plies : Nat
  white_pieces : Pieces
  black_pieces : Pieces
  all_whites : Nat
  all_blacks : Nat
  all_pieces : Nat
  piece_on_square : List (Option PieceType)
deriving DecidableEq, Repr

namespace Board

/-- `Board::turn_color`. -/
def turn_color (b : Board) : Color := b.turn

/-- `Board::zobrist_key`. -/
def zobrist_key (b : Board) : Nat := b.state.zobrist_key

/-- `Board::current_ply`. -/
def current_ply (b : Board) : Nat := b.plies

/-- `Board::fifty_move_rule_counter`. -/
def fifty_move_rule_counter (b : Board) : Nat := b.state.fifty_move_rule_counter

/-- `Board::ep_square`. -/
def ep_square (b : Board) : Nat := b.state.en_passant_target

/-- `Board::castling_info`. -/
def castling_info (b : Board) : CastlingRights := b.state.castling_rights

/-- `Board::get_pieces`. -/
def get_pieces (b : Board) : Color → Pieces
  | White => b.white_pieces
  | Black => b.black_pieces

/-- `Board::piece_on` (the array index is in bounds for squares 0..=63). -/
def piece_on (b : Board) (square : Nat) : Option PieceType :=
  (b.piece_on_square.getD square Option.none)

/-- `Board::get_color_bitboard`. -/
def get_color_bitboard (b : Board) : Color → Nat
  | White => b.all_whites
  | Black => b.all_blacks

/-- `Board::get_all_bitboard`. -/
def get_all_bitboard (b : Board) : Nat := b.all_pieces

/-- `Board::get_attack_bitboard`. -/
def get_attack_bitboard (b : Board) : Color → Nat
  | White => b.state.white_attacks
  | Black => b.state.black_attacks

/-- `Board::last_moved`. -/
def last_moved (b : Board) : Nat := b.state.last_moved

/-- Functional update for `Board::get_pieces_mut`. -/
def set_pieces (b : Board) (c : Color) (p : Pieces) : Board :=
  match c with
  | White => { b with white_pieces := p }
  | Black => { b with black_pieces := p }

/-- Functional update for `Board::get_color_bitboard_mut`. -/
def set_color_bitboard (b : Board) (c : Color) (bb : Nat) : Board :=
  match c with
  | White => { b with all_whites := bb }
  | Black => { b with all_blacks := bb }

/-- Functional update for `Board::piece_on_mut`. -/
def set_piece_on (b : Board) (square : Nat) (p : Option PieceType) : Board :=
  { b with piece_on_square := b.piece_on_square.set square p }

/-- `Board::is_check`: the color's king bitboard meets the opponent's cached
controlled squares. -/
def is_check (b : Board) : Color → Bool
  | White => b.white_pieces.king &&& b.state.black_attacks ≠ 0
  | Black => b.black_pieces.king &&& b.state.white_attacks ≠ 0

/-- `Board::only_pawns`: only pawns and the two kings are on the board. -/
def only_pawns (b : Board) : Bool :=
  popCount b.all_pieces = popCount b.black_pieces.pawns + popCount b.white_pieces.pawns + 2

/-- `Board::only_pawns_or_endgame`: 7 or fewer pieces, or only pawns. -/
def only_pawns_or_endgame (b : Board) : Bool :=
  popCount b.all_pieces ≤ 7 || b.only_pawns

/-- `Board::is_draw_by_material`: both sides have K, KB or KN only, and the
side to move is not in check. -/
def is_draw_by_material (b : Board) : Bool :=
  let is_check := b.is_check b.turn_color
  let n_whites := popCount b.all_whites
  let n_blacks := popCount b.all_blacks
  !is_check &&
    (n_whites = 1 || n_whites = 2 && (popCount b.white_pieces.bishops = 1 ||
                                      popCount b.white_pieces.knights = 1)) &&
    (n_blacks = 1 || n_blacks = 2 && (popCount b.black_pieces.bishops = 1 ||
                                      popCount b.black_pieces.knights = 1))

/-- `Board::is_draw`: 50-move-rule counter at 100, or insufficient material. -/
def is_draw (b : Board) : Bool :=
  100 ≤ b.fifty_move_rule_counter || b.is_draw_by_material

/-- `Board::update_ep_zobrist`: whether the zobrist EP flag should be on —
the EP square is set and a pawn of `color_capturing` attacks it. -/
def update_ep_zobrist (b : Board) (color_capturing : Color) : Bool :=
  ¬b.ep_square = 0 &&
    ¬(epAttacks (trailingZeros b.ep_square) &&& (b.get_pieces color_capturing).pawns) = 0

end Board

/-! ## Move generation (`movegen.rs`) -/

namespace movegen

/-- Castling emptiness masks (`WHITE_SHORT_CASTLE_BB` etc.). -/
def WHITE_SHORT_CASTLE_BB : Nat := 6
def WHITE_LONG_CASTLE_BB : Nat := 112
def BLACK_SHORT_CASTLE_BB : Nat := 0x0600000000000000
def BLACK_LONG_CASTLE_BB : Nat := 0x7000000000000000

/-- Castling no-check masks (`WHITE_SHORT_CASTLE_CHECKS` etc.). -/
def WHITE_SHORT_CASTLE_CHECKS : Nat := 14
def WHITE_LONG_CASTLE_CHECKS : Nat := 56
def BLACK_SHORT_CASTLE_CHECKS : Nat := 0x0E00000000000000
def BLACK_LONG_CASTLE_CHECKS : Nat := 0x3800000000000000

/-- King/rook from-and-to masks for castling. -/
def WHITE_KING_SHORT_CASTLE : Nat := 0x000000000000000A
def WHITE_ROOK_SHORT_CASTLE : Nat := 0x0000000000000005
def WHITE_KING_LONG_CASTLE : Nat := 0x0000000000000028
def WHITE_ROOK_LONG_CASTLE : Nat := 0x0000000000000090
def BLACK_KING_SHORT_CASTLE : Nat := 0x0A00000000000000
def BLACK_ROOK_SHORT_CASTLE : Nat := 0x0500000000000000
def BLACK_KING_LONG_CASTLE : Nat := 0x2800000000000000
def BLACK_ROOK_LONG_CASTLE : Nat := 0x9000000000000000

/-- Pawn masks (`THIRD_RANK_MASK` etc.). -/
def THIRD_RANK_MASK : Nat := 0x0000000000FF0000
def SIXTH_RANK_MASK : Nat := 0x0000FF0000000000
def WHITE_PROMOTION_RANK : Nat := 0xFF00000000000000
def BLACK_PROMOTION_RANK : Nat := 0x00000000000000FF

/-- `in_promotion_rank`. -/
def in_promotion_rank (pos : Nat) : Color → Bool
  | Color.Black => pos < 8
  | Color.White => 55 < pos

/-- `get_controlled_squares`: union of the attack sets of all pieces of a
color under the current occupancy. -/
def get_controlled_squares (b : Board) (color : Color) : Nat :=
  let our_pieces := b.get_pieces color
  let all_pieces := b.get_all_bitboard
  let orAll (l : List Nat) : Nat := l.foldl (· ||| ·) 0
  orAll ((bbIndices our_pieces.king).map kingMoves) |||
  orAll ((bbIndices our_pieces.knights).map knightMoves) |||
  orAll ((bbIndices our_pieces.queens).map (queenMoves · all_pieces)) |||
  orAll ((bbIndices our_pieces.bishops).map (bishopMoves · all_pieces)) |||
  orAll ((bbIndices our_pieces.rooks).map (rookMoves · all_pieces)) |||
  orAll ((bbIndices our_pieces.pawns).map (pawnAttacks · color))

/-- `generate_normal_moves`: all non-pawn, non-castling moves under a target
mask, in the source's `chain` order (queens, bishops, rooks, knights, king). -/
def generate_normal_moves (pieces : Pieces) (all_pieces mask : Nat) : List Move :=
  let movesOf (bb : Nat) (att : Nat → Nat) : List Move :=
    (bbIndices bb).flatMap fun f =>
      (bbIndices (att f &&& mask)).map fun t => Move.Normal f t
  movesOf pieces.queens (queenMoves · all_pieces) ++
  movesOf pieces.bishops (bishopMoves · all_pieces) ++
  movesOf pieces.rooks (rookMoves · all_pieces) ++
  movesOf pieces.knights knightMoves ++
  movesOf pieces.king kingMoves

/-- Expansion of pawn moves landing on the last rank into the four
promotions (the `flat_map` at the end of both generators). -/
def expandProms (color : Color) (pawn_moves : List Move) : List Move :=
  pawn_moves.flatMap fun mv =>
    if in_promotion_rank mv.toSq color then
      [Move.PawnPromotion mv.fromSq mv.toSq PieceType.Queen,
       Move.PawnPromotion mv.fromSq mv.toSq PieceType.Rook,
       Move.PawnPromotion mv.fromSq mv.toSq PieceType.Bishop,
       Move.PawnPromotion mv.fromSq mv.toSq PieceType.Knight]
    else [mv]

/-- `get_pseudolegal_moves`: normal moves, then castling (whose legality is
checked here), then pawn moves with promotion expansion. -/
def get_pseudolegal_moves (b : Board) (color : Color) : List Move :=
  let pieces := b.get_pieces color
  let enemy_pieces := b.get_color_bitboard color.opp
  let friendly_pieces_mask := bnot (b.get_color_bitboard color)
  let all_pieces := b.get_all_bitboard
  let moves := generate_normal_moves pieces all_pieces friendly_pieces_mask
  let (short_bb, long_bb, short_checks, long_checks) :=
    match color with
    | Color.White => (WHITE_SHORT_CASTLE_BB, WHITE_LONG_CASTLE_BB,
                      WHITE_SHORT_CASTLE_CHECKS, WHITE_LONG_CASTLE_CHECKS)
    | Color.Black => (BLACK_SHORT_CASTLE_BB, BLACK_LONG_CASTLE_BB,
                      BLACK_SHORT_CASTLE_CHECKS, BLACK_LONG_CASTLE_CHECKS)
  let attackers := b.get_attack_bitboard color.opp
  let moves := moves ++
    (if b.castling_info.can_castle_kingside color && all_pieces &&& short_bb = 0
        && attackers &&& short_checks = 0 then [Move.ShortCastle] else []) ++
    (if b.castling_info.can_castle_queenside color && all_pieces &&& long_bb = 0
        && attackers &&& long_checks = 0 then [Move.LongCastle] else [])
  let ep_square := b.ep_square
  let pawn_moves := (bbIndices pieces.pawns).flatMap fun f =>
    let cap_bb := pawnAttacks f color &&& (enemy_pieces ||| ep_square)
    let push_bb := pawnPushes f color &&& bnot all_pieces
    let push_bb :=
      if color = Color.White && f < 16 then
        push_bb &&& bnot (shl64 (all_pieces &&& THIRD_RANK_MASK) 8)
      else if color = Color.Black && 47 < f then
        push_bb &&& bnot ((all_pieces &&& SIXTH_RANK_MASK) >>> 8)
      else push_bb
    (bbIndices cap_bb).map (fun t => Move.Normal f t) ++
    (bbIndices push_bb).map (fun t => Move.Normal f t)
  moves ++ expandProms color pawn_moves

/-- `get_pseudolegal_caps_proms`: captures and promotions only. -/
def get_pseudolegal_caps_proms (b : Board) : List Move :=
  let color := b.turn_color
  let pieces := b.get_pieces color
  let enemy_pieces := b.get_color_bitboard color.opp
  let all_pieces := b.get_all_bitboard
  let moves := generate_normal_moves pieces all_pieces enemy_pieces
  let prom_rank := match color with
    | Color.White => WHITE_PROMOTION_RANK
    | Color.Black => BLACK_PROMOTION_RANK
  let pawn_moves := (bbIndices pieces.pawns).flatMap fun f =>
    let cap_bb := pawnAttacks f color &&& (enemy_pieces ||| b.ep_square)
    let push_bb := pawnPushes f color &&& bnot all_pieces &&& prom_rank
    (bbIndices cap_bb).map (fun t => Move.Normal f t) ++
    (bbIndices push_bb).map (fun t => Move.Normal f t)
  moves ++ expandProms color pawn_moves

end movegen

/-! ## Making and unmaking moves (`chess_board.rs`) -/

namespace Board

/-- `Board::update_castling_rights` (runs after the piece has been moved). -/
def update_castling_rights (b : Board) (m : Move) : Board :=
  let white_rooks : Nat × Nat := (7, 0)
  let black_rooks : Nat × Nat := (63, 56)
  let f := m.fromSq
  let t := m.toSq
  let color := b.turn_color
  let op_color := color.opp
  let rook_positions := match color with
    | Color.White => (white_rooks, black_rooks)
    | Color.Black => (black_rooks, white_rooks)
  let cr := b.state.castling_rights
  let cr :=
    if cr.can_castle_queenside op_color && t = rook_positions.2.1 then
      cr.update_queenside op_color false
    else if cr.can_castle_kingside op_color && t = rook_positions.2.2 then
      cr.update_kingside op_color false
    else cr
  let cr :=
    if b.piece_on m.toSq = some PieceType.King then
      cr.disable_all color
    else if cr.can_castle_queenside color && f = rook_positions.1.1 then
      cr.update_queenside color false
    else if cr.can_castle_kingside color && f = rook_positions.1.2 then
      cr.update_kingside color false
    else cr
  { b with state.castling_rights := cr }

/-- `Board::move_piece`: performs a single (non-castling composite) piece move,
updating bitboards, the per-square array, the zobrist key, the 50-move counter
and castling rights, and records the captured piece in the undo data.
The source `unwrap`s the moving piece; the embedding uses a `Pawn` default on
the (contract-unreachable) `None` branch. -/
def move_piece (zk : ZKeys) (b : Board) (m : Move) (u : MoveUndoData) :
    Board × MoveUndoData :=
  let from_bb := fromSquare m.fromSq
  let to_bb := fromSquare m.toSq
  let moving_color := b.turn_color
  let enemy_color := moving_color.opp
  let piece_moving := (b.piece_on m.fromSq).getD PieceType.Pawn
  let enemy_pieces_bb := b.get_color_bitboard enemy_color
  let (b, u, captured_piece) :=
    if piece_moving = PieceType.Pawn && to_bb = b.ep_square then
      -- en-passant capture: remove the pawn on the adjacent square
      let u := { u with ep := true }
      let target_ep := if moving_color = Color.White then m.toSq - 8 else m.toSq + 8
      let target_bb := fromSquare target_ep
      let b := b.set_pieces enemy_color
        ((b.get_pieces enemy_color).xor_type PieceType.Pawn target_bb)
      let b := b.set_color_bitboard enemy_color
        (b.get_color_bitboard enemy_color ^^^ target_bb)
      let b := { b with all_pieces := b.all_pieces ^^^ target_bb }
      let b := b.set_piece_on target_ep Option.none
      let b := { b with state.zobrist_key :=
        b.state.zobrist_key ^^^ zk.get_key_for_piece PieceType.Pawn enemy_color target_ep }
      (b, u, some PieceType.Pawn)
    else if enemy_pieces_bb &&& to_bb ≠ 0 then
      -- normal capture
      let b := b.set_pieces enemy_color ((b.get_pieces enemy_color).remove_in_all to_bb)
      let b := b.set_color_bitboard enemy_color
        (b.get_color_bitboard enemy_color ^^^ to_bb)
      let captured := b.piece_on m.toSq
      let b := { b with state.zobrist_key :=
        b.state.zobrist_key ^^^
          zk.get_key_for_piece (captured.getD PieceType.Pawn) enemy_color m.toSq }
      (b, u, captured)
    else (b, u, Option.none)
  let b := { b with state.zobrist_key :=
    b.state.zobrist_key ^^^ zk.get_key_for_piece piece_moving moving_color m.fromSq }
  let b := b.set_piece_on m.fromSq Option.none
  let b := b.set_color_bitboard moving_color
    (b.get_color_bitboard moving_color ^^^ (from_bb ||| to_bb))
  let b := { b with all_pieces := b.all_pieces ^^^ from_bb }
  let b := { b with all_pieces := b.all_pieces ||| to_bb }
  let b :=
    match m with
    | .PawnPromotion _ _ promote_to =>
      let b := b.set_pieces moving_color
        (((b.get_pieces moving_color).xor_type PieceType.Pawn from_bb).xor_type
          promote_to to_bb)
      let b := { b with state.zobrist_key :=
        b.state.zobrist_key ^^^ zk.get_key_for_piece promote_to moving_color m.toSq }
      b.set_piece_on m.toSq (some promote_to)
    | _ =>
      let b := b.set_pieces moving_color
        ((b.get_pieces moving_color).xor_type piece_moving (from_bb ||| to_bb))
      let b := { b with state.zobrist_key :=
        b.state.zobrist_key ^^^ zk.get_key_for_piece piece_moving moving_color m.toSq }
      b.set_piece_on m.toSq (some piece_moving)
  let b := { b with state.fifty_move_rule_counter :=
    if captured_piece.isSome || piece_moving = PieceType.Pawn then 0
    else b.state.fifty_move_rule_counter + 1 }
  let b := { b with state.zobrist_key :=
    b.state.zobrist_key ^^^ zk.get_key_castling b.castling_info }
  let b := update_castling_rights b m
  let b := { b with state.zobrist_key :=
    b.state.zobrist_key ^^^ zk.get_key_castling b.castling_info }
  let b := { b with state.last_moved := m.toSq }
  (b, { u with captured_piece := captured_piece })

/-- `Board::castle`: two `move_piece` sub-steps (king, then rook), with
from/to squares fixed by color and side. -/
def castle (zk : ZKeys) (b : Board) (m : Move) (u : MoveUndoData) :
    Board × MoveUndoData :=
  let color := b.turn_color
  let short : Bool := decide (m = Move.ShortCastle)
  let row_start := if color = Color.White then 0 else 56
  let (king_from, king_to, rook_from, rook_to) :=
    if short = true then (row_start + 3, row_start + 1, row_start, row_start + 2)
    else (row_start + 3, row_start + 5, row_start + 7, row_start + 4)
  let king_move := Move.Normal king_from king_to
  let rook_move := Move.Normal rook_from rook_to
  let (b, u) := move_piece zk b king_move u
  move_piece zk b rook_move u

/-- `Board::undo_castle`: restore king and rook using the color-specific masks. -/
def undo_castle (b : Board) (m : Move) : Board :=
  let color := b.turn_color
  let short : Bool := decide (m = Move.ShortCastle)
  let row_start := if color = Color.White then 0 else 56
  let (king_to, king_from, rook_to, rook_from) :=
    if short = true then (row_start + 3, row_start + 1, row_start, row_start + 2)
    else (row_start + 3, row_start + 5, row_start + 7, row_start + 4)
  let (king_mask, rook_mask) :=
    match short, color with
    | true, Color.White => (movegen.WHITE_KING_SHORT_CASTLE, movegen.WHITE_ROOK_SHORT_CASTLE)
    | false, Color.White => (movegen.WHITE_KING_LONG_CASTLE, movegen.WHITE_ROOK_LONG_CASTLE)
    | true, Color.Black => (movegen.BLACK_KING_SHORT_CASTLE, movegen.BLACK_ROOK_SHORT_CASTLE)
    | false, Color.Black => (movegen.BLACK_KING_LONG_CASTLE, movegen.BLACK_ROOK_LONG_CASTLE)
  let b := b.set_piece_on king_from Option.none
  let b := b.set_piece_on king_to (some PieceType.King)
  let b := b.set_piece_on rook_from Option.none
  let b := b.set_piece_on rook_to (some PieceType.Rook)
  let b := { b with all_pieces := b.all_pieces ^^^ (king_mask ||| rook_mask) }
  let b := b.set_color_bitboard color
    (b.get_color_bitboard color ^^^ (king_mask ||| rook_mask))
  let _ := king_to
  let _ := rook_to
  b.set_pieces color
    (((b.get_pieces color).xor_type PieceType.King king_mask).xor_type
      PieceType.Rook rook_mask)

/-- `Board::update_en_passant` (runs after the piece has been moved): clear the
EP square, then set it again on a pawn double push, flipping the zobrist EP
component only when an opposing pawn can capture it. -/
def update_en_passant (zk : ZKeys) (b : Board) (m : Move) : Board :=
  let b := { b with state.en_passant_target := 0 }
  match m with
  | .Normal f t =>
    if b.piece_on m.toSq = some PieceType.Pawn then
      let color := b.turn_color
      if color = Color.White && t - f = 16 then
        let b := { b with state.en_passant_target := fromSquare (f + 8) }
        if b.update_ep_zobrist Color.Black then
          { b with state.zobrist_key := b.state.zobrist_key ^^^ zk.get_key_ep_square (f + 8) }
        else b
      else if color = Color.Black && f - t = 16 then
        let b := { b with state.en_passant_target := fromSquare (f - 8) }
        if b.update_ep_zobrist Color.White then
          { b with state.zobrist_key := b.state.zobrist_key ^^^ zk.get_key_ep_square (f - 8) }
        else b
      else b
    else b
  | _ => b

/-- `Board::update_attack_bitboards`: recompute both controlled-square caches
from scratch. -/
def update_attack_bitboards (b : Board) : Board :=
  let b := { b with state.white_attacks := movegen.get_controlled_squares b Color.White }
  { b with state.black_attacks := movegen.get_controlled_squares b Color.Black }

/-- `Board::create_zobrist_key`: from-scratch hash, XORed into the current
value (which is 0 when called from `from_fen`). -/
def create_zobrist_key (zk : ZKeys) (b : Board) : Board :=
  let z := b.state.zobrist_key
  let z := ([Color.Black, Color.White].flatMap fun c =>
      [PieceType.King, PieceType.Queen, PieceType.Bishop,
       PieceType.Knight, PieceType.Rook, PieceType.Pawn].map fun t => (c, t)).foldl
    (fun z ct => (bbIndices ((b.get_pieces ct.1).get_pieces_of_type ct.2)).foldl
      (fun z sq => z ^^^ zk.get_key_for_piece ct.2 ct.1 sq) z) z
  let z := z ^^^ zk.get_key_castling b.castling_info
  let z := if b.update_ep_zobrist b.turn_color then
    z ^^^ zk.get_key_ep_square (trailingZeros b.ep_square) else z
  let z := if b.turn_color = Color.White then z ^^^ zk.turnKey else z
  { b with state.zobrist_key := z }

/-- The first step of `Board::make_move` and `Board::make_null_move`: XOR out
the EP-file zobrist component when it is currently included. -/
def ep_zobrist_flip (zk : ZKeys) (b : Board) : Board :=
  if b.update_ep_zobrist b.turn_color then
    { b with state.zobrist_key :=
        b.state.zobrist_key ^^^ zk.get_key_ep_square (trailingZeros b.ep_square) }
  else b

/-- `Board::make_move` (assumes the move is legal). -/
def make_move (zk : ZKeys) (b : Board) (m : Move) : Board :=
  let move_undo_data : MoveUndoData :=
    { state := b.state, ep := false, captured_piece := Option.none }
  let b := ep_zobrist_flip zk b
  let (b, move_undo_data) :=
    if m.is_castle then
      let (b, u) := castle zk b m move_undo_data
      -- castling calls move_piece twice, compensate the double 50-move increment
      ({ b with state.fifty_move_rule_counter := b.state.fifty_move_rule_counter - 1 }, u)
    else
      move_piece zk b m move_undo_data
  let b := update_en_passant zk b m
  let b := { b with turn := b.turn.opp }
  let b := { b with state.zobrist_key := b.state.zobrist_key ^^^ zk.turnKey }
  let b := { b with full_turns := b.full_turns + b.turn.toIndex }
  let b := update_attack_bitboards b
  let b := { b with plies := b.plies + 1 }
  { b with previous_moves := move_undo_data :: b.previous_moves }

/-- `Board::unmake_move` (assumes the move is the last one made; the source
`unwrap`s the popped undo record, the embedding returns the board unchanged on
the contract-unreachable empty stack). -/
def unmake_move (b : Board) (m : Move) : Board :=
  match b.previous_moves with
  | [] => b
  | move_undo_data :: rest =>
    let b := { b with previous_moves := rest, state := move_undo_data.state }
    let b := { b with full_turns := b.full_turns - b.turn.toIndex }
    let b := { b with plies := b.plies - 1 }
    let b := { b with turn := b.turn.opp }
    if m.is_castle then b.undo_castle m
    else
      let from_bb := fromSquare m.fromSq
      let to_bb := fromSquare m.toSq
      let moving_color := b.turn_color
      let enemy_color := moving_color.opp
      let b := b.set_color_bitboard moving_color
        (b.get_color_bitboard moving_color ^^^ (from_bb ||| to_bb))
      let b := { b with all_pieces := b.all_pieces ^^^ (from_bb ||| to_bb) }
      let piece_moving := (b.piece_on m.toSq).getD PieceType.Pawn
      let b := b.set_piece_on m.toSq Option.none
      let b := b.set_pieces moving_color
        ((b.get_pieces moving_color).xor_type piece_moving to_bb)
      let piece_before := if m.is_promotion then PieceType.Pawn else piece_moving
      let b := b.set_pieces moving_color
        ((b.get_pieces moving_color).xor_type piece_before from_bb)
      let b := b.set_piece_on m.fromSq (some piece_before)
      if move_undo_data.ep then
        let ep_square := b.ep_square
        let target_bb := if b.turn_color = Color.White then ep_square >>> 8
                         else shl64 ep_square 8
        let b := b.set_color_bitboard enemy_color
          (b.get_color_bitboard enemy_color ||| target_bb)
        let b := { b with all_pieces := b.all_pieces ||| target_bb }
        let b := b.set_pieces enemy_color
          ((b.get_pieces enemy_color).or_type PieceType.Pawn target_bb)
        b.set_piece_on (trailingZeros target_bb) (some PieceType.Pawn)
      else
        match move_undo_data.captured_piece with
        | some captured_type =>
          let b := b.set_color_bitboard enemy_color
            (b.get_color_bitboard enemy_color ||| to_bb)
          let b := { b with all_pieces := b.all_pieces ||| to_bb }
          let b := b.set_pieces enemy_color
            ((b.get_pieces enemy_color).or_type captured_type to_bb)
          b.set_piece_on m.toSq move_undo_data.captured_piece
        | Option.none => b

/-- `Board::make_null_move`. -/
def make_null_move (zk : ZKeys) (b : Board) : Board :=
  let move_data : MoveUndoData :=
    { ep := false, captured_piece := Option.none, state := b.state }
  let b := { b with previous_moves := move_data :: b.previous_moves }
  let b := ep_zobrist_flip zk b
  let b := { b with state.en_passant_target := 0 }
  let b := { b with turn := b.turn.opp }
  let b := { b with state.zobrist_key := b.state.zobrist_key ^^^ zk.turnKey }
  let b := { b with plies := b.plies + 1 }
  { b with full_turns := b.full_turns + b.turn.toIndex }

/-- `Board::unmake_null_move`. -/
def unmake_null_move (b : Board) : Board :=
  match b.previous_moves with
  | [] => b
  | move_undo_data :: rest =>
    let b := { b with previous_moves := rest, state := move_undo_data.state }
    let b := { b with full_turns := b.full_turns - b.turn.toIndex }
    let b := { b with plies := b.plies - 1 }
    { b with turn := b.turn.opp }

/-- `Board::pseudolegal_moves`: empty on immediate draws. -/
def pseudolegal_moves (b : Board) : List Move :=
  if b.is_draw then [] else movegen.get_pseudolegal_moves b b.turn_color

/-- `Board::pseudolegal_caps`: empty on immediate draws. -/
def pseudolegal_caps (b : Board) : List Move :=
  if b.is_draw then [] else movegen.get_pseudolegal_caps_proms b

/-- The stateful filter inside `Board::legal_moves`: castles pass unchecked;
other moves are made on the working board, tested for leaving the mover in
check, and unmade. -/
def legal_moves_aux (zk : ZKeys) : Board → List Move → List Move
  | _, [] => []
  | bd, mv :: ms =>
    if mv.is_castle then mv :: legal_moves_aux zk bd ms
    else
      let b1 := make_move zk bd mv
      let chk := b1.is_check b1.turn_color.opp
      let b2 := unmake_move b1 mv
      if !chk then mv :: legal_moves_aux zk b2 ms else legal_moves_aux zk b2 ms

/-- `Board::legal_moves`: pseudolegal moves filtered on a cloned board. -/
def legal_moves (zk : ZKeys) (b : Board) : List Move :=
  legal_moves_aux zk b b.pseudolegal_moves

end Board

/-! ## FEN construction (`fen_utils.rs`, `Board::from_fen`)

FEN string parsing is an external collaborator per the spec; the embedding
starts from the parsed `FENInfo` record and performs `Board::from_fen`'s
construction. -/

/-- The `FENInfo` struct produced by `read_fen`. -/
structure FENInfo where
  turn : Color
  castling_rights : CastlingRights
  en_passant_square : Nat
  halfmoves_since_capture : Nat
  fullmoves_since_start : Nat
  black_pieces : Pieces
  white_pieces : Pieces
  piece_on_square : List (Option PieceType)

/-- `Board::from_fen`, starting from the parsed record: populate the fields,
compute unions, attack caches and the zobrist key.  (`fullmoves - 1` is a `u16`
subtraction in the source; `fullmoves = 0` would panic there and truncates
here.) -/
def Board.from_fen (zk : ZKeys) (info : FENInfo) : Board :=
  let plies := (info.fullmoves_since_start - 1) * 2 +
    (if info.turn = Color.Black then 1 else 0)
  let all_blacks := info.black_pieces.combine
  let all_whites := info.white_pieces.combine
  let all_pieces := all_blacks ||| all_whites
  let state : State :=
    { castling_rights := info.castling_rights
      en_passant_target := info.en_passant_square
      fifty_move_rule_counter := info.halfmoves_since_capture
      black_attacks := 0
      white_attacks := 0
      last_moved := 255
      zobrist_key := 0 }
  let board : Board :=
    { plies, state, all_whites, all_blacks, all_pieces
      previous_moves := []
      turn := info.turn
      full_turns := info.fullmoves_since_start
      white_pieces := info.white_pieces
      black_pieces := info.black_pieces
      piece_on_square := info.piece_on_square }
  Board.create_zobrist_key zk (Board.update_attack_bitboards board)

/-! ## Move classification used by the search (`movement.rs`) -/

/-- `Move::is_capture`: the destination square is occupied, or — for `Normal`
moves — equals the active en-passant square. -/
def Move.is_capture (m : Move) (b : Board) : Bool :=
  match m with
  | .Normal _ t => fromSquare t &&& (b.get_all_bitboard ||| b.ep_square) ≠ 0
  | .PawnPromotion _ t _ => fromSquare t &&& b.get_all_bitboard ≠ 0
  | _ => false

/-- `Move::piece_moving`. -/
def Move.piece_moving (m : Move) (b : Board) : PieceType :=
  match m with
  | .Normal f _ => (b.piece_on f).getD PieceType.Pawn
  | .PawnPromotion _ _ _ => PieceType.Pawn
  | _ => PieceType.King

/-! ## Engine scores (`evaluation/evaluate.rs`)

`Evaluation` wraps an `i16` score; we embed the score as an `Int` (all the
values handled by the embedded fragments stay within `i16` range). -/

/-- The `Evaluation` struct. -/
structure Evaluation where
  score : Int
deriving DecidableEq, Repr

namespace Evaluation

/-- `Evaluation::new`. -/
def new (s : Int) : Evaluation := ⟨s⟩

/-- `Evaluation::contempt` (the `CONTEMPT` constant is 0). -/
def contempt : Evaluation := new 0

/-- `Evaluation::min_val` = `i16::MIN + 1`. -/
def min_val : Evaluation := new (-32767)

/-- `Evaluation::max_val` = `i16::MAX`. -/
def max_val : Evaluation := new 32767

/-- `Evaluation::is_positive_mate`: `self >= max_val() - 100`. -/
def is_positive_mate (e : Evaluation) : Bool := max_val.score - 100 ≤ e.score

/-- `Evaluation::is_negative_mate`: `self <= min_val() + 100`. -/
def is_negative_mate (e : Evaluation) : Bool := e.score ≤ min_val.score + 100

/-- `Evaluation::is_mate`. -/
def is_mate (e : Evaluation) : Bool := e.is_negative_mate || e.is_positive_mate

end Evaluation

/-! ## Transposition table (`trasposition/entry.rs`, `table.rs`) -/

/-- The bound flag stored with a score (named `Exact`/`Lowerbound`/`Upperbound`
at the use sites in `searching.rs` and `table.rs`). -/
inductive NodeType where
  | Exact
  | Lowerbound
  | Upperbound
deriving DecidableEq, Repr

/-- The `TTData` struct. -/
structure TTData where
  depth : Nat
  eval : Evaluation
  node_type : NodeType
  best_move : Option Move
deriving DecidableEq, Repr

/-- The `TTEntry` struct.  The source wraps `data` in `MaybeUninit` for the
lockless table; arbitrary table contents model the uninitialised reads. -/
structure TTEntry where
  zobrist : Nat
  data : TTData
deriving DecidableEq, Repr

instance : Inhabited TTEntry :=
  ⟨⟨0, ⟨0, Evaluation.new 0, NodeType.Exact, Option.none⟩⟩⟩

/-- `TTEntry::new`. -/
def TTEntry.new (zobrist : Nat) (depth : Nat) (eval : Evaluation)
    (node_type : NodeType) (best_move : Option Move) : TTEntry :=
  ⟨zobrist, ⟨depth, eval, node_type, best_move⟩⟩

/-- The `TTable` struct: a fixed-size vector of entries indexed by
`zobrist mod size`. -/
structure TTable where
  size : Nat
  entries : List TTEntry
deriving DecidableEq, Repr

/-- `TTable::write_entry`: always replace when the stored key differs;
otherwise replace only when the new depth is strictly higher, or the new flag
differs from the stored one and the stored one is not `Exact`. -/
def TTable.write_entry (t : TTable) (zobrist_key : Nat) (entry : TTEntry) : TTable :=
  let index := zobrist_key % t.size
  let prev_entry := t.entries.getD index default
  if prev_entry.zobrist ≠ zobrist_key then
    { t with entries := t.entries.set index entry }
  else
    let prev_data := prev_entry.data
    let new_data := entry.data
    if prev_data.depth < new_data.depth ||
       (new_data.node_type ≠ prev_data.node_type &&
        prev_data.node_type ≠ NodeType.Exact) then
      { t with entries := t.entries.set index entry }
    else t

/-! ## Time manager (`time.rs`)

The embedding covers `TimeManager::new`'s budget derivation.  `u64` arithmetic
that panics (overflowing multiplication or subtraction in a debug build,
division by zero in any build) is modelled as `Option.none`. -/

/-- The `SearchOptions` struct (`search/searching.rs`). -/
structure SearchOptions where
  total_time_remaining : Option Nat
  moves_until_control : Option Nat
  time_for_move : Option Nat
  max_depth : Option Nat
deriving DecidableEq, Repr

/-- The `OFFSET` constant (microseconds subtracted from the allocated time). -/
def OFFSET : Nat := 10000

/-- The `TimeManager` fields derived by `TimeManager::new` (the clock instant
is an external collaborator and is omitted). -/
structure TimeManager where
  unlimited : Bool
  time_for_this_move : Nat
  total_remaining : Nat
  finished : Bool
  hard_limit : Bool
deriving DecidableEq, Repr

/-- `TimeManager::new`: derive the per-move budget from the options. -/
def TimeManager.new (options : SearchOptions) : Option TimeManager :=
  match options.time_for_move with
  | some time =>
    -- `time * 1000 - OFFSET` in u64
    if time * 1000 < U64 ∧ OFFSET ≤ time * 1000 then
      some { time_for_this_move := time * 1000 - OFFSET, total_remaining := 0,
             unlimited := false, hard_limit := true, finished := false }
    else Option.none
  | Option.none =>
    match options.total_time_remaining with
    | Option.none =>
      some { time_for_this_move := 0, total_remaining := 0,
             unlimited := true, hard_limit := false, finished := false }
    | some tot =>
      -- `total_remaining / moves_remaining * 4 / 5 - OFFSET` in u64
      if tot * 1000 < U64 then
        let total_remaining := tot * 1000
        let moves_remaining := options.moves_until_control.getD 40
        if moves_remaining = 0 then Option.none
        else if total_remaining / moves_remaining * 4 < U64 then
          let per_move := total_remaining / moves_remaining * 4 / 5
          if OFFSET ≤ per_move then
            some { time_for_this_move := per_move - OFFSET, total_remaining,
                   unlimited := false, hard_limit := false, finished := false }
          else Option.none
        else Option.none
      else Option.none

/-! ## Search fragments (`search/searching.rs`, `search/history.rs`) -/

/-- `NULL_MOVE_REDUCTION`. -/
def NULL_MOVE_REDUCTION : Nat := 2

/-- The null-move-pruning guard in `Search::negamax`:
`can_null && !is_check && depth_remaining > NULL_MOVE_REDUCTION
&& !board.only_pawns_or_endgame() && !is_pv`, with
`is_pv = (beta - alpha != 1)`. -/
def null_move_guard (can_null is_check : Bool) (depth_remaining : Nat)
    (b : Board) (alpha beta : Evaluation) : Bool :=
  let is_pv : Bool := decide (beta.score - alpha.score ≠ 1)
  can_null && !is_check && decide (NULL_MOVE_REDUCTION < depth_remaining) &&
    !b.only_pawns_or_endgame && !is_pv

/-- The parameters the null search is invoked with. -/
structure NullSearchCall where
  depth : Nat
  window : Evaluation × Evaluation
  allow_null : Bool
deriving DecidableEq, Repr

/-- The recursive call performed for the null search:
`negamax(new_board, depth_remaining - NULL_MOVE_REDUCTION - 1, …,
(-beta, -beta + 1), false, …)`. -/
def null_search_call (depth_remaining : Nat) (beta : Evaluation) : NullSearchCall :=
  { depth := depth_remaining - NULL_MOVE_REDUCTION - 1
    window := (Evaluation.new (-beta.score), Evaluation.new (-beta.score + 1))
    allow_null := false }

/-- What the null-move block does with the returned score. -/
inductive NullMoveResult where
  | cutoff (v : Evaluation)
  | extend
  | noEffect
deriving DecidableEq, Repr

/-- The score handling after the null search:
return `beta` when `score >= beta && !score.is_positive_mate()`; otherwise
extend the depth by 1 when `score.is_negative_mate()`. -/
def null_move_outcome (score beta : Evaluation) : NullMoveResult :=
  if beta.score ≤ score.score && !score.is_positive_mate then .cutoff beta
  else if score.is_negative_mate then .extend
  else .noEffect

/-- The quiet-move bookkeeping at the end of the negamax move loop:
`if Some(mv) != best_move && !is_capture { analyzed_quiets.push(mv) }`. -/
def analyzed_quiets_step (quiets : List Move) (mv : Move) (best_move : Option Move)
    (is_capture : Bool) : List Move :=
  if some mv ≠ best_move && !is_capture then quiets ++ [mv] else quiets

/-- `MAX_HISTORY_VAL` (`move_ordering.rs`): `i32::MAX - 1003`. -/
def MAX_HISTORY_VAL : Int := 2147483647 - 1003

/-- `get_from_to` (`history.rs`): history indices, with fixed squares for
castling moves. -/
def get_from_to (mv : Move) (color : Color) : Nat × Nat :=
  match mv, color with
  | .ShortCastle, Color.White => (3, 1)
  | .LongCastle, Color.White => (3, 5)
  | .ShortCastle, Color.Black => (59, 57)
  | .LongCastle, Color.Black => (59, 61)
  | _, _ => (mv.fromSq, mv.toSq)

/-- The `HistoryTable`: move scores indexed by `[color][from][to]`. -/
structure HistoryTable where
  data : Nat → Nat → Nat → Int

/-- `HistoryTable::age`: halve every entry. -/
def HistoryTable.age (h : HistoryTable) : HistoryTable :=
  ⟨fun c f t => h.data c f t / 2⟩

/-- `HistoryTable::add_bonus`, aging the table when the maximum is reached. -/
def HistoryTable.add_bonus (h : HistoryTable) (mv : Move) (color : Color)
    (bonus : Int) : HistoryTable :=
  let ft := get_from_to mv color
  let newval := h.data color.toIndex ft.1 ft.2 + bonus
  let h' : HistoryTable :=
    ⟨fun c f t => if c = color.toIndex ∧ f = ft.1 ∧ t = ft.2 then newval
                  else h.data c f t⟩
  if MAX_HISTORY_VAL < newval then h'.age else h'

/-- The killer-move table: primary and secondary killer for each depth. -/
def Killers : Type := Nat → Move × Move

/-- `Search::update_histories`: when the best move is quiet, give it a history
bonus and store it as a killer, and penalise the other quiet moves; do nothing
when it is a capture. -/
def update_histories (killers : Killers) (history : HistoryTable)
    (best_move : Move) (quiet_moves : List Move) (b : Board) (depth : Nat) :
    Killers × HistoryTable :=
  if !(best_move.is_capture b) then
    let color := b.turn_color
    let bonus : Int := (depth : Int) * (depth : Int)
    let history := history.add_bonus best_move color bonus
    let killers : Killers :=
      if best_move ≠ (killers depth).1 then
        fun i => if i = depth then (best_move, (killers depth).1) else killers i
      else killers
    let history := quiet_moves.foldl (fun h mv => h.add_bonus mv color (-bonus)) history
    (killers, history)
  else (killers, history)

/-! ## Draw-by-repetition detection (`searching.rs::is_draw_by_repetition`)

The counters are `u16` in the source; `u16sub` is the (wrapping) `u16`
subtraction and `u16cast` the `as u16` cast. -/

/-- Wrapping `u16` subtraction (a debug build panics exactly when it wraps). -/
def u16sub (a b : Nat) : Nat := (a % 65536 + (65536 - b % 65536)) % 65536

/-- `as u16` cast. -/
def u16cast (a : Nat) : Nat := a % 65536

/-- `Iterator::step_by(2)`: every other element, starting with the first. -/
def stepBy2 {α : Type} : List α → List α
  | [] => []
  | [x] => [x]
  | x :: _ :: xs => x :: stepBy2 xs

/-- The match-counting loop of `is_draw_by_repetition`, with `rep_count`
starting at 1 for the current position. -/
def repLoop (current_zobrist last_played_ply : Nat) :
    List (Nat × Nat) → Nat → Bool
  | [], _ => false
  | (ply, zobrist) :: rest, rep_count =>
    if zobrist = current_zobrist then
      let rep_count := rep_count + 1
      if (rep_count = 2 && last_played_ply < u16cast ply) || rep_count = 3 then true
      else repLoop current_zobrist last_played_ply rest rep_count
    else repLoop current_zobrist last_played_ply rest rep_count

/-- `is_draw_by_repetition`: walk the history backwards from the last
irreversible ply in steps of two, counting occurrences of the current hash. -/
def is_draw_by_repetition (b : Board) (cur_depth : Nat) (history : List Nat) : Bool :=
  let current_zobrist := b.zobrist_key
  let last_irr_move := u16sub b.current_ply b.fifty_move_rule_counter
  let last_played_ply := u16sub b.current_ply cur_depth
  let prev_states :=
    (stepBy2 ((history.enum.drop last_irr_move).reverse)).drop 1
  repLoop current_zobrist last_played_ply prev_states 1

/-! ## Position invariants and reachability

The position invariants of spec section 3 ("Invariants (must hold after every
make/unmake/null-move)"), together with the semantic consistency a well-formed
FEN guarantees (EP square backed by a double push, castling rights backed by
king and rook on their home squares, the side that just moved not left in
check). -/

/-- The six piece bitboards of one side are pairwise disjoint. -/
def Pieces.disjointTypes (p : Pieces) : Prop :=
  List.Pairwise (fun x y => x &&& y = 0)
    [p.pawns, p.rooks, p.knights, p.bishops, p.queens, p.king]

/-- EP-square consistency: when set, it is a single empty square behind an
enemy pawn that just double-pushed (rank 6 when White is to move, rank 3 when
Black is). -/
def epOk (b : Board) : Prop :=
  b.state.en_passant_target = 0 ∨
  (b.state.en_passant_target = 2 ^ trailingZeros b.state.en_passant_target ∧
   b.all_pieces.testBit (trailingZeros b.state.en_passant_target) = false ∧
   ((b.turn = Color.White ∧ 40 ≤ trailingZeros b.state.en_passant_target ∧
     trailingZeros b.state.en_passant_target < 48 ∧
     b.black_pieces.pawns.testBit (trailingZeros b.state.en_passant_target - 8) = true) ∨
    (b.turn = Color.Black ∧ 16 ≤ trailingZeros b.state.en_passant_target ∧
     trailingZeros b.state.en_passant_target < 24 ∧
     b.white_pieces.pawns.testBit (trailingZeros b.state.en_passant_target + 8) = true)))

/-- Castling-rights consistency: a flag implies king and rook on their home
squares. -/
def castlingOk (b : Board) : Prop :=
  (b.castling_info.can_castle_kingside Color.White = true →
    b.white_pieces.king.testBit 3 = true ∧ b.white_pieces.rooks.testBit 0 = true) ∧
  (b.castling_info.can_castle_queenside Color.White = true →
    b.white_pieces.king.testBit 3 = true ∧ b.white_pieces.rooks.testBit 7 = true) ∧
  (b.castling_info.can_castle_kingside Color.Black = true →
    b.black_pieces.king.testBit 59 = true ∧ b.black_pieces.rooks.testBit 56 = true) ∧
  (b.castling_info.can_castle_queenside Color.Black = true →
    b.black_pieces.king.testBit 59 = true ∧ b.black_pieces.rooks.testBit 63 = true)

/-- Each side has exactly one king (a single-bit king bitboard). -/
def kingOk (b : Board) : Prop :=
  b.white_pieces.king ≠ 0 ∧
  b.white_pieces.king = 2 ^ trailingZeros b.white_pieces.king ∧
  b.black_pieces.king ≠ 0 ∧
  b.black_pieces.king = 2 ^ trailingZeros b.black_pieces.king

/-- The well-formedness invariant of a position: union/per-square agreement,
disjointness, bounds, EP and castling consistency, one king per side, correct
controlled-square caches, and the side that just moved not in check. -/
def WF (b : Board) : Prop :=
  b.piece_on_square.length = 64 ∧
  b.all_whites = b.white_pieces.combine ∧
  b.all_blacks = b.black_pieces.combine ∧
  b.all_pieces = b.all_whites ||| b.all_blacks ∧
  b.all_pieces < U64 ∧
  b.all_whites &&& b.all_blacks = 0 ∧
  Pieces.disjointTypes b.white_pieces ∧
  Pieces.disjointTypes b.black_pieces ∧
  (∀ i, i < 64 → (b.piece_on_square.getD i Option.none = Option.none ↔
      b.all_pieces.testBit i = false)) ∧
  (∀ i, i < 64 → ∀ p : PieceType, b.piece_on_square.getD i Option.none = some p →
      (b.white_pieces.get_pieces_of_type p |||
       b.black_pieces.get_pieces_of_type p).testBit i = true) ∧
  epOk b ∧
  castlingOk b ∧
  kingOk b ∧
  b.state.white_attacks = movegen.get_controlled_squares b Color.White ∧
  b.state.black_attacks = movegen.get_controlled_squares b Color.Black ∧
  b.is_check b.turn.opp = false

/-- The per-move facts established by the pseudolegal move generator, used to
prove that `unmake_move` inverts `make_move`. -/
def MoveOk (b : Board) : Move → Prop
  | .Normal f t => f < 64 ∧ t < 64 ∧ f ≠ t ∧
      (b.get_color_bitboard b.turn).testBit f = true ∧
      (b.get_color_bitboard b.turn).testBit t = false ∧
      (b.piece_on f = some PieceType.Pawn → b.turn = Color.White → t - f = 16 →
        8 ≤ f ∧ f < 16 ∧ b.all_pieces.testBit (f + 8) = false) ∧
      (b.piece_on f = some PieceType.Pawn → b.turn = Color.Black → f - t = 16 →
        48 ≤ f ∧ f < 56 ∧ b.all_pieces.testBit (f - 8) = false)
  | .PawnPromotion f t pc => f < 64 ∧ t < 64 ∧ f ≠ t ∧
      (b.get_color_bitboard b.turn).testBit f = true ∧
      (b.get_color_bitboard b.turn).testBit t = false ∧
      (b.get_pieces b.turn).pawns.testBit f = true ∧
      pc ≠ PieceType.Pawn ∧ pc ≠ PieceType.King ∧
      (b.turn = Color.White → 55 < t) ∧ (b.turn = Color.Black → t < 8)
  | .ShortCastle =>
      b.castling_info.can_castle_kingside b.turn = true ∧
      b.all_pieces &&& (if b.turn = Color.White then movegen.WHITE_SHORT_CASTLE_BB
                        else movegen.BLACK_SHORT_CASTLE_BB) = 0 ∧
      (b.get_attack_bitboard b.turn.opp) &&&
        (if b.turn = Color.White then movegen.WHITE_SHORT_CASTLE_CHECKS
         else movegen.BLACK_SHORT_CASTLE_CHECKS) = 0
  | .LongCastle =>
      b.castling_info.can_castle_queenside b.turn = true ∧
      b.all_pieces &&& (if b.turn = Color.White then movegen.WHITE_LONG_CASTLE_BB
                        else movegen.BLACK_LONG_CASTLE_BB) = 0 ∧
      (b.get_attack_bitboard b.turn.opp) &&&
        (if b.turn = Color.White then movegen.WHITE_LONG_CASTLE_CHECKS
         else movegen.BLACK_LONG_CASTLE_CHECKS) = 0

instance (p : Pieces) : Decidable p.disjointTypes := by
  unfold Pieces.disjointTypes; infer_instance

instance (b : Board) : Decidable (epOk b) := by unfold epOk; infer_instance

instance (b : Board) : Decidable (castlingOk b) := by unfold castlingOk; infer_instance

instance (b : Board) : Decidable (kingOk b) := by unfold kingOk; infer_instance

instance (b : Board) : Decidable (WF b) := by unfold WF; infer_instance

instance (b : Board) (m : Move) : Decidable (MoveOk b m) := by
  cases m <;> (simp only [MoveOk]; infer_instance)

/-- A well-formed parsed FEN: one whose constructed board satisfies the
position invariants (the invariants do not involve the zobrist keys, so the
all-zero assignment serves as representative). -/
def FenOk (info : FENInfo) : Prop := WF (Board.from_fen zk0 info)

instance (info : FENInfo) : Decidable (FenOk info) := by unfold FenOk; infer_instance

/-- The positions the claims quantify over: constructed from a well-formed
FEN, then closed under legal moves and (non-in-check) null moves. -/
inductive Reachable (zk : ZKeys) : Board → Prop where
  | fen (info : FENInfo) (h : FenOk info) : Reachable zk (Board.from_fen zk info)
  | step (b : Board) (m : Move) (hb : Reachable zk b)
      (hm : m ∈ Board.legal_moves zk b) : Reachable zk (Board.make_move zk b m)
  | null (b : Board) (hb : Reachable zk b) (hchk : b.is_check b.turn = false) :
      Reachable zk (Board.make_null_move zk b)

/-- The from-scratch hash of a position: `create_zobrist_key` run with the
incremental hash zeroed out. -/
def zobristScratch (zk : ZKeys) (b : Board) : Nat :=
  (Board.create_zobrist_key zk
    { b with state := { b.state with zobrist_key := 0 } }).state.zobrist_key

/-! ## Specification-side definitions

The following definitions formalise claim statements (to be compared with the
definitions transcribed from the sources above); they are written from the
claims' words, not from the code. -/

/-- Claim C4's condition for attempting null-move pruning: `allow_null` set,
not in check, `depth_remaining > R+1`, pieces beyond pawns and kings on the
board, not a PV node. -/
def claim_null_guard (can_null is_check : Bool) (depth_remaining : Nat)
    (b : Board) (alpha beta : Evaluation) : Bool :=
  can_null && !is_check && decide (NULL_MOVE_REDUCTION + 1 < depth_remaining) &&
    !b.only_pawns && !(decide (beta.score - alpha.score ≠ 1))

/-- Claim C5's "more informative" bound order: an exact score is more
informative than a mere bound. -/
def more_informative (a b : NodeType) : Bool :=
  a = NodeType.Exact && b ≠ NodeType.Exact

/-- Claim C5's replacement condition: always replace on a key mismatch,
otherwise replace iff the new depth is greater-or-equal or the new bound type
is more informative. -/
def claim_tt_replaces (prev new : TTEntry) (key : Nat) : Bool :=
  prev.zobrist ≠ key ||
    (prev.data.depth ≤ new.data.depth ||
     more_informative new.data.node_type prev.data.node_type)

/-- Claim C6's walk: the plies visited when walking the history backward in
steps of 2 starting two plies below the most recent entry, stopping at the
last irreversible ply (all arithmetic exact). -/
def claim_rep_walk (last_irr len : Nat) : List Nat :=
  (List.range ((len - 1 - last_irr) / 2)).map (fun n => len - 3 - 2 * n)

/-- Claim C6, formalised: among the visited plies, the hashes equal to the
current one; report a draw when the most recent such ply is strictly beyond
the last actually-played ply, or when there are at least two of them. -/
def is_draw_by_repetition_spec (b : Board) (cur_depth : Nat)
    (history : List Nat) : Bool :=
  let current_zobrist := b.zobrist_key
  let last_irr := b.current_ply - b.fifty_move_rule_counter
  let last_played := b.current_ply - cur_depth
  let reps := (claim_rep_walk last_irr history.length).filter
    (fun i => history.getD i 0 = current_zobrist)
  match reps with
  | [] => false
  | i :: rest => decide (last_played < i) || decide (rest ≠ [])

/-! ## Concrete positions used by witnesses and counterexamples -/

/-- Per-square piece array of the standard starting position
(square = rank*8 + (7 − file)). -/
def startPos : List (Option PieceType) :=
  (List.range 64).map (fun i =>
    if i ≤ 7 then
      some (match i with
        | 0 => PieceType.Rook | 1 => PieceType.Knight | 2 => PieceType.Bishop
        | 3 => PieceType.King | 4 => PieceType.Queen | 5 => PieceType.Bishop
        | 6 => PieceType.Knight | _ => PieceType.Rook)
    else if 8 ≤ i ∧ i ≤ 15 then some PieceType.Pawn
    else if 48 ≤ i ∧ i ≤ 55 then some PieceType.Pawn
    else if 56 ≤ i then
      some (match i - 56 with
        | 0 => PieceType.Rook | 1 => PieceType.Knight | 2 => PieceType.Bishop
        | 3 => PieceType.King | 4 => PieceType.Queen | 5 => PieceType.Bishop
        | 6 => PieceType.Knight | _ => PieceType.Rook)
    else Option.none)

/-- Parsed FEN of the standard starting position. -/
def infoStart : FENInfo :=
  { turn := Color.White
    castling_rights := ⟨0x0F⟩
    en_passant_square := 0
    halfmoves_since_capture := 0
    fullmoves_since_start := 1
    white_pieces := { pawns := 0xFF00, rooks := 0x81, knights := 0x42,
                      bishops := 0x24, queens := 0x10, king := 0x8 }
    black_pieces := { pawns := 0xFF000000000000, rooks := 0x8100000000000000,
                      knights := 0x4200000000000000, bishops := 0x2400000000000000,
                      queens := 0x1000000000000000, king := 0x0800000000000000 }
    piece_on_square := startPos }

/-- The starting position (all zobrist keys zero). -/
def bStart : Board := Board.from_fen zk0 infoStart

/-- The board after the double pawn push `e2e4` from the start: the en-passant
target square e3 (square 19) is active. -/
def bEP : Board := Board.make_move zk0 bStart (Move.Normal 11 27)

/-- Parsed FEN of `4k3/8/8/8/8/8/8/R3K3 w - - 0 1`
(white Ke1, Ra1 vs black Ke8). -/
def infoKRK : FENInfo :=
  { turn := Color.White
    castling_rights := CastlingRights.none
    en_passant_square := 0
    halfmoves_since_capture := 0
    fullmoves_since_start := 1
    black_pieces := { king := 2 ^ 59 }
    white_pieces := { king := 2 ^ 3, rooks := 2 ^ 7 }
    piece_on_square := (List.range 64).map (fun i =>
      if i = 3 then some PieceType.King else if i = 7 then some PieceType.Rook
      else if i = 59 then some PieceType.King else Option.none) }

/-- The K+R vs K position. -/
def bKRK : Board := Board.from_fen zk0 infoKRK

/-- Parsed FEN of `4k3/8/8/8/8/8/8/R3K3 w - - 100 60`: the same position with
the 50-move counter at 100, an immediate draw. -/
def info100 : FENInfo :=
  { infoKRK with halfmoves_since_capture := 100, fullmoves_since_start := 60 }

/-- The K+R vs K position with the 50-move counter at 100. -/
def b100 : Board := Board.from_fen zk0 info100

/-- Parsed FEN of `4k3/8/8/7r/8/7K/8/4R2R w K - 0 1`: a syntactically valid
FEN whose castling-rights field `K` is inconsistent with the piece placement
(the white king is on h3, a rook on e1).  Squares: Re1 = 3, Rh1 = 0,
Kh3 = 16, black Rh5 = 32, Ke8 = 59. -/
def infoCastleBug : FENInfo :=
  { turn := Color.White
    castling_rights := ⟨0b1000⟩
    en_passant_square := 0
    halfmoves_since_capture := 0
    fullmoves_since_start := 1
    white_pieces := { king := 2 ^ 16, rooks := 2 ^ 3 + 2 ^ 0 }
    black_pieces := { king := 2 ^ 59, rooks := 2 ^ 32 }
    piece_on_square := (List.range 64).map (fun i =>
      if i = 16 then some PieceType.King else if i = 3 ∨ i = 0 then some PieceType.Rook
      else if i = 59 then some PieceType.King else if i = 32 then some PieceType.Rook
      else Option.none) }

/-- The castling-rights-inconsistent position. -/
def bCastleBug : Board := Board.from_fen zk0 infoCastleBug

/-- Parsed FEN of `k7/8/8/8/8/8/8/K7 w - - 50 1`: halfmove clock 50 with
fullmove number 1, so the derived ply count is 0. -/
def info50 : FENInfo :=
  { turn := Color.White
    castling_rights := CastlingRights.none
    en_passant_square := 0
    halfmoves_since_capture := 50
    fullmoves_since_start := 1
    black_pieces := { king := 2 ^ 63 }
    white_pieces := { king := 2 ^ 7 }
    piece_on_square := (List.range 64).map (fun i =>
      if i = 7 then some PieceType.King else if i = 63 then some PieceType.King
      else Option.none) }

/-- The board with 50-move counter exceeding the ply counter. -/
def b50 : Board := Board.from_fen zk0 info50

/-- A stored TT entry: key 5, depth 4, score 0, exact. -/
def ttPrev : TTEntry := ⟨5, ⟨4, Evaluation.new 0, NodeType.Exact, Option.none⟩⟩

/-- A new TT entry for the same key and depth with a different exact score. -/
def ttNew : TTEntry := ⟨5, ⟨4, Evaluation.new 7, NodeType.Exact, Option.none⟩⟩

/-- A one-slot transposition table holding `ttPrev`. -/
def tt1 : TTable := ⟨1, [ttPrev]⟩

/-- Search options with a total time remaining and `moves_until_control = 0`. -/
def optsZeroMoves : SearchOptions :=
  { total_time_remaining := some 1000
    moves_until_control := some 0
    time_for_move := Option.none
    max_depth := Option.none }

/-- Search options with a 100 ms per-move time. -/
def optsMove100 : SearchOptions :=
  { total_time_remaining := Option.none
    moves_until_control := Option.none
    time_for_move := some 100
    max_depth := Option.none }

/-- Search options with 1000 ms total and 10 moves to the control. -/
def optsTotal : SearchOptions :=
  { total_time_remaining := some 1000
    moves_until_control := some 10
    time_for_move := Option.none
    max_depth := Option.none }

/-- Search options with no time inputs at all. -/
def optsNone : SearchOptions :=
  { total_time_remaining := Option.none
    moves_until_control := Option.none
    time_for_move := Option.none
    max_depth := Option.none }

/-- A board at ply 8 with 50-move counter 8 (all 8 plies reversible), used to
exercise the repetition detector. -/
def bRep : Board :=
  { bKRK with plies := 8,
              state := { bKRK.state with fifty_move_rule_counter := 8 } }

/-- An 8-entry hash history in which every entry equals `bRep`'s hash. -/
def hist8 : List Nat := [0, 0, 0, 0, 0, 0, 0, 0]

/-! # Theorems -/

/-! ## C4: null-move pruning conditions -/

/-- C4, counterexample: with `depth_remaining = 3` (and the other conditions
met, on the initial position), `negamax` does attempt null-move pruning
(`depth_remaining > NULL_MOVE_REDUCTION` holds), while the claim's condition
`depth_remaining > R+1` fails; the claim also demands only "pieces beyond
pawns and kings" where the code requires more than 7 pieces as well. -/
theorem C4_counterexample :
    null_move_guard true false 3 bStart (Evaluation.new 0) (Evaluation.new 1) = true ∧
    claim_null_guard true false 3 bStart (Evaluation.new 0) (Evaluation.new 1) = false := by
  decide

/-- C4 (amended): null-move pruning is attempted exactly when `allow_null` is
set, the side to move is not in check, `depth_remaining > R` (not `R+1`), the
board has more than 7 pieces and pieces beyond pawns and kings, and the node
is not a PV node; the null search uses depth `depth_remaining − R − 1`, window
`(−β, −β+1)` and `allow_null = false`; a score `≥ β` that is not a positive
mate returns `β`, and otherwise a negative-mate score extends the depth by 1. -/
theorem C4_null_move_pruning (can_null is_check : Bool) (d : Nat) (b : Board)
    (alpha beta : Evaluation) :
    (null_move_guard can_null is_check d b alpha beta = true ↔
      (can_null = true ∧ is_check = false ∧ NULL_MOVE_REDUCTION < d ∧
       7 < popCount b.all_pieces ∧ b.only_pawns = false ∧
       beta.score - alpha.score = 1)) ∧
    null_search_call d beta =
      { depth := d - NULL_MOVE_REDUCTION - 1
        window := (Evaluation.new (-beta.score), Evaluation.new (-beta.score + 1))
        allow_null := false } ∧
    (∀ score : Evaluation, beta.score ≤ score.score →
      score.is_positive_mate = false →
      null_move_outcome score beta = .cutoff beta) ∧
    (∀ score : Evaluation, ¬(beta.score ≤ score.score ∧ score.is_positive_mate = false) →
      score.is_negative_mate = true → null_move_outcome score beta = .extend) := by
  refine ⟨?_, rfl, ?_, ?_⟩
  · simp only [null_move_guard, Board.only_pawns_or_endgame, Bool.and_eq_true,
      Bool.not_eq_true', Bool.or_eq_false_iff, decide_eq_true_eq,
      decide_eq_false_iff_not, not_not]
    constructor
    · rintro ⟨⟨⟨⟨hc, hk⟩, hd⟩, ⟨h7, hp⟩⟩, hpv⟩
      exact ⟨hc, hk, hd, by omega, hp, hpv⟩
    · rintro ⟨hc, hk, hd, h7, hp, hpv⟩
      exact ⟨⟨⟨⟨hc, hk⟩, hd⟩, ⟨by omega, hp⟩⟩, hpv⟩
  · intro score h1 h2
    simp [null_move_outcome, h1, h2]
  · intro score h1 h2
    have hpos : score.is_positive_mate = false := by
      simp only [Evaluation.is_negative_mate, Evaluation.min_val, Evaluation.new,
        decide_eq_true_eq] at h2
      simp only [Evaluation.is_positive_mate, Evaluation.max_val, Evaluation.new,
        decide_eq_false_iff_not]
      omega
    have hle : ¬ beta.score ≤ score.score := fun hle => h1 ⟨hle, hpos⟩
    simp [null_move_outcome, hle, h2, hpos]

/-- C4, witness: the amended guard characterisation applied at depth 4 on the
initial position with a null window. -/
theorem C4_witness :
    null_move_guard true false 4 bStart (Evaluation.new 0) (Evaluation.new 1) = true :=
  (C4_null_move_pruning true false 4 bStart (Evaluation.new 0) (Evaluation.new 1)).1.mpr
    ⟨rfl, rfl, by decide, by decide, by decide, by decide⟩

/-! ## C5: transposition-table replacement policy -/

/-- C5, counterexample: writing an entry with the same key, the same depth and
the same (exact) bound type as the stored one — the claim's greater-or-equal
depth condition demands replacement, but `write_entry` keeps the old entry. -/
theorem C5_counterexample :
    claim_tt_replaces ttPrev ttNew 5 = true ∧
    tt1.write_entry 5 ttNew = tt1 ∧ ttNew ≠ ttPrev := by
  decide

/-- C5 (amended): a write replaces the stored entry in slot `key % size`
exactly when the stored key differs, or the new depth is strictly greater than
the stored one, or the new bound type differs from the stored one and the
stored one is not `Exact`; otherwise the table is unchanged. -/
theorem C5_write_entry_policy (t : TTable) (key : Nat) (e : TTEntry) :
    t.write_entry key e =
      (if (t.entries.getD (key % t.size) default).zobrist ≠ key ∨
          (t.entries.getD (key % t.size) default).data.depth < e.data.depth ∨
          (e.data.node_type ≠ (t.entries.getD (key % t.size) default).data.node_type ∧
           (t.entries.getD (key % t.size) default).data.node_type ≠ NodeType.Exact)
       then { t with entries := t.entries.set (key % t.size) e } else t) := by
  unfold TTable.write_entry
  split_ifs with h1 <;> simp_all
  intro hz hd hn
  rcases h1 with h | h | ⟨h, h'⟩
  · exact absurd hz h
  · omega
  · exact absurd (hn h) h'

/-! ## C7: time-manager budget derivation -/

/-- C7, counterexample: with a total time remaining and
`moves_until_time_control = 0`, the code divides by zero (the claim's
`max(1, ·)` guard does not exist); the derivation is not total. -/
theorem C7_counterexample :
    TimeManager.new optsZeroMoves = Option.none ∧
    optsZeroMoves.total_time_remaining = some 1000 ∧
    optsZeroMoves.moves_until_control = some 0 := by
  decide

/-- C7 (amended): the budget derivation, with its actual partiality: with a
per-move time `t` the budget is `t·1000 − OFFSET` (hard limit), defined only
when `t·1000 ≥ OFFSET`; with a total remaining it is
`total·1000 / moves · 4/5 − OFFSET` where `moves` is the given
moves-until-control — with no `max(1, ·)`: `moves = 0` divides by zero — or 40
when absent; with no inputs the budget is unlimited. -/
theorem C7_time_budget (o : SearchOptions) :
    (∀ t, o.time_for_move = some t → OFFSET ≤ t * 1000 → t * 1000 < U64 →
      TimeManager.new o = some ⟨false, t * 1000 - OFFSET, 0, false, true⟩) ∧
    (o.time_for_move = Option.none → o.total_time_remaining = Option.none →
      TimeManager.new o = some ⟨true, 0, 0, false, false⟩) ∧
    (∀ tot m, o.time_for_move = Option.none → o.total_time_remaining = some tot →
      o.moves_until_control.getD 40 = m → 0 < m → tot * 1000 < U64 →
      tot * 1000 / m * 4 < U64 → OFFSET ≤ tot * 1000 / m * 4 / 5 →
      TimeManager.new o =
        some ⟨false, tot * 1000 / m * 4 / 5 - OFFSET, tot * 1000, false, false⟩) ∧
    (∀ tot, o.time_for_move = Option.none → o.total_time_remaining = some tot →
      o.moves_until_control = some 0 → tot * 1000 < U64 →
      TimeManager.new o = Option.none) := by
  refine ⟨?_, ?_, ?_, ?_⟩
  · intro t ht h1 h2
    simp [TimeManager.new, ht, h1, h2]
  · intro h1 h2
    simp [TimeManager.new, h1, h2]
  · intro tot m h1 h2 h3 h4 h5 h6 h7
    simp only [TimeManager.new, h1, h2, h3, if_pos h5]
    rw [if_neg (by omega), if_pos h6, if_pos h7]
  · intro tot h1 h2 h3 h4
    simp [TimeManager.new, h1, h2, h3, h4]

/-- C7, witness: the three defined cases at concrete options (100 ms per move;
no inputs; 1000 ms total over 10 moves), discharged through the policy
theorem. -/
theorem C7_witness :
    TimeManager.new optsMove100 = some ⟨false, 90000, 0, false, true⟩ ∧
    TimeManager.new optsNone = some ⟨true, 0, 0, false, false⟩ ∧
    TimeManager.new optsTotal = some ⟨false, 70000, 1000000, false, false⟩ := by
  refine ⟨(C7_time_budget optsMove100).1 100 rfl (by decide) (by decide),
          (C7_time_budget optsNone).2.1 rfl rfl,
          ?_⟩
  have h := (C7_time_budget optsTotal).2.2.1 1000 10 rfl rfl rfl
    (by decide) (by decide) (by decide) (by decide)
  simpa using h

/-! ## C9: en-passant square destination counts as a capture -/

/-- C9: on a board with an active en-passant target square, any `Normal` move
into that square — whatever piece moves — is classified as a capture by
`Move::is_capture`; consequently it is excluded from the analyzed-quiet list
of the negamax loop and `update_histories` leaves killers and history
untouched when it is the best move. -/
theorem C9_ep_capture_classification (b : Board) (f t : Nat) (ht : t < 64)
    (h : b.ep_square.testBit t = true) :
    Move.is_capture (Move.Normal f t) b = true ∧
    (∀ (killers : Killers) (history : HistoryTable) (quiets : List Move) (depth : Nat),
      update_histories killers history (Move.Normal f t) quiets b depth =
        (killers, history)) ∧
    (∀ (quiets : List Move) (best : Option Move),
      analyzed_quiets_step quiets (Move.Normal f t) best
        (Move.is_capture (Move.Normal f t) b) = quiets) := by
  have hcap : Move.is_capture (Move.Normal f t) b = true := by
    simp only [Move.is_capture, ne_eq, decide_eq_true_eq]
    intro h0
    have : (fromSquare t &&& (b.get_all_bitboard ||| b.ep_square)).testBit t = true := by
      rw [Nat.testBit_land, Nat.testBit_lor]
      have hf : (fromSquare t).testBit t = true := by
        rw [fromSquare, U64, Nat.testBit_mod_two_pow]
        simp [Nat.shiftLeft_eq, Nat.pow_add, ht, Nat.testBit_two_pow]
      simp [hf, h]
    rw [h0] at this
    simp [Nat.zero_testBit] at this
  refine ⟨hcap, ?_, ?_⟩
  · intro killers history quiets depth
    simp [update_histories, hcap]
  · intro quiets best
    simp [analyzed_quiets_step, hcap]

/-- C9, witness: after `e2e4` from the initial position the en-passant square
e3 (square 19) is active; a rook move to e3 would be classified as a capture. -/
theorem C9_witness :
    Move.is_capture (Move.Normal 0 19) bEP = true :=
  (C9_ep_capture_classification bEP 0 19 (by decide) (by decide)).1

/-! ## C10: the 50-move counter can exceed the ply counter -/

/-- C10: `from_fen` copies the FEN halfmove clock without validating it against
the ply count derived from the fullmove number; for
`k7/8/8/8/8/8/8/K7 w - - 50 1` the resulting board has 50-move counter 50 and
ply counter 0, so the `u16` subtraction `current_ply - fifty_move_rule_counter`
in `is_draw_by_repetition` underflows (wrapping to 65486 in a release build,
panicking in a debug build). -/
theorem C10_counter_exceeds_plies :
    b50.fifty_move_rule_counter = 50 ∧ b50.current_ply = 0 ∧
    u16sub b50.current_ply b50.fifty_move_rule_counter = 65486 := by
  decide

/-! ## C8: draw positions generate no moves -/

/-- C8: whenever `is_draw` holds (50-move counter at 100 or more, or draw by
insufficient material), `pseudolegal_moves` and `pseudolegal_caps` return the
empty list without consulting the move generator, and hence `legal_moves` is
empty as well. -/
theorem C8_draw_empties_movegen (b : Board) (h : b.is_draw = true) :
    b.pseudolegal_moves = [] ∧ b.pseudolegal_caps = [] ∧
    ∀ zk : ZKeys, Board.legal_moves zk b = [] := by
  refine ⟨?_, ?_, fun zk => ?_⟩
  · simp [Board.pseudolegal_moves, h]
  · simp [Board.pseudolegal_caps, h]
  · simp [Board.legal_moves, Board.pseudolegal_moves, h, Board.legal_moves_aux]

/-! ## C6: draw-by-repetition detection -/

/-- `step_by(2)` picks out the elements at even positions. -/
theorem stepBy2_getElem? {α : Type} :
    ∀ (l : List α) (n : Nat), (stepBy2 l)[n]? = l[2 * n]?
  | [], n => by simp [stepBy2]
  | [x], 0 => by simp [stepBy2]
  | [x], n + 1 => by
    rw [stepBy2, List.getElem?_eq_none (by simp), List.getElem?_eq_none (by simp; omega)]
  | x :: y :: xs, 0 => by simp [stepBy2]
  | x :: y :: xs, n + 1 => by
    have ih := stepBy2_getElem? xs n
    have h2 : 2 * (n + 1) = 2 * n + 1 + 1 := by ring
    rw [stepBy2, List.getElem?_cons_succ, ih, h2,
      List.getElem?_cons_succ, List.getElem?_cons_succ]

/-- After the first match, `repLoop` (at `rep_count = 2`) returns true exactly
when another match exists. -/
theorem repLoop_two (cz lp : Nat) :
    ∀ (L : List (Nat × Nat)), repLoop cz lp L 2 = L.any (fun e => e.2 = cz)
  | [] => by simp [repLoop]
  | (p, z) :: rest => by
    by_cases hz : z = cz
    · simp [repLoop, hz]
    · simp [repLoop, hz, repLoop_two cz lp rest]

/-- A filtered list is nonempty exactly when some element satisfies the
predicate. -/
theorem filter_ne_nil_eq_any {α : Type} [DecidableEq α] (p : α → Bool) :
    ∀ l : List α, decide (l.filter p ≠ []) = l.any p
  | [] => by simp
  | a :: l => by
    by_cases h : p a
    · simp [List.filter_cons, h]
    · simp only [List.filter_cons, h, Bool.false_eq_true, if_false, List.any_cons,
        Bool.or_eq_true]
      rw [← filter_ne_nil_eq_any p l]
      simp [h]

/-- One step of the match-counting loop at `rep_count = 1`. -/
theorem repLoop_cons_one (cz lp p z : Nat) (L : List (Nat × Nat)) :
    repLoop cz lp ((p, z) :: L) 1 =
      (if z = cz then (if lp < u16cast p then true else repLoop cz lp L 2)
       else repLoop cz lp L 1) := by
  by_cases hz : z = cz <;> simp [repLoop, hz]

/-- `any` over a mapped list. -/
theorem any_map_general {α β : Type} (f : α → β) (p : β → Bool) :
    ∀ l : List α, (l.map f).any p = l.any (fun a => p (f a))
  | [] => rfl
  | a :: l => by simp [any_map_general f p l]

/-- The match-counting loop over a descending index walk, characterised: a
draw is reported when the most recent match lies beyond `lp`, or when there
are at least two matches. -/
theorem repLoop_one (cz lp : Nat) (h : List Nat) :
    ∀ (idxs : List Nat), (∀ i ∈ idxs, u16cast i = i) →
      repLoop cz lp (idxs.map fun i => (i, h.getD i 0)) 1 =
        (match idxs.filter (fun i => h.getD i 0 = cz) with
         | [] => false
         | i :: rest => decide (lp < i) || decide (rest ≠ []))
  | [], _ => by simp [repLoop]
  | i :: rest, hb => by
    have hbi := hb i (by simp)
    have hbr : ∀ j ∈ rest, u16cast j = j := fun j hj => hb j (by simp [hj])
    rw [List.map_cons, repLoop_cons_one, hbi]
    by_cases hz : h.getD i 0 = cz
    · rw [if_pos hz]
      have hfil : List.filter (fun j => decide (h.getD j 0 = cz)) (i :: rest) =
          i :: List.filter (fun j => decide (h.getD j 0 = cz)) rest := by
        rw [List.filter_cons, if_pos (decide_eq_true hz)]
      by_cases hlp : lp < i
      · rw [if_pos hlp]
        conv_rhs => rw [hfil]
        simp [hlp]
      · rw [if_neg hlp, repLoop_two, any_map_general]
        conv_rhs => rw [hfil]
        have hany : (rest.any fun a => decide ((a, h.getD a 0).2 = cz)) =
            decide (List.filter (fun j => decide (h.getD j 0 = cz)) rest ≠ []) := by
          rw [filter_ne_nil_eq_any]
        rw [hany]
        simp [hlp]
    · rw [if_neg hz, repLoop_one cz lp h rest hbr]
      have hfil : List.filter (fun j => decide (h.getD j 0 = cz)) (i :: rest) =
          List.filter (fun j => decide (h.getD j 0 = cz)) rest := by
        rw [List.filter_cons, if_neg (by simpa using hz)]
      rw [hfil]

/-- The iterator chain of `is_draw_by_repetition` yields exactly the claim's
walk (most recent first), paired with the history hashes. -/
theorem prev_states_eq (history : List Nat) (irr : Nat) :
    (stepBy2 ((history.enum.drop irr).reverse)).drop 1 =
      (claim_rep_walk irr history.length).map (fun i => (i, history.getD i 0)) := by
  apply List.ext_getElem?
  intro n
  have hDlen : (history.enum.drop irr).length = history.length - irr := by
    simp
  rw [List.getElem?_drop, stepBy2_getElem?, List.getElem?_map]
  by_cases hlt : 2 * (1 + n) < history.length - irr
  · have hidx : 2 * (1 + n) < (history.enum.drop irr).length := by omega
    rw [List.getElem?_reverse (by simpa using hidx), hDlen,
      List.getElem?_drop, List.getElem?_enum]
    have hn : n < (history.length - 1 - irr) / 2 := by omega
    rw [show claim_rep_walk irr history.length =
          (List.range ((history.length - 1 - irr) / 2)).map
            (fun m => history.length - 3 - 2 * m) from rfl,
      List.getElem?_map, List.getElem?_range hn]
    have hj : irr + (history.length - irr - 1 - 2 * (1 + n)) =
        history.length - 3 - 2 * n := by omega
    have hjlt : history.length - 3 - 2 * n < history.length := by omega
    rw [hj, List.getElem?_eq_getElem hjlt]
    simp [List.getD_eq_getElem?_getD, List.getElem?_eq_getElem hjlt]
  · rw [List.getElem?_eq_none (l := (history.enum.drop irr).reverse) (by simpa using by omega)]
    rw [List.getElem?_eq_none (by simp [claim_rep_walk]; omega)]
    simp

/-- C6: `is_draw_by_repetition` returns true exactly as the claim describes —
walking the history backwards from the last irreversible ply in steps of two,
a draw is reported when a third occurrence of the current hash is found
anywhere, or when the (most recent) second occurrence lies strictly beyond the
last actually-played ply.  The hypotheses keep the `u16` arithmetic of the
source within range. -/
theorem C6_repetition_detection (b : Board) (cur_depth : Nat) (history : List Nat)
    (h50 : b.fifty_move_rule_counter ≤ b.current_ply)
    (hd : cur_depth ≤ b.current_ply)
    (hply : b.current_ply < 65536)
    (hlen : history.length ≤ 65536) :
    is_draw_by_repetition b cur_depth history =
      is_draw_by_repetition_spec b cur_depth history := by
  have hsub1 : u16sub b.current_ply b.fifty_move_rule_counter =
      b.current_ply - b.fifty_move_rule_counter := by
    unfold u16sub; omega
  have hsub2 : u16sub b.current_ply cur_depth = b.current_ply - cur_depth := by
    unfold u16sub; omega
  simp only [is_draw_by_repetition, is_draw_by_repetition_spec, hsub1, hsub2]
  rw [prev_states_eq history (b.current_ply - b.fifty_move_rule_counter),
    repLoop_one]
  intro i hi
  simp only [claim_rep_walk, List.mem_map, List.mem_range] at hi
  obtain ⟨m, hm, rfl⟩ := hi
  unfold u16cast
  omega

/-- C6, witness: a board at ply 8 inside a 4-ply search with all eight previous
hashes equal to the current one; the detector and the claim's characterisation
agree (both report the draw). -/
theorem C6_witness :
    is_draw_by_repetition bRep 4 hist8 = is_draw_by_repetition_spec bRep 4 hist8 ∧
    is_draw_by_repetition bRep 4 hist8 = true :=
  ⟨C6_repetition_detection bRep 4 hist8 (by decide) (by decide) (by decide) (by decide),
   by decide⟩

/-! ## Bitboard-level lemmas -/

theorem two_pow_lt_U64 {s : Nat} (h : s < 64) : 2 ^ s < U64 :=
  Nat.pow_lt_pow_right (by omega) h

theorem fromSquare_eq {s : Nat} (h : s < 64) : fromSquare s = 2 ^ s := by
  rw [fromSquare, Nat.shiftLeft_eq, one_mul, Nat.mod_eq_of_lt (two_pow_lt_U64 h)]

theorem testBit_high {x : Nat} (hx : x < U64) {j : Nat} (hj : 64 ≤ j) :
    x.testBit j = false :=
  Nat.testBit_eq_false_of_lt
    (lt_of_lt_of_le hx (Nat.pow_le_pow_right (by omega) hj))

/-- A nonzero bitboard has its `trailingZeros` bit set, and `trailingZeros` is
the least set bit. -/
theorem testBit_trailingZeros_aux :
    ∀ (fuel n : Nat), n ≠ 0 → n < 2 ^ fuel →
      n.testBit (trailingZerosAux n fuel) = true ∧
      ∀ j, j < trailingZerosAux n fuel → n.testBit j = false
  | 0, n, hn, hlt => by omega
  | fuel + 1, n, hn, hlt => by
    rw [trailingZerosAux]
    by_cases h2 : n % 2 = 1
    · simp only [h2, if_true]
      refine ⟨?_, by omega⟩
      simpa [Nat.testBit_zero] using by omega
    · simp only [h2, if_false]
      have hn2 : n / 2 ≠ 0 := by omega
      have hlt2 : n / 2 < 2 ^ fuel := by
        rw [Nat.pow_succ] at hlt; omega
      obtain ⟨ih1, ih2⟩ := testBit_trailingZeros_aux fuel (n / 2) hn2 hlt2
      refine ⟨?_, ?_⟩
      · rw [Nat.testBit_add_one]; exact ih1
      · intro j hj
        cases j with
        | zero => simpa [Nat.testBit_zero] using by omega
        | succ j => rw [Nat.testBit_add_one]; exact ih2 j (by omega)

theorem testBit_trailingZeros {n : Nat} (hn : n ≠ 0) (hlt : n < U64) :
    n.testBit (trailingZeros n) = true := by
  rw [trailingZeros, if_neg hn]
  exact (testBit_trailingZeros_aux 64 n hn hlt).1

theorem trailingZeros_min {n : Nat} (hn : n ≠ 0) (hlt : n < U64) {j : Nat}
    (hj : j < trailingZeros n) : n.testBit j = false := by
  rw [trailingZeros, if_neg hn] at hj
  exact (testBit_trailingZeros_aux 64 n hn hlt).2 j hj

theorem trailingZeros_two_pow {s : Nat} (hs : s < 64) : trailingZeros (2 ^ s) = s := by
  have h := testBit_trailingZeros (n := 2 ^ s) (by positivity) (two_pow_lt_U64 hs)
  rw [Nat.testBit_two_pow] at h
  exact (decide_eq_true_eq.mp h).symm

/-- A single-bit board's AND with `x` is nonzero exactly when `x` has that
bit. -/
theorem and_two_pow_ne_zero (x : Nat) (s : Nat) :
    (x &&& 2 ^ s ≠ 0) ↔ x.testBit s = true := by
  constructor
  · intro h
    by_contra hb
    apply h
    apply Nat.eq_of_testBit_eq
    intro j
    rw [Nat.testBit_land, Nat.zero_testBit]
    by_cases hj : s = j
    · subst hj; simp [Bool.eq_false_iff.mpr hb]
    · simp [Nat.testBit_two_pow_of_ne hj]
  · intro h h0
    have := congrArg (Nat.testBit · s) h0
    simp [Nat.testBit_land, h, Nat.testBit_two_pow] at this

theorem single_or_eq_xor {f t : Nat} (h : f ≠ t) :
    2 ^ f ||| 2 ^ t = 2 ^ f ^^^ 2 ^ t := by
  apply Nat.eq_of_testBit_eq
  intro j
  rw [Nat.testBit_lor, Nat.testBit_xor, Nat.testBit_two_pow, Nat.testBit_two_pow]
  by_cases hf : f = j <;> by_cases ht : t = j <;> simp_all

/-- Restoring the all-pieces board after a quiet move:
`((a ^^^ 2^f) ||| 2^t) ^^^ (2^f ||| 2^t) = a`. -/
theorem all_restore_quiet {a f t : Nat} (hf : a.testBit f = true)
    (ht : a.testBit t = false) (_hft : f ≠ t) :
    ((a ^^^ 2 ^ f) ||| 2 ^ t) ^^^ (2 ^ f ||| 2 ^ t) = a := by
  apply Nat.eq_of_testBit_eq
  intro j
  simp only [Nat.testBit_xor, Nat.testBit_lor, Nat.testBit_two_pow]
  by_cases h1 : f = j <;> by_cases h2 : t = j <;> simp_all

/-- Restoring the all-pieces board after a capture:
`(((a ^^^ 2^f) ||| 2^t) ^^^ (2^f ||| 2^t)) ||| 2^t = a`. -/
theorem all_restore_capture {a f t : Nat} (hf : a.testBit f = true)
    (ht : a.testBit t = true) (_hft : f ≠ t) :
    (((a ^^^ 2 ^ f) ||| 2 ^ t) ^^^ (2 ^ f ||| 2 ^ t)) ||| 2 ^ t = a := by
  apply Nat.eq_of_testBit_eq
  intro j
  simp only [Nat.testBit_xor, Nat.testBit_lor, Nat.testBit_two_pow]
  by_cases h1 : f = j <;> by_cases h2 : t = j <;> simp_all

/-- Removing and re-adding a set bit by XOR/OR. -/
theorem xor_or_restore {a s : Nat} (hs : a.testBit s = true) :
    (a ^^^ 2 ^ s) ||| 2 ^ s = a := by
  apply Nat.eq_of_testBit_eq
  intro j
  simp only [Nat.testBit_xor, Nat.testBit_lor, Nat.testBit_two_pow]
  by_cases h1 : s = j <;> simp_all

/-- XORing a clear bit in and out by OR. -/
theorem and_not_or_restore {a s : Nat} (ha : a < U64) (hs : s < 64)
    (h : a.testBit s = true) : (a &&& bnot (2 ^ s)) ||| 2 ^ s = a := by
  apply Nat.eq_of_testBit_eq
  intro j
  simp only [Nat.testBit_lor, Nat.testBit_land, bnot, Nat.testBit_xor,
    Nat.testBit_two_pow]
  by_cases hj : j < 64
  · have : u64mask.testBit j = true := by
      have : u64mask = 2 ^ 64 - 1 := rfl
      rw [this, Nat.testBit_two_pow_sub_one]
      simp [hj]
    by_cases h1 : s = j <;> simp_all
  · have h64 : (64 : Nat) ≤ j := by omega
    rw [testBit_high ha h64]
    have : u64mask.testBit j = false := by
      have hm : u64mask < U64 := by unfold u64mask U64; omega
      exact testBit_high hm h64
    rw [this]
    by_cases h1 : s = j <;> simp_all

/-- AND with the complement of a clear bit is the identity. -/
theorem and_not_of_not_testBit {a s : Nat} (ha : a < U64) (h : a.testBit s = false) :
    a &&& bnot (2 ^ s) = a := by
  apply Nat.eq_of_testBit_eq
  intro j
  simp only [Nat.testBit_land, bnot, Nat.testBit_xor, Nat.testBit_two_pow]
  by_cases hj : j < 64
  · have hm : u64mask.testBit j = true := by
      have : u64mask = 2 ^ 64 - 1 := rfl
      rw [this, Nat.testBit_two_pow_sub_one]; simp [hj]
    by_cases h1 : s = j <;> simp_all
  · have h64 : (64 : Nat) ≤ j := by omega
    rw [testBit_high ha h64]
    have hm : u64mask.testBit j = false := by
      have hmlt : u64mask < U64 := by unfold u64mask U64; omega
      exact testBit_high hmlt h64
    simp [hm]

/-! ## List lemmas for the per-square array -/

theorem getD_set_self {α : Type} (l : List α) (i : Nat) (v d : α)
    (h : i < l.length) : (l.set i v).getD i d = v := by
  rw [List.getD_eq_getElem?_getD, List.getElem?_set_self (by simpa using h)]
  rfl

theorem getD_set_ne {α : Type} (l : List α) {i j : Nat} (v d : α)
    (h : i ≠ j) : (l.set i v).getD j d = l.getD j d := by
  rw [List.getD_eq_getElem?_getD, List.getElem?_set_ne h,
    List.getD_eq_getElem?_getD]

theorem set_getD_self {α : Type} (l : List α) (i : Nat) (d : α) :
    l.set i (l.getD i d) = l := by
  apply List.ext_getElem?
  intro j
  by_cases hij : i = j
  · subst hij
    by_cases hi : i < l.length
    · rw [List.getElem?_set_self (by simpa using hi),
        List.getD_eq_getElem?_getD, List.getElem?_eq_getElem hi]
      rfl
    · rw [List.set_eq_of_length_le (by omega)]
  · rw [List.getElem?_set_ne hij]

/-! ## Piece-set lemmas -/

theorem Pieces.get_set_self (p : Pieces) (t : PieceType) (v : Nat) :
    (p.set_pieces_of_type t v).get_pieces_of_type t = v := by
  cases t <;> rfl

theorem Pieces.get_set_ne (p : Pieces) {t r : PieceType} (h : t ≠ r) (v : Nat) :
    (p.set_pieces_of_type t v).get_pieces_of_type r = p.get_pieces_of_type r := by
  cases t <;> cases r <;> first | rfl | exact absurd rfl h

theorem Pieces.set_get_self (p : Pieces) (t : PieceType) :
    p.set_pieces_of_type t (p.get_pieces_of_type t) = p := by
  cases t <;> rfl

theorem Pieces.set_set_self (p : Pieces) (t : PieceType) (a b : Nat) :
    (p.set_pieces_of_type t a).set_pieces_of_type t b = p.set_pieces_of_type t b := by
  cases t <;> rfl

theorem Pieces.xor_type_xor_type (p : Pieces) (t : PieceType) (x y : Nat) :
    (p.xor_type t x).xor_type t y = p.xor_type t (x ^^^ y) := by
  unfold Pieces.xor_type
  rw [Pieces.get_set_self, Pieces.set_set_self, Nat.xor_assoc]

theorem Pieces.xor_type_zero (p : Pieces) (t : PieceType) : p.xor_type t 0 = p := by
  unfold Pieces.xor_type
  rw [Nat.xor_zero, Pieces.set_get_self]

theorem Pieces.remove_in_all_get (p : Pieces) (x : Nat) (t : PieceType) :
    (p.remove_in_all x).get_pieces_of_type t = p.get_pieces_of_type t &&& bnot x := by
  cases t <;> rfl

theorem Pieces.combine_testBit (p : Pieces) (j : Nat) :
    p.combine.testBit j =
      (p.pawns.testBit j || p.knights.testBit j || p.bishops.testBit j ||
       p.rooks.testBit j || p.queens.testBit j || p.king.testBit j) := by
  simp only [Pieces.combine, Nat.testBit_lor]

theorem Pieces.testBit_combine_of_type {p : Pieces} {q : PieceType} {i : Nat}
    (h : (p.get_pieces_of_type q).testBit i = true) : p.combine.testBit i = true := by
  rw [Pieces.combine_testBit]
  cases q <;> simp_all [Pieces.get_pieces_of_type]

theorem disjointTypes_get {p : Pieces} (hd : p.disjointTypes) {q r : PieceType}
    (h : q ≠ r) : p.get_pieces_of_type q &&& p.get_pieces_of_type r = 0 := by
  simp only [Pieces.disjointTypes, List.pairwise_cons, List.mem_cons,
    List.mem_singleton, List.not_mem_nil, List.Pairwise.nil] at hd
  obtain ⟨h1, h2, h3, h4, h5, _⟩ := hd
  cases q <;> cases r <;>
    simp_all [Pieces.get_pieces_of_type] <;>
    first
      | (exact absurd rfl h)
      | (rw [Nat.land_comm]; simp_all)

theorem testBit_of_and_zero {x y : Nat} (h : x &&& y = 0) {i : Nat}
    (hx : x.testBit i = true) : y.testBit i = false := by
  have := congrArg (Nat.testBit · i) h
  simp only [Nat.testBit_land, Nat.zero_testBit, Bool.and_eq_false_iff] at this
  rcases this with h' | h'
  · rw [hx] at h'; exact absurd h' (by simp)
  · exact h'

theorem lt_U64_of_testBit {x : Nat} (h : ∀ j, 64 ≤ j → x.testBit j = false) :
    x < U64 := by
  have hx : x = x % 2 ^ 64 := by
    apply Nat.eq_of_testBit_eq
    intro j
    rw [Nat.testBit_mod_two_pow]
    by_cases hj : j < 64
    · simp [hj]
    · simp [hj, h j (by omega)]
  rw [hx]
  exact Nat.mod_lt _ (by positivity)

theorem le_U64_of_or_lt {x y : Nat} (h : x ||| y < U64) : x < U64 ∧ y < U64 := by
  constructor
  · apply lt_U64_of_testBit
    intro j hj
    have hb := testBit_high h hj
    rw [Nat.testBit_lor] at hb
    exact (Bool.or_eq_false_iff.mp hb).1
  · apply lt_U64_of_testBit
    intro j hj
    have hb := testBit_high h hj
    rw [Nat.testBit_lor] at hb
    exact (Bool.or_eq_false_iff.mp hb).2

/-! ## Facts derived from the position invariant -/

theorem WF.len {b : Board} (h : WF b) : b.piece_on_square.length = 64 := h.1
theorem WF.aw {b : Board} (h : WF b) : b.all_whites = b.white_pieces.combine := h.2.1
theorem WF.ab {b : Board} (h : WF b) : b.all_blacks = b.black_pieces.combine := h.2.2.1
theorem WF.allu {b : Board} (h : WF b) : b.all_pieces = b.all_whites ||| b.all_blacks :=
  h.2.2.2.1
theorem WF.bound {b : Board} (h : WF b) : b.all_pieces < U64 := h.2.2.2.2.1
theorem WF.cdisj {b : Board} (h : WF b) : b.all_whites &&& b.all_blacks = 0 :=
  h.2.2.2.2.2.1
theorem WF.wdisj {b : Board} (h : WF b) : b.white_pieces.disjointTypes :=
  h.2.2.2.2.2.2.1
theorem WF.bdisj {b : Board} (h : WF b) : b.black_pieces.disjointTypes :=
  h.2.2.2.2.2.2.2.1
theorem WF.agree_none {b : Board} (h : WF b) :
    ∀ i, i < 64 → (b.piece_on_square.getD i Option.none = Option.none ↔
      b.all_pieces.testBit i = false) := h.2.2.2.2.2.2.2.2.1
theorem WF.agree_some {b : Board} (h : WF b) :
    ∀ i, i < 64 → ∀ p : PieceType, b.piece_on_square.getD i Option.none = some p →
      (b.white_pieces.get_pieces_of_type p |||
       b.black_pieces.get_pieces_of_type p).testBit i = true :=
  h.2.2.2.2.2.2.2.2.2.1
theorem WF.ep {b : Board} (h : WF b) : epOk b := h.2.2.2.2.2.2.2.2.2.2.1
theorem WF.castling {b : Board} (h : WF b) : castlingOk b :=
  h.2.2.2.2.2.2.2.2.2.2.2.1
theorem WF.king {b : Board} (h : WF b) : kingOk b := h.2.2.2.2.2.2.2.2.2.2.2.2.1
theorem WF.watt {b : Board} (h : WF b) :
    b.state.white_attacks = movegen.get_controlled_squares b Color.White :=
  h.2.2.2.2.2.2.2.2.2.2.2.2.2.1
theorem WF.batt {b : Board} (h : WF b) :
    b.state.black_attacks = movegen.get_controlled_squares b Color.Black :=
  h.2.2.2.2.2.2.2.2.2.2.2.2.2.2.1
theorem WF.nochk {b : Board} (h : WF b) : b.is_check b.turn.opp = false :=
  h.2.2.2.2.2.2.2.2.2.2.2.2.2.2.2

theorem WF.bound_color {b : Board} (h : WF b) (c : Color) :
    b.get_color_bitboard c < U64 := by
  have := le_U64_of_or_lt (h.allu ▸ h.bound)
  cases c
  · exact this.1
  · exact this.2

theorem WF.bound_type {b : Board} (h : WF b) (c : Color) (q : PieceType) :
    (b.get_pieces c).get_pieces_of_type q < U64 := by
  apply lt_U64_of_testBit
  intro j hj
  by_contra hb
  have hb' : ((b.get_pieces c).get_pieces_of_type q).testBit j = true := by
    simpa using hb
  have hc : (b.get_pieces c).combine.testBit j = true :=
    Pieces.testBit_combine_of_type hb'
  have : b.get_color_bitboard c < U64 := h.bound_color c
  have hcc : b.get_color_bitboard c = (b.get_pieces c).combine := by
    cases c
    · exact h.aw
    · exact h.ab
  rw [hcc] at this
  rw [testBit_high this hj] at hc
  exact absurd hc (by simp)

theorem WF.colorBit_of_type {b : Board} (h : WF b) {c : Color} {q : PieceType}
    {i : Nat} (ht : ((b.get_pieces c).get_pieces_of_type q).testBit i = true) :
    (b.get_color_bitboard c).testBit i = true := by
  have hcc : b.get_color_bitboard c = (b.get_pieces c).combine := by
    cases c
    · exact h.aw
    · exact h.ab
  rw [hcc]
  exact Pieces.testBit_combine_of_type ht

theorem WF.allBit_of_color {b : Board} (h : WF b) {c : Color} {i : Nat}
    (hc : (b.get_color_bitboard c).testBit i = true) :
    b.all_pieces.testBit i = true := by
  rw [h.allu, Nat.testBit_lor]
  cases c
  · simp [Board.get_color_bitboard] at hc; simp [hc]
  · simp [Board.get_color_bitboard] at hc; simp [hc]

theorem WF.oppBit_false {b : Board} (h : WF b) {c : Color} {i : Nat}
    (hc : (b.get_color_bitboard c).testBit i = true) :
    (b.get_color_bitboard c.opp).testBit i = false := by
  cases c
  · exact testBit_of_and_zero h.cdisj (by simpa [Board.get_color_bitboard] using hc)
  · exact testBit_of_and_zero (Nat.land_comm _ _ ▸ h.cdisj)
      (by simpa [Board.get_color_bitboard] using hc)

theorem WF.pos_none {b : Board} (h : WF b) {i : Nat} (hi : i < 64)
    (hb : b.all_pieces.testBit i = false) : b.piece_on i = Option.none :=
  (h.agree_none i hi).mpr hb

theorem WF.pos_some_of_type {b : Board} (h : WF b) {c : Color} {q : PieceType}
    {i : Nat} (hi : i < 64)
    (ht : ((b.get_pieces c).get_pieces_of_type q).testBit i = true) :
    b.piece_on i = some q := by
  have hcol := h.colorBit_of_type ht
  have hall := h.allBit_of_color hcol
  have hne : ¬ b.piece_on i = Option.none := by
    intro h0
    rw [(h.agree_none i hi).mp h0] at hall
    exact absurd hall (by simp)
  obtain ⟨p, hp⟩ := Option.ne_none_iff_exists'.mp hne
  have hu := h.agree_some i hi p hp
  rw [Nat.testBit_lor, Bool.or_eq_true] at hu
  by_cases hpq : p = q
  · rw [hp, hpq]
  · exfalso
    have hqc : ((b.get_pieces c).get_pieces_of_type q).testBit i = true := ht
    rcases hu with hw | hb'
    · -- the piece at i is a white p
      cases c with
      | White =>
        have := testBit_of_and_zero (disjointTypes_get h.wdisj hpq) hw
        simp only [Board.get_pieces] at hqc
        rw [this] at hqc; exact absurd hqc (by simp)
      | Black =>
        have hwc : b.all_whites.testBit i = true := by
          rw [h.aw]; exact Pieces.testBit_combine_of_type hw
        have := testBit_of_and_zero h.cdisj hwc
        have hbc : b.all_blacks.testBit i = true := by
          simpa [Board.get_color_bitboard] using hcol
        rw [hbc] at this; exact absurd this (by simp)
    · cases c with
      | White =>
        have hbc : b.all_blacks.testBit i = true := by
          rw [h.ab]; exact Pieces.testBit_combine_of_type hb'
        have := testBit_of_and_zero (Nat.land_comm _ _ ▸ h.cdisj) hbc
        have hwc : b.all_whites.testBit i = true := by
          simpa [Board.get_color_bitboard] using hcol
        rw [hwc] at this; exact absurd this (by simp)
      | Black =>
        have := testBit_of_and_zero (disjointTypes_get h.bdisj hpq) hb'
        simp only [Board.get_pieces] at hqc
        rw [this] at hqc; exact absurd hqc (by simp)

theorem WF.type_bit_of_pos {b : Board} (h : WF b) {c : Color} {q : PieceType}
    {i : Nat} (hi : i < 64) (hp : b.piece_on i = some q)
    (hc : (b.get_color_bitboard c).testBit i = true) :
    ((b.get_pieces c).get_pieces_of_type q).testBit i = true := by
  have hu := h.agree_some i hi q hp
  rw [Nat.testBit_lor, Bool.or_eq_true] at hu
  rcases hu with hw | hb'
  · cases c with
    | White => exact hw
    | Black =>
      exfalso
      have hwc : b.all_whites.testBit i = true := by
        rw [h.aw]; exact Pieces.testBit_combine_of_type hw
      have := testBit_of_and_zero h.cdisj hwc
      have hbc : b.all_blacks.testBit i = true := by
        simpa [Board.get_color_bitboard] using hc
      rw [hbc] at this; exact absurd this (by simp)
  · cases c with
    | White =>
      exfalso
      have hbc : b.all_blacks.testBit i = true := by
        rw [h.ab]; exact Pieces.testBit_combine_of_type hb'
      have := testBit_of_and_zero (Nat.land_comm _ _ ▸ h.cdisj) hbc
      have hwc : b.all_whites.testBit i = true := by
        simpa [Board.get_color_bitboard] using hc
      rw [hwc] at this; exact absurd this (by simp)
    | Black => exact hb'

theorem WF.other_type_false {b : Board} (h : WF b) {c : Color} {q r : PieceType}
    {i : Nat} (hq : ((b.get_pieces c).get_pieces_of_type q).testBit i = true)
    (hne : r ≠ q) :
    ((b.get_pieces c).get_pieces_of_type r).testBit i = false := by
  have hd : (b.get_pieces c).disjointTypes := by
    cases c
    · exact h.wdisj
    · exact h.bdisj
  exact testBit_of_and_zero (disjointTypes_get hd (Ne.symm hne))
    (by simpa using hq)

/-! ## Projection lemmas for the `make_move` pipeline stages -/

theorem Color.opp_opp (c : Color) : c.opp.opp = c := by cases c <;> rfl

theorem ucr_w (b : Board) (m : Move) :
    (b.update_castling_rights m).white_pieces = b.white_pieces := rfl
theorem ucr_b (b : Board) (m : Move) :
    (b.update_castling_rights m).black_pieces = b.black_pieces := rfl
theorem ucr_aw (b : Board) (m : Move) :
    (b.update_castling_rights m).all_whites = b.all_whites := rfl
theorem ucr_ab (b : Board) (m : Move) :
    (b.update_castling_rights m).all_blacks = b.all_blacks := rfl
theorem ucr_all (b : Board) (m : Move) :
    (b.update_castling_rights m).all_pieces = b.all_pieces := rfl
theorem ucr_pos (b : Board) (m : Move) :
    (b.update_castling_rights m).piece_on_square = b.piece_on_square := rfl
theorem ucr_turn (b : Board) (m : Move) :
    (b.update_castling_rights m).turn = b.turn := rfl
theorem ucr_ft (b : Board) (m : Move) :
    (b.update_castling_rights m).full_turns = b.full_turns := rfl
theorem ucr_plies (b : Board) (m : Move) :
    (b.update_castling_rights m).plies = b.plies := rfl
theorem ucr_pm (b : Board) (m : Move) :
    (b.update_castling_rights m).previous_moves = b.previous_moves := rfl

theorem uab_w (b : Board) :
    b.update_attack_bitboards.white_pieces = b.white_pieces := rfl
theorem uab_b (b : Board) :
    b.update_attack_bitboards.black_pieces = b.black_pieces := rfl
theorem uab_aw (b : Board) :
    b.update_attack_bitboards.all_whites = b.all_whites := rfl
theorem uab_ab (b : Board) :
    b.update_attack_bitboards.all_blacks = b.all_blacks := rfl
theorem uab_all (b : Board) :
    b.update_attack_bitboards.all_pieces = b.all_pieces := rfl
theorem uab_pos (b : Board) :
    b.update_attack_bitboards.piece_on_square = b.piece_on_square := rfl
theorem uab_turn (b : Board) :
    b.update_attack_bitboards.turn = b.turn := rfl
theorem uab_ft (b : Board) :
    b.update_attack_bitboards.full_turns = b.full_turns := rfl
theorem uab_plies (b : Board) :
    b.update_attack_bitboards.plies = b.plies := rfl
theorem uab_pm (b : Board) :
    b.update_attack_bitboards.previous_moves = b.previous_moves := rfl

theorem czk_w (zk : ZKeys) (b : Board) :
    (b.create_zobrist_key zk).white_pieces = b.white_pieces := rfl
theorem czk_b (zk : ZKeys) (b : Board) :
    (b.create_zobrist_key zk).black_pieces = b.black_pieces := rfl
theorem czk_aw (zk : ZKeys) (b : Board) :
    (b.create_zobrist_key zk).all_whites = b.all_whites := rfl
theorem czk_ab (zk : ZKeys) (b : Board) :
    (b.create_zobrist_key zk).all_blacks = b.all_blacks := rfl
theorem czk_all (zk : ZKeys) (b : Board) :
    (b.create_zobrist_key zk).all_pieces = b.all_pieces := rfl
theorem czk_pos (zk : ZKeys) (b : Board) :
    (b.create_zobrist_key zk).piece_on_square = b.piece_on_square := rfl
theorem czk_turn (zk : ZKeys) (b : Board) :
    (b.create_zobrist_key zk).turn = b.turn := rfl

theorem uep_w (zk : ZKeys) (b : Board) (m : Move) :
    (b.update_en_passant zk m).white_pieces = b.white_pieces := by
  cases m
  case Normal f t =>
    simp only [Board.update_en_passant]
    split_ifs <;> rfl
  all_goals rfl
theorem uep_b (zk : ZKeys) (b : Board) (m : Move) :
    (b.update_en_passant zk m).black_pieces = b.black_pieces := by
  cases m
  case Normal f t =>
    simp only [Board.update_en_passant]
    split_ifs <;> rfl
  all_goals rfl
theorem uep_aw (zk : ZKeys) (b : Board) (m : Move) :
    (b.update_en_passant zk m).all_whites = b.all_whites := by
  cases m
  case Normal f t =>
    simp only [Board.update_en_passant]
    split_ifs <;> rfl
  all_goals rfl
theorem uep_ab (zk : ZKeys) (b : Board) (m : Move) :
    (b.update_en_passant zk m).all_blacks = b.all_blacks := by
  cases m
  case Normal f t =>
    simp only [Board.update_en_passant]
    split_ifs <;> rfl
  all_goals rfl
theorem uep_all (zk : ZKeys) (b : Board) (m : Move) :
    (b.update_en_passant zk m).all_pieces = b.all_pieces := by
  cases m
  case Normal f t =>
    simp only [Board.update_en_passant]
    split_ifs <;> rfl
  all_goals rfl
theorem uep_pos (zk : ZKeys) (b : Board) (m : Move) :
    (b.update_en_passant zk m).piece_on_square = b.piece_on_square := by
  cases m
  case Normal f t =>
    simp only [Board.update_en_passant]
    split_ifs <;> rfl
  all_goals rfl
theorem uep_turn (zk : ZKeys) (b : Board) (m : Move) :
    (b.update_en_passant zk m).turn = b.turn := by
  cases m
  case Normal f t =>
    simp only [Board.update_en_passant]
    split_ifs <;> rfl
  all_goals rfl
theorem uep_ft (zk : ZKeys) (b : Board) (m : Move) :
    (b.update_en_passant zk m).full_turns = b.full_turns := by
  cases m
  case Normal f t =>
    simp only [Board.update_en_passant]
    split_ifs <;> rfl
  all_goals rfl
theorem uep_plies (zk : ZKeys) (b : Board) (m : Move) :
    (b.update_en_passant zk m).plies = b.plies := by
  cases m
  case Normal f t =>
    simp only [Board.update_en_passant]
    split_ifs <;> rfl
  all_goals rfl
theorem uep_pm (zk : ZKeys) (b : Board) (m : Move) :
    (b.update_en_passant zk m).previous_moves = b.previous_moves := by
  cases m
  case Normal f t =>
    simp only [Board.update_en_passant]
    split_ifs <;> rfl
  all_goals rfl

theorem sp_turn (b : Board) (c : Color) (p : Pieces) :
    (b.set_pieces c p).turn = b.turn := by cases c <;> rfl
theorem sp_ft (b : Board) (c : Color) (p : Pieces) :
    (b.set_pieces c p).full_turns = b.full_turns := by cases c <;> rfl
theorem sp_plies (b : Board) (c : Color) (p : Pieces) :
    (b.set_pieces c p).plies = b.plies := by cases c <;> rfl
theorem sp_pm (b : Board) (c : Color) (p : Pieces) :
    (b.set_pieces c p).previous_moves = b.previous_moves := by cases c <;> rfl
theorem sp_all (b : Board) (c : Color) (p : Pieces) :
    (b.set_pieces c p).all_pieces = b.all_pieces := by cases c <;> rfl
theorem sp_pos (b : Board) (c : Color) (p : Pieces) :
    (b.set_pieces c p).piece_on_square = b.piece_on_square := by cases c <;> rfl
theorem sp_state (b : Board) (c : Color) (p : Pieces) :
    (b.set_pieces c p).state = b.state := by cases c <;> rfl
theorem sp_get_same (b : Board) (c : Color) (p : Pieces) :
    (b.set_pieces c p).get_pieces c = p := by cases c <;> rfl
theorem sp_get_opp (b : Board) (c : Color) (p : Pieces) :
    (b.set_pieces c p).get_pieces c.opp = b.get_pieces c.opp := by cases c <;> rfl
theorem sp_cbb (b : Board) (c : Color) (p : Pieces) (d : Color) :
    (b.set_pieces c p).get_color_bitboard d = b.get_color_bitboard d := by
  cases c <;> cases d <;> rfl

theorem scb_turn (b : Board) (c : Color) (x : Nat) :
    (b.set_color_bitboard c x).turn = b.turn := by cases c <;> rfl
theorem scb_ft (b : Board) (c : Color) (x : Nat) :
    (b.set_color_bitboard c x).full_turns = b.full_turns := by cases c <;> rfl
theorem scb_plies (b : Board) (c : Color) (x : Nat) :
    (b.set_color_bitboard c x).plies = b.plies := by cases c <;> rfl
theorem scb_pm (b : Board) (c : Color) (x : Nat) :
    (b.set_color_bitboard c x).previous_moves = b.previous_moves := by cases c <;> rfl
theorem scb_all (b : Board) (c : Color) (x : Nat) :
    (b.set_color_bitboard c x).all_pieces = b.all_pieces := by cases c <;> rfl
theorem scb_pos (b : Board) (c : Color) (x : Nat) :
    (b.set_color_bitboard c x).piece_on_square = b.piece_on_square := by cases c <;> rfl
theorem scb_state (b : Board) (c : Color) (x : Nat) :
    (b.set_color_bitboard c x).state = b.state := by cases c <;> rfl
theorem scb_get_same (b : Board) (c : Color) (x : Nat) :
    (b.set_color_bitboard c x).get_color_bitboard c = x := by cases c <;> rfl
theorem scb_get_opp (b : Board) (c : Color) (x : Nat) :
    (b.set_color_bitboard c x).get_color_bitboard c.opp =
      b.get_color_bitboard c.opp := by cases c <;> rfl
theorem scb_pieces (b : Board) (c : Color) (x : Nat) (d : Color) :
    (b.set_color_bitboard c x).get_pieces d = b.get_pieces d := by
  cases c <;> cases d <;> rfl

theorem spo_turn (b : Board) (i : Nat) (v : Option PieceType) :
    (b.set_piece_on i v).turn = b.turn := rfl
theorem spo_state (b : Board) (i : Nat) (v : Option PieceType) :
    (b.set_piece_on i v).state = b.state := rfl
theorem spo_get (b : Board) (i : Nat) (v : Option PieceType) (d : Color) :
    (b.set_piece_on i v).get_pieces d = b.get_pieces d := by cases d <;> rfl
theorem spo_cbb (b : Board) (i : Nat) (v : Option PieceType) (d : Color) :
    (b.set_piece_on i v).get_color_bitboard d = b.get_color_bitboard d := by
  cases d <;> rfl
theorem spo_ft (b : Board) (i : Nat) (v : Option PieceType) :
    (b.set_piece_on i v).full_turns = b.full_turns := rfl
theorem spo_plies (b : Board) (i : Nat) (v : Option PieceType) :
    (b.set_piece_on i v).plies = b.plies := rfl
theorem spo_pm (b : Board) (i : Nat) (v : Option PieceType) :
    (b.set_piece_on i v).previous_moves = b.previous_moves := rfl
theorem spo_all (b : Board) (i : Nat) (v : Option PieceType) :
    (b.set_piece_on i v).all_pieces = b.all_pieces := rfl
theorem spo_pos (b : Board) (i : Nat) (v : Option PieceType) :
    (b.set_piece_on i v).piece_on_square = b.piece_on_square.set i v := rfl


/-! ## Generic frame facts of `move_piece` -/

set_option maxHeartbeats 1000000 in
theorem mvp_turn (zk : ZKeys) (b : Board) (m : Move) (u : MoveUndoData) :
    (Board.move_piece zk b m u).1.turn = b.turn := by
  cases m <;>
    (simp only [Board.move_piece]; split_ifs <;>
      simp only [ucr_turn, sp_turn, scb_turn, spo_turn])

set_option maxHeartbeats 1000000 in
theorem mvp_ft (zk : ZKeys) (b : Board) (m : Move) (u : MoveUndoData) :
    (Board.move_piece zk b m u).1.full_turns = b.full_turns := by
  cases m <;>
    (simp only [Board.move_piece]; split_ifs <;>
      simp only [ucr_ft, sp_ft, scb_ft, spo_ft])

set_option maxHeartbeats 1000000 in
theorem mvp_plies (zk : ZKeys) (b : Board) (m : Move) (u : MoveUndoData) :
    (Board.move_piece zk b m u).1.plies = b.plies := by
  cases m <;>
    (simp only [Board.move_piece]; split_ifs <;>
      simp only [ucr_plies, sp_plies, scb_plies, spo_plies])

set_option maxHeartbeats 1000000 in
theorem mvp_pm (zk : ZKeys) (b : Board) (m : Move) (u : MoveUndoData) :
    (Board.move_piece zk b m u).1.previous_moves = b.previous_moves := by
  cases m <;>
    (simp only [Board.move_piece]; split_ifs <;>
      simp only [ucr_pm, sp_pm, scb_pm, spo_pm])

set_option maxHeartbeats 1000000 in
theorem mvp_ustate (zk : ZKeys) (b : Board) (m : Move) (u : MoveUndoData) :
    (Board.move_piece zk b m u).2.state = u.state := by
  cases m <;> (simp only [Board.move_piece]; split_ifs <;> rfl)


theorem sp_get_opp2 (b : Board) (c : Color) (p : Pieces) :
    (b.set_pieces c.opp p).get_pieces c = b.get_pieces c := by cases c <;> rfl
theorem scb_get_opp2 (b : Board) (c : Color) (x : Nat) :
    (b.set_color_bitboard c.opp x).get_color_bitboard c =
      b.get_color_bitboard c := by cases c <;> rfl

theorem epf_eq (zk : ZKeys) (b : Board) :
    Board.ep_zobrist_flip zk b =
      { b with state := { b.state with zobrist_key :=
          (if b.update_ep_zobrist b.turn_color = true then
            b.state.zobrist_key ^^^ zk.get_key_ep_square (trailingZeros b.ep_square)
          else b.state.zobrist_key) } } := by
  unfold Board.ep_zobrist_flip
  split <;> rfl

theorem epf_w (zk : ZKeys) (b : Board) :
    (Board.ep_zobrist_flip zk b).white_pieces = b.white_pieces := by rw [epf_eq]
theorem epf_b (zk : ZKeys) (b : Board) :
    (Board.ep_zobrist_flip zk b).black_pieces = b.black_pieces := by rw [epf_eq]
theorem epf_aw (zk : ZKeys) (b : Board) :
    (Board.ep_zobrist_flip zk b).all_whites = b.all_whites := by rw [epf_eq]
theorem epf_ab (zk : ZKeys) (b : Board) :
    (Board.ep_zobrist_flip zk b).all_blacks = b.all_blacks := by rw [epf_eq]
theorem epf_all (zk : ZKeys) (b : Board) :
    (Board.ep_zobrist_flip zk b).all_pieces = b.all_pieces := by rw [epf_eq]
theorem epf_pos (zk : ZKeys) (b : Board) :
    (Board.ep_zobrist_flip zk b).piece_on_square = b.piece_on_square := by rw [epf_eq]
theorem epf_turn (zk : ZKeys) (b : Board) :
    (Board.ep_zobrist_flip zk b).turn = b.turn := by rw [epf_eq]
theorem epf_ft (zk : ZKeys) (b : Board) :
    (Board.ep_zobrist_flip zk b).full_turns = b.full_turns := by rw [epf_eq]
theorem epf_plies (zk : ZKeys) (b : Board) :
    (Board.ep_zobrist_flip zk b).plies = b.plies := by rw [epf_eq]
theorem epf_pm (zk : ZKeys) (b : Board) :
    (Board.ep_zobrist_flip zk b).previous_moves = b.previous_moves := by rw [epf_eq]
theorem epf_piece_on (zk : ZKeys) (b : Board) (i : Nat) :
    (Board.ep_zobrist_flip zk b).piece_on i = b.piece_on i := by rw [epf_eq]; rfl
theorem epf_ep_square (zk : ZKeys) (b : Board) :
    (Board.ep_zobrist_flip zk b).ep_square = b.ep_square := by rw [epf_eq]; rfl
theorem epf_fifty (zk : ZKeys) (b : Board) :
    (Board.ep_zobrist_flip zk b).state.fifty_move_rule_counter =
      b.state.fifty_move_rule_counter := by rw [epf_eq]
theorem epf_castling (zk : ZKeys) (b : Board) :
    (Board.ep_zobrist_flip zk b).castling_info = b.castling_info := by rw [epf_eq]; rfl
theorem epf_get (zk : ZKeys) (b : Board) (c : Color) :
    (Board.ep_zobrist_flip zk b).get_pieces c = b.get_pieces c := by
  rw [epf_eq]; cases c <;> rfl
theorem epf_cbb (zk : ZKeys) (b : Board) (c : Color) :
    (Board.ep_zobrist_flip zk b).get_color_bitboard c = b.get_color_bitboard c := by
  rw [epf_eq]; cases c <;> rfl
theorem epf_att (zk : ZKeys) (b : Board) (c : Color) :
    (Board.ep_zobrist_flip zk b).get_attack_bitboard c = b.get_attack_bitboard c := by
  rw [epf_eq]; cases c <;> rfl


set_option maxHeartbeats 4000000 in
theorem mvp_quiet (zk : ZKeys) (b : Board) (f t : Nat) (u : MoveUndoData) (p : PieceType)
    (hp : b.piece_on f = some p)
    (hEP : ¬(p = PieceType.Pawn ∧ fromSquare t = b.ep_square))
    (hq : b.get_color_bitboard b.turn.opp &&& fromSquare t = 0) :
    (Board.move_piece zk b (Move.Normal f t) u).1.get_pieces b.turn
        = (b.get_pieces b.turn).xor_type p (fromSquare f ||| fromSquare t) ∧
    (Board.move_piece zk b (Move.Normal f t) u).1.get_pieces b.turn.opp
        = b.get_pieces b.turn.opp ∧
    (Board.move_piece zk b (Move.Normal f t) u).1.get_color_bitboard b.turn
        = b.get_color_bitboard b.turn ^^^ (fromSquare f ||| fromSquare t) ∧
    (Board.move_piece zk b (Move.Normal f t) u).1.get_color_bitboard b.turn.opp
        = b.get_color_bitboard b.turn.opp ∧
    (Board.move_piece zk b (Move.Normal f t) u).1.all_pieces
        = (b.all_pieces ^^^ fromSquare f) ||| fromSquare t ∧
    (Board.move_piece zk b (Move.Normal f t) u).1.piece_on_square
        = (b.piece_on_square.set f Option.none).set t (some p) ∧
    (Board.move_piece zk b (Move.Normal f t) u).2
        = { u with captured_piece := Option.none } := by
  have h1f : (decide (p = PieceType.Pawn) && decide (fromSquare t = b.ep_square)) = false := by
    cases hxy : (decide (p = PieceType.Pawn) && decide (fromSquare t = b.ep_square)) with
    | false => rfl
    | true =>
      simp only [Bool.and_eq_true, decide_eq_true_eq] at hxy
      exact absurd hxy hEP
  cases hturn : b.turn with
  | White =>
    rw [hturn] at hq
    simp only [Color.opp, Board.get_color_bitboard] at hq
    have h2f : (b.all_blacks &&& fromSquare t ≠ 0) = False :=
      eq_false (not_not_intro hq)
    simp only [Board.move_piece, Move.fromSq, Move.toSq, Board.turn_color, hturn, Color.opp,
      Board.get_pieces, Board.get_color_bitboard, Board.set_pieces, Board.set_color_bitboard,
      Board.set_piece_on, hp, Option.getD_some, h1f, Bool.false_eq_true, if_false, h2f,
      ucr_w, ucr_b, ucr_aw, ucr_ab, ucr_all, ucr_pos,
      and_true, true_and, eq_self_iff_true, and_self]
  | Black =>
    rw [hturn] at hq
    simp only [Color.opp, Board.get_color_bitboard] at hq
    have h2f : (b.all_whites &&& fromSquare t ≠ 0) = False :=
      eq_false (not_not_intro hq)
    simp only [Board.move_piece, Move.fromSq, Move.toSq, Board.turn_color, hturn, Color.opp,
      Board.get_pieces, Board.get_color_bitboard, Board.set_pieces, Board.set_color_bitboard,
      Board.set_piece_on, hp, Option.getD_some, h1f, Bool.false_eq_true, if_false, h2f,
      ucr_w, ucr_b, ucr_aw, ucr_ab, ucr_all, ucr_pos,
      and_true, true_and, eq_self_iff_true, and_self]


set_option maxHeartbeats 4000000 in
theorem mvp_cap (zk : ZKeys) (b : Board) (f t : Nat) (u : MoveUndoData) (p q : PieceType)
    (hp : b.piece_on f = some p)
    (hEP : ¬(p = PieceType.Pawn ∧ fromSquare t = b.ep_square))
    (hcap : b.get_color_bitboard b.turn.opp &&& fromSquare t ≠ 0)
    (hc : b.piece_on t = some q) :
    (Board.move_piece zk b (Move.Normal f t) u).1.get_pieces b.turn
        = (b.get_pieces b.turn).xor_type p (fromSquare f ||| fromSquare t) ∧
    (Board.move_piece zk b (Move.Normal f t) u).1.get_pieces b.turn.opp
        = (b.get_pieces b.turn.opp).remove_in_all (fromSquare t) ∧
    (Board.move_piece zk b (Move.Normal f t) u).1.get_color_bitboard b.turn
        = b.get_color_bitboard b.turn ^^^ (fromSquare f ||| fromSquare t) ∧
    (Board.move_piece zk b (Move.Normal f t) u).1.get_color_bitboard b.turn.opp
        = b.get_color_bitboard b.turn.opp ^^^ fromSquare t ∧
    (Board.move_piece zk b (Move.Normal f t) u).1.all_pieces
        = (b.all_pieces ^^^ fromSquare f) ||| fromSquare t ∧
    (Board.move_piece zk b (Move.Normal f t) u).1.piece_on_square
        = (b.piece_on_square.set f Option.none).set t (some p) ∧
    (Board.move_piece zk b (Move.Normal f t) u).2
        = { u with captured_piece := some q } := by
  have h1f : (decide (p = PieceType.Pawn) && decide (fromSquare t = b.ep_square)) = false := by
    cases hxy : (decide (p = PieceType.Pawn) && decide (fromSquare t = b.ep_square)) with
    | false => rfl
    | true =>
      simp only [Bool.and_eq_true, decide_eq_true_eq] at hxy
      exact absurd hxy hEP
  have hp2 : b.piece_on_square.getD f Option.none = some p := hp
  have hc2 : b.piece_on_square.getD t Option.none = some q := hc
  cases hturn : b.turn with
  | White =>
    rw [hturn] at hcap
    simp only [Color.opp, Board.get_color_bitboard] at hcap
    have h2t : (b.all_blacks &&& fromSquare t ≠ 0) = True := eq_true hcap
    simp only [Board.move_piece, Move.fromSq, Move.toSq, Board.turn_color, hturn, Color.opp,
      Board.get_pieces, Board.get_color_bitboard, Board.set_pieces, Board.set_color_bitboard,
      Board.set_piece_on, Board.piece_on, hp2, hc2, Option.getD_some, h1f, Bool.false_eq_true,
      if_false, h2t, if_true, ucr_w, ucr_b, ucr_aw, ucr_ab, ucr_all, ucr_pos,
      and_true, true_and, eq_self_iff_true, and_self]
  | Black =>
    rw [hturn] at hcap
    simp only [Color.opp, Board.get_color_bitboard] at hcap
    have h2t : (b.all_whites &&& fromSquare t ≠ 0) = True := eq_true hcap
    simp only [Board.move_piece, Move.fromSq, Move.toSq, Board.turn_color, hturn, Color.opp,
      Board.get_pieces, Board.get_color_bitboard, Board.set_pieces, Board.set_color_bitboard,
      Board.set_piece_on, Board.piece_on, hp2, hc2, Option.getD_some, h1f, Bool.false_eq_true,
      if_false, h2t, if_true, ucr_w, ucr_b, ucr_aw, ucr_ab, ucr_all, ucr_pos,
      and_true, true_and, eq_self_iff_true, and_self]

set_option maxHeartbeats 4000000 in
theorem mvp_ep (zk : ZKeys) (b : Board) (f t : Nat) (u : MoveUndoData)
    (hp : b.piece_on f = some PieceType.Pawn)
    (hept : fromSquare t = b.ep_square) :
    (Board.move_piece zk b (Move.Normal f t) u).1.get_pieces b.turn
        = (b.get_pieces b.turn).xor_type PieceType.Pawn (fromSquare f ||| fromSquare t) ∧
    (Board.move_piece zk b (Move.Normal f t) u).1.get_pieces b.turn.opp
        = (b.get_pieces b.turn.opp).xor_type PieceType.Pawn
            (fromSquare (if b.turn = Color.White then t - 8 else t + 8)) ∧
    (Board.move_piece zk b (Move.Normal f t) u).1.get_color_bitboard b.turn
        = b.get_color_bitboard b.turn ^^^ (fromSquare f ||| fromSquare t) ∧
    (Board.move_piece zk b (Move.Normal f t) u).1.get_color_bitboard b.turn.opp
        = b.get_color_bitboard b.turn.opp ^^^
            fromSquare (if b.turn = Color.White then t - 8 else t + 8) ∧
    (Board.move_piece zk b (Move.Normal f t) u).1.all_pieces
        = ((b.all_pieces ^^^ fromSquare (if b.turn = Color.White then t - 8 else t + 8)) ^^^
            fromSquare f) ||| fromSquare t ∧
    (Board.move_piece zk b (Move.Normal f t) u).1.piece_on_square
        = ((b.piece_on_square.set (if b.turn = Color.White then t - 8 else t + 8)
            Option.none).set f Option.none).set t (some PieceType.Pawn) ∧
    (Board.move_piece zk b (Move.Normal f t) u).2
        = { u with captured_piece := some PieceType.Pawn, ep := true } := by
  have hdec : decide (fromSquare t = b.ep_square) = true := decide_eq_true hept
  have hbw : (Color.Black = Color.White) = False := by simp
  cases hturn : b.turn with
  | White =>
    simp only [Board.move_piece, Move.fromSq, Move.toSq, Board.turn_color, hturn, Color.opp,
      Board.get_pieces, Board.get_color_bitboard, Board.set_pieces, Board.set_color_bitboard,
      Board.set_piece_on, hp, Option.getD_some, decide_True, Bool.true_and, hdec,
      if_true, hbw, if_false, Bool.false_eq_true, eq_self_iff_true,
      ucr_w, ucr_b, ucr_aw, ucr_ab, ucr_all, ucr_pos,
      and_true, true_and, and_self]
  | Black =>
    simp only [Board.move_piece, Move.fromSq, Move.toSq, Board.turn_color, hturn, Color.opp,
      Board.get_pieces, Board.get_color_bitboard, Board.set_pieces, Board.set_color_bitboard,
      Board.set_piece_on, hp, Option.getD_some, decide_True, Bool.true_and, hdec,
      if_true, hbw, if_false, Bool.false_eq_true, eq_self_iff_true,
      ucr_w, ucr_b, ucr_aw, ucr_ab, ucr_all, ucr_pos,
      and_true, true_and, and_self]


set_option maxHeartbeats 4000000 in
theorem mvp_promq (zk : ZKeys) (b : Board) (f t : Nat) (u : MoveUndoData) (p pc : PieceType)
    (hp : b.piece_on f = some p)
    (hEP : ¬(p = PieceType.Pawn ∧ fromSquare t = b.ep_square))
    (hq : b.get_color_bitboard b.turn.opp &&& fromSquare t = 0) :
    (Board.move_piece zk b (Move.PawnPromotion f t pc) u).1.get_pieces b.turn
        = ((b.get_pieces b.turn).xor_type PieceType.Pawn (fromSquare f)).xor_type pc
            (fromSquare t) ∧
    (Board.move_piece zk b (Move.PawnPromotion f t pc) u).1.get_pieces b.turn.opp
        = b.get_pieces b.turn.opp ∧
    (Board.move_piece zk b (Move.PawnPromotion f t pc) u).1.get_color_bitboard b.turn
        = b.get_color_bitboard b.turn ^^^ (fromSquare f ||| fromSquare t) ∧
    (Board.move_piece zk b (Move.PawnPromotion f t pc) u).1.get_color_bitboard b.turn.opp
        = b.get_color_bitboard b.turn.opp ∧
    (Board.move_piece zk b (Move.PawnPromotion f t pc) u).1.all_pieces
        = (b.all_pieces ^^^ fromSquare f) ||| fromSquare t ∧
    (Board.move_piece zk b (Move.PawnPromotion f t pc) u).1.piece_on_square
        = (b.piece_on_square.set f Option.none).set t (some pc) ∧
    (Board.move_piece zk b (Move.PawnPromotion f t pc) u).2
        = { u with captured_piece := Option.none } := by
  have h1f : (decide (p = PieceType.Pawn) && decide (fromSquare t = b.ep_square)) = false := by
    cases hxy : (decide (p = PieceType.Pawn) && decide (fromSquare t = b.ep_square)) with
    | false => rfl
    | true =>
      simp only [Bool.and_eq_true, decide_eq_true_eq] at hxy
      exact absurd hxy hEP
  cases hturn : b.turn with
  | White =>
    rw [hturn] at hq
    simp only [Color.opp, Board.get_color_bitboard] at hq
    have h2f : (b.all_blacks &&& fromSquare t ≠ 0) = False :=
      eq_false (not_not_intro hq)
    simp only [Board.move_piece, Move.fromSq, Move.toSq, Board.turn_color, hturn, Color.opp,
      Board.get_pieces, Board.get_color_bitboard, Board.set_pieces, Board.set_color_bitboard,
      Board.set_piece_on, hp, Option.getD_some, h1f, Bool.false_eq_true, if_false, h2f,
      ucr_w, ucr_b, ucr_aw, ucr_ab, ucr_all, ucr_pos,
      and_true, true_and, eq_self_iff_true, and_self]
  | Black =>
    rw [hturn] at hq
    simp only [Color.opp, Board.get_color_bitboard] at hq
    have h2f : (b.all_whites &&& fromSquare t ≠ 0) = False :=
      eq_false (not_not_intro hq)
    simp only [Board.move_piece, Move.fromSq, Move.toSq, Board.turn_color, hturn, Color.opp,
      Board.get_pieces, Board.get_color_bitboard, Board.set_pieces, Board.set_color_bitboard,
      Board.set_piece_on, hp, Option.getD_some, h1f, Bool.false_eq_true, if_false, h2f,
      ucr_w, ucr_b, ucr_aw, ucr_ab, ucr_all, ucr_pos,
      and_true, true_and, eq_self_iff_true, and_self]

set_option maxHeartbeats 4000000 in
theorem mvp_promc (zk : ZKeys) (b : Board) (f t : Nat) (u : MoveUndoData) (p pc q : PieceType)
    (hp : b.piece_on f = some p)
    (hEP : ¬(p = PieceType.Pawn ∧ fromSquare t = b.ep_square))
    (hcap : b.get_color_bitboard b.turn.opp &&& fromSquare t ≠ 0)
    (hc : b.piece_on t = some q) :
    (Board.move_piece zk b (Move.PawnPromotion f t pc) u).1.get_pieces b.turn
        = ((b.get_pieces b.turn).xor_type PieceType.Pawn (fromSquare f)).xor_type pc
            (fromSquare t) ∧
    (Board.move_piece zk b (Move.PawnPromotion f t pc) u).1.get_pieces b.turn.opp
        = (b.get_pieces b.turn.opp).remove_in_all (fromSquare t) ∧
    (Board.move_piece zk b (Move.PawnPromotion f t pc) u).1.get_color_bitboard b.turn
        = b.get_color_bitboard b.turn ^^^ (fromSquare f ||| fromSquare t) ∧
    (Board.move_piece zk b (Move.PawnPromotion f t pc) u).1.get_color_bitboard b.turn.opp
        = b.get_color_bitboard b.turn.opp ^^^ fromSquare t ∧
    (Board.move_piece zk b (Move.PawnPromotion f t pc) u).1.all_pieces
        = (b.all_pieces ^^^ fromSquare f) ||| fromSquare t ∧
    (Board.move_piece zk b (Move.PawnPromotion f t pc) u).1.piece_on_square
        = (b.piece_on_square.set f Option.none).set t (some pc) ∧
    (Board.move_piece zk b (Move.PawnPromotion f t pc) u).2
        = { u with captured_piece := some q } := by
  have h1f : (decide (p = PieceType.Pawn) && decide (fromSquare t = b.ep_square)) = false := by
    cases hxy : (decide (p = PieceType.Pawn) && decide (fromSquare t = b.ep_square)) with
    | false => rfl
    | true =>
      simp only [Bool.and_eq_true, decide_eq_true_eq] at hxy
      exact absurd hxy hEP
  have hp2 : b.piece_on_square.getD f Option.none = some p := hp
  have hc2 : b.piece_on_square.getD t Option.none = some q := hc
  cases hturn : b.turn with
  | White =>
    rw [hturn] at hcap
    simp only [Color.opp, Board.get_color_bitboard] at hcap
    have h2t : (b.all_blacks &&& fromSquare t ≠ 0) = True := eq_true hcap
    simp only [Board.move_piece, Move.fromSq, Move.toSq, Board.turn_color, hturn, Color.opp,
      Board.get_pieces, Board.get_color_bitboard, Board.set_pieces, Board.set_color_bitboard,
      Board.set_piece_on, Board.piece_on, hp2, hc2, Option.getD_some, h1f,
      Bool.false_eq_true, if_false, h2t, if_true,
      ucr_w, ucr_b, ucr_aw, ucr_ab, ucr_all, ucr_pos,
      and_true, true_and, eq_self_iff_true, and_self]
  | Black =>
    rw [hturn] at hcap
    simp only [Color.opp, Board.get_color_bitboard] at hcap
    have h2t : (b.all_whites &&& fromSquare t ≠ 0) = True := eq_true hcap
    simp only [Board.move_piece, Move.fromSq, Move.toSq, Board.turn_color, hturn, Color.opp,
      Board.get_pieces, Board.get_color_bitboard, Board.set_pieces, Board.set_color_bitboard,
      Board.set_piece_on, Board.piece_on, hp2, hc2, Option.getD_some, h1f,
      Bool.false_eq_true, if_false, h2t, if_true,
      ucr_w, ucr_b, ucr_aw, ucr_ab, ucr_all, ucr_pos,
      and_true, true_and, eq_self_iff_true, and_self]


theorem make_pm (zk : ZKeys) (b : Board) (m : Move) (hnc : m.is_castle = false) :
    (Board.make_move zk b m).previous_moves =
      (Board.move_piece zk (Board.ep_zobrist_flip zk b) m
        { state := b.state, captured_piece := Option.none, ep := false }).2 ::
        b.previous_moves := by
  simp only [Board.make_move, hnc, Bool.false_eq_true, if_false]
  simp only [uab_pm, uep_pm, mvp_pm, epf_pm]

theorem make_turn (zk : ZKeys) (b : Board) (m : Move) (hnc : m.is_castle = false) :
    (Board.make_move zk b m).turn = b.turn.opp := by
  simp only [Board.make_move, hnc, Bool.false_eq_true, if_false]
  simp only [uab_turn, uep_turn, mvp_turn, epf_turn]

theorem make_ft (zk : ZKeys) (b : Board) (m : Move) (hnc : m.is_castle = false) :
    (Board.make_move zk b m).full_turns = b.full_turns + b.turn.opp.toIndex := by
  simp only [Board.make_move, hnc, Bool.false_eq_true, if_false]
  simp only [uab_ft, uab_turn, uep_ft, uep_turn, mvp_ft, mvp_turn, epf_ft, epf_turn]

theorem make_plies (zk : ZKeys) (b : Board) (m : Move) (hnc : m.is_castle = false) :
    (Board.make_move zk b m).plies = b.plies + 1 := by
  simp only [Board.make_move, hnc, Bool.false_eq_true, if_false]
  simp only [uab_plies, uep_plies, mvp_plies, epf_plies]

theorem make_w (zk : ZKeys) (b : Board) (m : Move) (hnc : m.is_castle = false) :
    (Board.make_move zk b m).white_pieces =
      (Board.move_piece zk (Board.ep_zobrist_flip zk b) m
        { state := b.state, captured_piece := Option.none, ep := false }).1.white_pieces := by
  simp only [Board.make_move, hnc, Bool.false_eq_true, if_false]
  simp only [uab_w, uep_w]

theorem make_b (zk : ZKeys) (b : Board) (m : Move) (hnc : m.is_castle = false) :
    (Board.make_move zk b m).black_pieces =
      (Board.move_piece zk (Board.ep_zobrist_flip zk b) m
        { state := b.state, captured_piece := Option.none, ep := false }).1.black_pieces := by
  simp only [Board.make_move, hnc, Bool.false_eq_true, if_false]
  simp only [uab_b, uep_b]

theorem make_aw (zk : ZKeys) (b : Board) (m : Move) (hnc : m.is_castle = false) :
    (Board.make_move zk b m).all_whites =
      (Board.move_piece zk (Board.ep_zobrist_flip zk b) m
        { state := b.state, captured_piece := Option.none, ep := false }).1.all_whites := by
  simp only [Board.make_move, hnc, Bool.false_eq_true, if_false]
  simp only [uab_aw, uep_aw]

theorem make_ab (zk : ZKeys) (b : Board) (m : Move) (hnc : m.is_castle = false) :
    (Board.make_move zk b m).all_blacks =
      (Board.move_piece zk (Board.ep_zobrist_flip zk b) m
        { state := b.state, captured_piece := Option.none, ep := false }).1.all_blacks := by
  simp only [Board.make_move, hnc, Bool.false_eq_true, if_false]
  simp only [uab_ab, uep_ab]

theorem make_all (zk : ZKeys) (b : Board) (m : Move) (hnc : m.is_castle = false) :
    (Board.make_move zk b m).all_pieces =
      (Board.move_piece zk (Board.ep_zobrist_flip zk b) m
        { state := b.state, captured_piece := Option.none, ep := false }).1.all_pieces := by
  simp only [Board.make_move, hnc, Bool.false_eq_true, if_false]
  simp only [uab_all, uep_all]

theorem make_pos (zk : ZKeys) (b : Board) (m : Move) (hnc : m.is_castle = false) :
    (Board.make_move zk b m).piece_on_square =
      (Board.move_piece zk (Board.ep_zobrist_flip zk b) m
        { state := b.state, captured_piece := Option.none, ep := false }).1.piece_on_square := by
  simp only [Board.make_move, hnc, Bool.false_eq_true, if_false]
  simp only [uab_pos, uep_pos]


/-! ## Additional restoration algebra for captures, en passant and promotions -/

theorem all_restore_ep {a f t e : Nat} (hf : a.testBit f = true)
    (ht : a.testBit t = false) (he : a.testBit e = true)
    (_hft : f ≠ t) (hef : e ≠ f) (_het : e ≠ t) :
    ((((a ^^^ 2 ^ e) ^^^ 2 ^ f) ||| 2 ^ t) ^^^ (2 ^ f ||| 2 ^ t)) ||| 2 ^ e = a := by
  apply Nat.eq_of_testBit_eq
  intro j
  simp only [Nat.testBit_xor, Nat.testBit_lor, Nat.testBit_two_pow]
  by_cases h1 : f = j <;> by_cases h2 : t = j <;> by_cases h3 : e = j <;> simp_all

theorem shl64_two_pow {s n : Nat} (h : s + n < 64) : shl64 (2 ^ s) n = 2 ^ (s + n) := by
  unfold shl64
  rw [Nat.shiftLeft_eq, ← Nat.pow_add]
  exact Nat.mod_eq_of_lt (Nat.pow_lt_pow_right (by omega) h)

theorem shr_two_pow {s n : Nat} (h : n ≤ s) : (2 ^ s) >>> n = 2 ^ (s - n) := by
  rw [Nat.shiftRight_eq_div_pow]
  rw [Nat.pow_div h (by omega)]

theorem pieces_xor_or_restore (P : Pieces) (q : PieceType) {e : Nat}
    (he : (P.get_pieces_of_type q).testBit e = true) :
    (P.xor_type q (2 ^ e)).or_type q (2 ^ e) = P := by
  unfold Pieces.xor_type Pieces.or_type
  rw [Pieces.get_set_self, Pieces.set_set_self, xor_or_restore he,
    Pieces.set_get_self]

theorem pieces_ext_types {P Q : Pieces}
    (h : ∀ r : PieceType, P.get_pieces_of_type r = Q.get_pieces_of_type r) : P = Q := by
  apply Pieces.ext
  · exact h PieceType.Pawn
  · exact h PieceType.Rook
  · exact h PieceType.Knight
  · exact h PieceType.Bishop
  · exact h PieceType.Queen
  · exact h PieceType.King

theorem pieces_remove_or_restore (P : Pieces) (q : PieceType) {t : Nat}
    (hbound : ∀ r : PieceType, P.get_pieces_of_type r < U64) (ht : t < 64)
    (hq : (P.get_pieces_of_type q).testBit t = true)
    (hothers : ∀ r : PieceType, r ≠ q → (P.get_pieces_of_type r).testBit t = false) :
    (P.remove_in_all (2 ^ t)).or_type q (2 ^ t) = P := by
  apply pieces_ext_types
  intro r
  by_cases hr : r = q
  · subst hr
    unfold Pieces.or_type
    rw [Pieces.get_set_self, Pieces.remove_in_all_get]
    exact and_not_or_restore (hbound r) ht hq
  · unfold Pieces.or_type
    rw [Pieces.get_set_ne _ (fun hx => hr hx.symm) _, Pieces.remove_in_all_get]
    exact and_not_of_not_testBit (hbound r) (hothers r hr)


/-- Pointwise restoration of a three-square write chain: three squares are
overwritten and then restored to their original contents in reverse order. -/
theorem set_chain3 {α : Type} (A : List α) (dflt : α) {i1 i2 i3 : Nat}
    (x1 x2 x3 z3 z2 z1 : α)
    (hb1 : i1 < A.length) (hb2 : i2 < A.length) (hb3 : i3 < A.length)
    (_h12 : i1 ≠ i2) (_h13 : i1 ≠ i3) (_h23 : i2 ≠ i3)
    (hz1 : A.getD i1 dflt = z1) (hz2 : A.getD i2 dflt = z2)
    (hz3 : A.getD i3 dflt = z3) :
    (((((A.set i1 x1).set i2 x2).set i3 x3).set i3 z3).set i2 z2).set i1 z1 = A := by
  rw [List.set_set]
  apply List.ext_getElem?
  intro j
  by_cases hj1 : i1 = j
  · subst hj1
    rw [List.getElem?_set_self (by simpa using hb1), List.getElem?_eq_getElem hb1]
    rw [List.getD_eq_getElem?_getD, List.getElem?_eq_getElem hb1,
      Option.getD_some] at hz1
    rw [hz1]
  · rw [List.getElem?_set_ne hj1]
    by_cases hj2 : i2 = j
    · subst hj2
      rw [List.getElem?_set_self (by simpa using hb2), List.getElem?_eq_getElem hb2]
      rw [List.getD_eq_getElem?_getD, List.getElem?_eq_getElem hb2,
        Option.getD_some] at hz2
      rw [hz2]
    · rw [List.getElem?_set_ne hj2]
      by_cases hj3 : i3 = j
      · subst hj3
        rw [List.getElem?_set_self (by simpa using hb3), List.getElem?_eq_getElem hb3]
        rw [List.getD_eq_getElem?_getD, List.getElem?_eq_getElem hb3,
          Option.getD_some] at hz3
        rw [hz3]
      · rw [List.getElem?_set_ne hj3, List.getElem?_set_ne hj2,
          List.getElem?_set_ne hj1]


/-! ## Castle restoration kit -/

theorem Pieces.get_xor_self (P : Pieces) (t : PieceType) (x : Nat) :
    (P.xor_type t x).get_pieces_of_type t = P.get_pieces_of_type t ^^^ x := by
  unfold Pieces.xor_type
  rw [Pieces.get_set_self]

theorem Pieces.get_xor_ne (P : Pieces) {t r : PieceType} (h : t ≠ r) (x : Nat) :
    (P.xor_type t x).get_pieces_of_type r = P.get_pieces_of_type r := by
  unfold Pieces.xor_type
  rw [Pieces.get_set_ne _ h]

theorem Pieces.xor_type_comm (P : Pieces) {t r : PieceType} (h : t ≠ r) (x y : Nat) :
    (P.xor_type t x).xor_type r y = (P.xor_type r y).xor_type t x := by
  apply pieces_ext_types
  intro s
  by_cases hs : s = t
  · subst hs
    rw [Pieces.get_xor_ne _ (fun hx => h hx.symm), Pieces.get_xor_self,
      Pieces.get_xor_self, Pieces.get_xor_ne _ (fun hx => h hx.symm)]
  · by_cases hs2 : s = r
    · subst hs2
      rw [Pieces.get_xor_self, Pieces.get_xor_ne _ h, Pieces.get_xor_ne _ h,
        Pieces.get_xor_self]
    · rw [Pieces.get_xor_ne _ (fun hx => hs2 hx.symm),
        Pieces.get_xor_ne _ (fun hx => hs hx.symm),
        Pieces.get_xor_ne _ (fun hx => hs hx.symm),
        Pieces.get_xor_ne _ (fun hx => hs2 hx.symm)]

/-- Restoring the all-pieces board after the two quiet sub-moves of a castle. -/
theorem all_restore_two {a kf kt rf rt : Nat}
    (h1 : a.testBit kf = true) (h2 : a.testBit kt = false)
    (h3 : a.testBit rf = true) (h4 : a.testBit rt = false)
    (_d1 : kf ≠ kt) (d2 : kf ≠ rf) (_d3 : kf ≠ rt) (_d4 : kt ≠ rf) (d5 : kt ≠ rt)
    (_d6 : rf ≠ rt) :
    ((((a ^^^ 2 ^ kf) ||| 2 ^ kt) ^^^ 2 ^ rf) ||| 2 ^ rt) ^^^
      ((2 ^ kf ||| 2 ^ kt) ||| (2 ^ rf ||| 2 ^ rt)) = a := by
  apply Nat.eq_of_testBit_eq
  intro j
  simp only [Nat.testBit_xor, Nat.testBit_lor, Nat.testBit_two_pow]
  by_cases e1 : kf = j <;> by_cases e2 : kt = j <;> by_cases e3 : rf = j <;>
    by_cases e4 : rt = j <;> simp_all

/-- Pointwise restoration of the four-square write chain of a castle. -/
theorem set_chain4 {α : Type} (A : List α) (dflt : α) {i1 i2 i3 i4 : Nat}
    (x1 x2 x3 x4 w2 w1 w4 w3 : α)
    (hb1 : i1 < A.length) (hb2 : i2 < A.length) (hb3 : i3 < A.length)
    (hb4 : i4 < A.length)
    (_d12 : i1 ≠ i2) (_d13 : i1 ≠ i3) (_d14 : i1 ≠ i4) (_d23 : i2 ≠ i3)
    (_d24 : i2 ≠ i4) (_d34 : i3 ≠ i4)
    (hw1 : A.getD i1 dflt = w1) (hw2 : A.getD i2 dflt = w2)
    (hw3 : A.getD i3 dflt = w3) (hw4 : A.getD i4 dflt = w4) :
    ((((((((A.set i1 x1).set i2 x2).set i3 x3).set i4 x4).set i2 w2).set
      i1 w1).set i4 w4).set i3 w3) = A := by
  apply List.ext_getElem?
  intro j
  by_cases hj3 : i3 = j
  · subst hj3
    rw [List.getElem?_set_self (by simpa using hb3), List.getElem?_eq_getElem hb3]
    rw [List.getD_eq_getElem?_getD, List.getElem?_eq_getElem hb3,
      Option.getD_some] at hw3
    rw [hw3]
  · rw [List.getElem?_set_ne hj3]
    by_cases hj4 : i4 = j
    · subst hj4
      rw [List.getElem?_set_self (by simpa using hb4), List.getElem?_eq_getElem hb4]
      rw [List.getD_eq_getElem?_getD, List.getElem?_eq_getElem hb4,
        Option.getD_some] at hw4
      rw [hw4]
    · rw [List.getElem?_set_ne hj4]
      by_cases hj1 : i1 = j
      · subst hj1
        rw [List.getElem?_set_self (by simpa using hb1), List.getElem?_eq_getElem hb1]
        rw [List.getD_eq_getElem?_getD, List.getElem?_eq_getElem hb1,
          Option.getD_some] at hw1
        rw [hw1]
      · rw [List.getElem?_set_ne hj1]
        by_cases hj2 : i2 = j
        · subst hj2
          rw [List.getElem?_set_self (by simpa using hb2),
            List.getElem?_eq_getElem hb2]
          rw [List.getD_eq_getElem?_getD, List.getElem?_eq_getElem hb2,
            Option.getD_some] at hw2
          rw [hw2]
        · rw [List.getElem?_set_ne hj2, List.getElem?_set_ne hj4,
            List.getElem?_set_ne hj3, List.getElem?_set_ne hj2,
            List.getElem?_set_ne hj1]


set_option maxHeartbeats 4000000 in
theorem restore_quiet (zk : ZKeys) (b : Board) (f t : Nat) (p : PieceType)
    (hlen : b.piece_on_square.length = 64)
    (hf : f < 64) (ht : t < 64) (hne : f ≠ t)
    (hp : b.piece_on f = some p)
    (hEP : ¬(p = PieceType.Pawn ∧ fromSquare t = b.ep_square))
    (hq : b.get_color_bitboard b.turn.opp &&& fromSquare t = 0)
    (hto : b.piece_on t = Option.none)
    (hallf : b.all_pieces.testBit f = true)
    (hallt : b.all_pieces.testBit t = false) :
    Board.unmake_move (Board.make_move zk b (Move.Normal f t)) (Move.Normal f t) = b := by
  have hpE : (Board.ep_zobrist_flip zk b).piece_on f = some p := by
    rw [epf_piece_on]; exact hp
  have hEPE : ¬(p = PieceType.Pawn ∧
      fromSquare t = (Board.ep_zobrist_flip zk b).ep_square) := by
    rw [epf_ep_square]; exact hEP
  have hqE : (Board.ep_zobrist_flip zk b).get_color_bitboard
      (Board.ep_zobrist_flip zk b).turn.opp &&& fromSquare t = 0 := by
    rw [epf_turn, epf_cbb]; exact hq
  obtain ⟨e1, e2, e3, e4, e5, e6, e7⟩ := mvp_quiet zk (Board.ep_zobrist_flip zk b) f t
    { state := b.state, captured_piece := Option.none, ep := false } p hpE hEPE hqE
  rw [epf_turn, epf_get] at e1
  rw [epf_turn, epf_get] at e2
  rw [epf_turn, epf_cbb] at e3
  rw [epf_turn, epf_cbb] at e4
  rw [epf_all] at e5
  rw [epf_pos] at e6
  have hgt : ((b.piece_on_square.set f Option.none).set t (some p)).getD t Option.none
      = some p := by
    refine getD_set_self _ _ _ _ ?_
    rw [List.length_set, hlen]; exact ht
  have harr : (((b.piece_on_square.set f Option.none).set t (some p)).set t
      Option.none).set f (some p) = b.piece_on_square := by
    rw [List.set_set, List.set_comm _ _ _ hne, List.set_set]
    have h1 : b.piece_on_square.set t Option.none = b.piece_on_square := by
      conv_lhs => rw [show (Option.none : Option PieceType) =
        b.piece_on_square.getD t Option.none from hto.symm]
      exact set_getD_self _ _ _
    rw [h1]
    conv_lhs => rw [show (some p : Option PieceType) =
      b.piece_on_square.getD f Option.none from hp.symm]
    exact set_getD_self _ _ _
  have hxz : (fromSquare f ||| fromSquare t) ^^^ (fromSquare t ^^^ fromSquare f) = 0 := by
    rw [fromSquare_eq hf, fromSquare_eq ht, single_or_eq_xor hne,
      Nat.xor_comm (2 ^ t) (2 ^ f), Nat.xor_self]
  have hall : ((b.all_pieces ^^^ fromSquare f) ||| fromSquare t) ^^^
      (fromSquare f ||| fromSquare t) = b.all_pieces := by
    rw [fromSquare_eq hf, fromSquare_eq ht]
    exact all_restore_quiet hallf hallt hne
  cases hturn : b.turn with
  | White =>
    rw [hturn] at e1 e2 e3 e4
    simp only [Color.opp, Board.get_pieces, Board.get_color_bitboard] at e1 e2 e3 e4
    have hmk : Board.make_move zk b (Move.Normal f t) =
        ⟨(Board.make_move zk b (Move.Normal f t)).state,
         { state := b.state, captured_piece := Option.none, ep := false } ::
           b.previous_moves,
         Color.Black, b.full_turns, b.plies + 1,
         b.white_pieces.xor_type p (fromSquare f ||| fromSquare t),
         b.black_pieces,
         b.all_whites ^^^ (fromSquare f ||| fromSquare t),
         b.all_blacks,
         (b.all_pieces ^^^ fromSquare f) ||| fromSquare t,
         (b.piece_on_square.set f Option.none).set t (some p)⟩ := by
      apply Board.ext
      · rfl
      · rw [make_pm zk b (Move.Normal f t) rfl, e7]
      · rw [make_turn zk b (Move.Normal f t) rfl, hturn]; simp [Color.opp]
      · rw [make_ft zk b (Move.Normal f t) rfl, hturn]; simp [Color.opp, Color.toIndex]
      · exact make_plies zk b (Move.Normal f t) rfl
      · rw [make_w zk b (Move.Normal f t) rfl]; exact e1
      · rw [make_b zk b (Move.Normal f t) rfl]; exact e2
      · rw [make_aw zk b (Move.Normal f t) rfl]; exact e3
      · rw [make_ab zk b (Move.Normal f t) rfl]; exact e4
      · rw [make_all zk b (Move.Normal f t) rfl]; exact e5
      · rw [make_pos zk b (Move.Normal f t) rfl]; exact e6
    rw [hmk]
    simp only [Board.unmake_move, Move.is_castle, Bool.false_eq_true, if_false,
      Move.fromSq, Move.toSq, Move.is_promotion, Board.turn_color, Color.opp,
      Color.toIndex, Board.get_color_bitboard, Board.set_color_bitboard,
      Board.get_pieces, Board.set_pieces, Board.set_piece_on, Board.piece_on,
      hgt, Option.getD_some]
    apply Board.ext
    · rfl
    · rfl
    · exact hturn.symm
    · simp
    · simp
    · rw [Pieces.xor_type_xor_type, Pieces.xor_type_xor_type, hxz,
        Pieces.xor_type_zero]
    · rfl
    · simp [Nat.xor_assoc, Nat.xor_self]
    · rfl
    · exact hall
    · exact harr
  | Black =>
    rw [hturn] at e1 e2 e3 e4
    simp only [Color.opp, Board.get_pieces, Board.get_color_bitboard] at e1 e2 e3 e4
    have hmk : Board.make_move zk b (Move.Normal f t) =
        ⟨(Board.make_move zk b (Move.Normal f t)).state,
         { state := b.state, captured_piece := Option.none, ep := false } ::
           b.previous_moves,
         Color.White, b.full_turns + 1, b.plies + 1,
         b.white_pieces,
         b.black_pieces.xor_type p (fromSquare f ||| fromSquare t),
         b.all_whites,
         b.all_blacks ^^^ (fromSquare f ||| fromSquare t),
         (b.all_pieces ^^^ fromSquare f) ||| fromSquare t,
         (b.piece_on_square.set f Option.none).set t (some p)⟩ := by
      apply Board.ext
      · rfl
      · rw [make_pm zk b (Move.Normal f t) rfl, e7]
      · rw [make_turn zk b (Move.Normal f t) rfl, hturn]; simp [Color.opp]
      · rw [make_ft zk b (Move.Normal f t) rfl, hturn]; simp [Color.opp, Color.toIndex]
      · exact make_plies zk b (Move.Normal f t) rfl
      · rw [make_w zk b (Move.Normal f t) rfl]; exact e2
      · rw [make_b zk b (Move.Normal f t) rfl]; exact e1
      · rw [make_aw zk b (Move.Normal f t) rfl]; exact e4
      · rw [make_ab zk b (Move.Normal f t) rfl]; exact e3
      · rw [make_all zk b (Move.Normal f t) rfl]; exact e5
      · rw [make_pos zk b (Move.Normal f t) rfl]; exact e6
    rw [hmk]
    simp only [Board.unmake_move, Move.is_castle, Bool.false_eq_true, if_false,
      Move.fromSq, Move.toSq, Move.is_promotion, Board.turn_color, Color.opp,
      Color.toIndex, Board.get_color_bitboard, Board.set_color_bitboard,
      Board.get_pieces, Board.set_pieces, Board.set_piece_on, Board.piece_on,
      hgt, Option.getD_some]
    apply Board.ext
    · rfl
    · rfl
    · exact hturn.symm
    · simp
    · simp
    · rfl
    · rw [Pieces.xor_type_xor_type, Pieces.xor_type_xor_type, hxz,
        Pieces.xor_type_zero]
    · rfl
    · simp [Nat.xor_assoc, Nat.xor_self]
    · exact hall
    · exact harr


set_option maxHeartbeats 4000000 in
theorem restore_cap (zk : ZKeys) (b : Board) (f t : Nat) (p q : PieceType)
    (hlen : b.piece_on_square.length = 64)
    (hf : f < 64) (ht : t < 64) (hne : f ≠ t)
    (hp : b.piece_on f = some p)
    (hEP : ¬(p = PieceType.Pawn ∧ fromSquare t = b.ep_square))
    (hcap : b.get_color_bitboard b.turn.opp &&& fromSquare t ≠ 0)
    (hc : b.piece_on t = some q)
    (hallf : b.all_pieces.testBit f = true)
    (hallt : b.all_pieces.testBit t = true)
    (het : (b.get_color_bitboard b.turn.opp).testBit t = true)
    (hbound : ∀ r : PieceType,
      (b.get_pieces b.turn.opp).get_pieces_of_type r < U64)
    (hqt : ((b.get_pieces b.turn.opp).get_pieces_of_type q).testBit t = true)
    (hothers : ∀ r : PieceType, r ≠ q →
      ((b.get_pieces b.turn.opp).get_pieces_of_type r).testBit t = false) :
    Board.unmake_move (Board.make_move zk b (Move.Normal f t)) (Move.Normal f t) = b := by
  have hpE : (Board.ep_zobrist_flip zk b).piece_on f = some p := by
    rw [epf_piece_on]; exact hp
  have hEPE : ¬(p = PieceType.Pawn ∧
      fromSquare t = (Board.ep_zobrist_flip zk b).ep_square) := by
    rw [epf_ep_square]; exact hEP
  have hcapE : (Board.ep_zobrist_flip zk b).get_color_bitboard
      (Board.ep_zobrist_flip zk b).turn.opp &&& fromSquare t ≠ 0 := by
    rw [epf_turn, epf_cbb]; exact hcap
  have hcE : (Board.ep_zobrist_flip zk b).piece_on t = some q := by
    rw [epf_piece_on]; exact hc
  obtain ⟨e1, e2, e3, e4, e5, e6, e7⟩ := mvp_cap zk (Board.ep_zobrist_flip zk b) f t
    { state := b.state, captured_piece := Option.none, ep := false } p q hpE hEPE hcapE hcE
  rw [epf_turn, epf_get] at e1
  rw [epf_turn, epf_get] at e2
  rw [epf_turn, epf_cbb] at e3
  rw [epf_turn, epf_cbb] at e4
  rw [epf_all] at e5
  rw [epf_pos] at e6
  have hgt : ((b.piece_on_square.set f Option.none).set t (some p)).getD t Option.none
      = some p := by
    refine getD_set_self _ _ _ _ ?_
    rw [List.length_set, hlen]; exact ht
  have harr : ((((b.piece_on_square.set f Option.none).set t (some p)).set t
      Option.none).set f (some p)).set t (some q) = b.piece_on_square := by
    rw [List.set_set, List.set_comm _ _ _ hne, List.set_set,
      List.set_comm _ _ _ (Ne.symm hne), List.set_set]
    have hgq : (b.piece_on_square.set f (some p)).getD t Option.none = some q := by
      rw [getD_set_ne _ _ _ hne]; exact hc
    conv_lhs => rw [show (some q : Option PieceType) =
      (b.piece_on_square.set f (some p)).getD t Option.none from hgq.symm]
    rw [set_getD_self]
    conv_lhs => rw [show (some p : Option PieceType) =
      b.piece_on_square.getD f Option.none from hp.symm]
    exact set_getD_self _ _ _
  have hxz : (fromSquare f ||| fromSquare t) ^^^ (fromSquare t ^^^ fromSquare f) = 0 := by
    rw [fromSquare_eq hf, fromSquare_eq ht, single_or_eq_xor hne,
      Nat.xor_comm (2 ^ t) (2 ^ f), Nat.xor_self]
  have hall : ((((b.all_pieces ^^^ fromSquare f) ||| fromSquare t) ^^^
      (fromSquare f ||| fromSquare t)) ||| fromSquare t) = b.all_pieces := by
    rw [fromSquare_eq hf, fromSquare_eq ht]
    exact all_restore_capture hallf hallt hne
  cases hturn : b.turn with
  | White =>
    rw [hturn] at e1 e2 e3 e4 het hbound hqt hothers
    simp only [Color.opp, Board.get_pieces, Board.get_color_bitboard]
      at e1 e2 e3 e4 het hbound hqt hothers
    have hrest : ((b.black_pieces.remove_in_all (fromSquare t)).or_type q
        (fromSquare t)) = b.black_pieces := by
      rw [fromSquare_eq ht]
      exact pieces_remove_or_restore _ _ hbound ht hqt hothers
    have hcbb : (b.all_blacks ^^^ fromSquare t) ||| fromSquare t = b.all_blacks := by
      rw [fromSquare_eq ht]
      exact xor_or_restore het
    have hmk : Board.make_move zk b (Move.Normal f t) =
        ⟨(Board.make_move zk b (Move.Normal f t)).state,
         { state := b.state, captured_piece := some q, ep := false } ::
           b.previous_moves,
         Color.Black, b.full_turns, b.plies + 1,
         b.white_pieces.xor_type p (fromSquare f ||| fromSquare t),
         b.black_pieces.remove_in_all (fromSquare t),
         b.all_whites ^^^ (fromSquare f ||| fromSquare t),
         b.all_blacks ^^^ fromSquare t,
         (b.all_pieces ^^^ fromSquare f) ||| fromSquare t,
         (b.piece_on_square.set f Option.none).set t (some p)⟩ := by
      apply Board.ext
      · rfl
      · rw [make_pm zk b (Move.Normal f t) rfl, e7]
      · rw [make_turn zk b (Move.Normal f t) rfl, hturn]; simp [Color.opp]
      · rw [make_ft zk b (Move.Normal f t) rfl, hturn]
        simp [Color.opp, Color.toIndex]
      · exact make_plies zk b (Move.Normal f t) rfl
      · rw [make_w zk b (Move.Normal f t) rfl]; exact e1
      · rw [make_b zk b (Move.Normal f t) rfl]; exact e2
      · rw [make_aw zk b (Move.Normal f t) rfl]; exact e3
      · rw [make_ab zk b (Move.Normal f t) rfl]; exact e4
      · rw [make_all zk b (Move.Normal f t) rfl]; exact e5
      · rw [make_pos zk b (Move.Normal f t) rfl]; exact e6
    rw [hmk]
    simp only [Board.unmake_move, Move.is_castle, Bool.false_eq_true, if_false,
      Move.fromSq, Move.toSq, Move.is_promotion, Board.turn_color, Color.opp,
      Color.toIndex, Board.get_color_bitboard, Board.set_color_bitboard,
      Board.get_pieces, Board.set_pieces, Board.set_piece_on, Board.piece_on,
      hgt, Option.getD_some]
    apply Board.ext
    · rfl
    · rfl
    · exact hturn.symm
    · simp
    · simp
    · rw [Pieces.xor_type_xor_type, Pieces.xor_type_xor_type, hxz,
        Pieces.xor_type_zero]
    · exact hrest
    · simp [Nat.xor_assoc, Nat.xor_self]
    · exact hcbb
    · exact hall
    · exact harr
  | Black =>
    rw [hturn] at e1 e2 e3 e4 het hbound hqt hothers
    simp only [Color.opp, Board.get_pieces, Board.get_color_bitboard]
      at e1 e2 e3 e4 het hbound hqt hothers
    have hrest : ((b.white_pieces.remove_in_all (fromSquare t)).or_type q
        (fromSquare t)) = b.white_pieces := by
      rw [fromSquare_eq ht]
      exact pieces_remove_or_restore _ _ hbound ht hqt hothers
    have hcbb : (b.all_whites ^^^ fromSquare t) ||| fromSquare t = b.all_whites := by
      rw [fromSquare_eq ht]
      exact xor_or_restore het
    have hmk : Board.make_move zk b (Move.Normal f t) =
        ⟨(Board.make_move zk b (Move.Normal f t)).state,
         { state := b.state, captured_piece := some q, ep := false } ::
           b.previous_moves,
         Color.White, b.full_turns + 1, b.plies + 1,
         b.white_pieces.remove_in_all (fromSquare t),
         b.black_pieces.xor_type p (fromSquare f ||| fromSquare t),
         b.all_whites ^^^ fromSquare t,
         b.all_blacks ^^^ (fromSquare f ||| fromSquare t),
         (b.all_pieces ^^^ fromSquare f) ||| fromSquare t,
         (b.piece_on_square.set f Option.none).set t (some p)⟩ := by
      apply Board.ext
      · rfl
      · rw [make_pm zk b (Move.Normal f t) rfl, e7]
      · rw [make_turn zk b (Move.Normal f t) rfl, hturn]; simp [Color.opp]
      · rw [make_ft zk b (Move.Normal f t) rfl, hturn]
        simp [Color.opp, Color.toIndex]
      · exact make_plies zk b (Move.Normal f t) rfl
      · rw [make_w zk b (Move.Normal f t) rfl]; exact e2
      · rw [make_b zk b (Move.Normal f t) rfl]; exact e1
      · rw [make_aw zk b (Move.Normal f t) rfl]; exact e4
      · rw [make_ab zk b (Move.Normal f t) rfl]; exact e3
      · rw [make_all zk b (Move.Normal f t) rfl]; exact e5
      · rw [make_pos zk b (Move.Normal f t) rfl]; exact e6
    rw [hmk]
    simp only [Board.unmake_move, Move.is_castle, Bool.false_eq_true, if_false,
      Move.fromSq, Move.toSq, Move.is_promotion, Board.turn_color, Color.opp,
      Color.toIndex, Board.get_color_bitboard, Board.set_color_bitboard,
      Board.get_pieces, Board.set_pieces, Board.set_piece_on, Board.piece_on,
      hgt, Option.getD_some]
    apply Board.ext
    · rfl
    · rfl
    · exact hturn.symm
    · simp
    · simp
    · exact hrest
    · rw [Pieces.xor_type_xor_type, Pieces.xor_type_xor_type, hxz,
        Pieces.xor_type_zero]
    · exact hcbb
    · simp [Nat.xor_assoc, Nat.xor_self]
    · exact hall
    · exact harr


set_option maxHeartbeats 8000000 in
theorem restore_ep (zk : ZKeys) (b : Board) (f t : Nat)
    (hlen : b.piece_on_square.length = 64)
    (hf : f < 64) (ht : t < 64) (hne : f ≠ t)
    (hp : b.piece_on f = some PieceType.Pawn)
    (hept : fromSquare t = b.ep_square)
    (hto : b.piece_on t = Option.none)
    (hallf : b.all_pieces.testBit f = true)
    (hallt : b.all_pieces.testBit t = false)
    (htef : (if b.turn = Color.White then t - 8 else t + 8) ≠ f)
    (htet : (if b.turn = Color.White then t - 8 else t + 8) ≠ t)
    (hallte : b.all_pieces.testBit (if b.turn = Color.White then t - 8 else t + 8) = true)
    (hcbbte : (b.get_color_bitboard b.turn.opp).testBit
      (if b.turn = Color.White then t - 8 else t + 8) = true)
    (hpte : (b.get_pieces b.turn.opp).pawns.testBit
      (if b.turn = Color.White then t - 8 else t + 8) = true)
    (hate : b.piece_on (if b.turn = Color.White then t - 8 else t + 8)
      = some PieceType.Pawn)
    (hw8 : b.turn = Color.White → 8 ≤ t)
    (hb56 : b.turn = Color.Black → t + 8 < 64) :
    Board.unmake_move (Board.make_move zk b (Move.Normal f t)) (Move.Normal f t) = b := by
  have hpE : (Board.ep_zobrist_flip zk b).piece_on f = some PieceType.Pawn := by
    rw [epf_piece_on]; exact hp
  have heptE : fromSquare t = (Board.ep_zobrist_flip zk b).ep_square := by
    rw [epf_ep_square]; exact hept
  obtain ⟨e1, e2, e3, e4, e5, e6, e7⟩ := mvp_ep zk (Board.ep_zobrist_flip zk b) f t
    { state := b.state, captured_piece := Option.none, ep := false } hpE heptE
  rw [epf_turn, epf_get] at e1
  rw [epf_turn, epf_get] at e2
  rw [epf_turn, epf_cbb] at e3
  rw [epf_turn, epf_cbb] at e4
  rw [epf_turn, epf_all] at e5
  rw [epf_turn, epf_pos] at e6
  have hgt : (((b.piece_on_square.set (if b.turn = Color.White then t - 8 else t + 8)
      Option.none).set f Option.none).set t (some PieceType.Pawn)).getD t Option.none
      = some PieceType.Pawn := by
    refine getD_set_self _ _ _ _ ?_
    rw [List.length_set, List.length_set, hlen]; exact ht
  cases hturn : b.turn with
  | White =>
    rw [hturn] at e1 e2 e3 e4 e5 e6 htef htet hallte hcbbte hpte hate hgt
    simp only [eq_self_iff_true, if_true] at e1 e2 e3 e4 e5 e6 htef htet hallte hcbbte hpte hate hgt
    simp only [Color.opp, Board.get_pieces, Board.get_color_bitboard]
      at e1 e2 e3 e4 hcbbte hpte
    have h8t : 8 ≤ t := hw8 hturn
    have hte64 : t - 8 < 64 := by omega
    have hepsq : b.state.en_passant_target = 2 ^ t := by
      rw [← fromSquare_eq ht]; exact hept.symm
    have hshr : (2 : Nat) ^ t >>> 8 = 2 ^ (t - 8) := shr_two_pow h8t
    have htz : trailingZeros (2 ^ (t - 8)) = t - 8 := trailingZeros_two_pow hte64
    have hfsf : fromSquare f = 2 ^ f := fromSquare_eq hf
    have hfst : fromSquare t = 2 ^ t := fromSquare_eq ht
    have hfste : fromSquare (t - 8) = 2 ^ (t - 8) := fromSquare_eq hte64
    have hxz : (2 ^ f ||| 2 ^ t) ^^^ (2 ^ t ^^^ 2 ^ f) = 0 := by
      rw [single_or_eq_xor hne, Nat.xor_comm (2 ^ t) (2 ^ f), Nat.xor_self]
    have hmk : Board.make_move zk b (Move.Normal f t) =
        ⟨(Board.make_move zk b (Move.Normal f t)).state,
         { state := b.state, captured_piece := some PieceType.Pawn, ep := true } ::
           b.previous_moves,
         Color.Black, b.full_turns, b.plies + 1,
         b.white_pieces.xor_type PieceType.Pawn (fromSquare f ||| fromSquare t),
         b.black_pieces.xor_type PieceType.Pawn (fromSquare (t - 8)),
         b.all_whites ^^^ (fromSquare f ||| fromSquare t),
         b.all_blacks ^^^ fromSquare (t - 8),
         ((b.all_pieces ^^^ fromSquare (t - 8)) ^^^ fromSquare f) ||| fromSquare t,
         ((b.piece_on_square.set (t - 8) Option.none).set f Option.none).set t
           (some PieceType.Pawn)⟩ := by
      apply Board.ext
      · rfl
      · rw [make_pm zk b (Move.Normal f t) rfl, e7]
      · rw [make_turn zk b (Move.Normal f t) rfl, hturn]; simp [Color.opp]
      · rw [make_ft zk b (Move.Normal f t) rfl, hturn]
        simp [Color.opp, Color.toIndex]
      · exact make_plies zk b (Move.Normal f t) rfl
      · rw [make_w zk b (Move.Normal f t) rfl]; exact e1
      · rw [make_b zk b (Move.Normal f t) rfl]; exact e2
      · rw [make_aw zk b (Move.Normal f t) rfl]; exact e3
      · rw [make_ab zk b (Move.Normal f t) rfl]; exact e4
      · rw [make_all zk b (Move.Normal f t) rfl]; exact e5
      · rw [make_pos zk b (Move.Normal f t) rfl]; exact e6
    rw [hmk]
    simp only [Board.unmake_move, Move.is_castle, Bool.false_eq_true, if_false,
      Move.fromSq, Move.toSq, Move.is_promotion, Board.turn_color, Color.opp,
      Color.toIndex, Board.get_color_bitboard, Board.set_color_bitboard,
      Board.get_pieces, Board.set_pieces, Board.set_piece_on, Board.piece_on,
      Board.ep_square, hgt, Option.getD_some, eq_self_iff_true, if_true,
      hepsq, hshr, htz, hfsf, hfst, hfste]
    apply Board.ext
    · rfl
    · rfl
    · exact hturn.symm
    · simp
    · simp
    · rw [Pieces.xor_type_xor_type, Pieces.xor_type_xor_type, hxz,
        Pieces.xor_type_zero]
    · exact pieces_xor_or_restore b.black_pieces PieceType.Pawn hpte
    · simp [Nat.xor_assoc, Nat.xor_self]
    · exact xor_or_restore hcbbte
    · exact all_restore_ep hallf hallt hallte hne htef htet
    · exact set_chain3 b.piece_on_square Option.none _ _ _ _ _ _
        (by rw [hlen]; exact hte64) (by rw [hlen]; exact hf) (by rw [hlen]; exact ht)
        htef htet hne hate hp hto
  | Black =>
    rw [hturn] at e1 e2 e3 e4 e5 e6 htef htet hallte hcbbte hpte hate hgt
    have hbw : (Color.Black = Color.White) = False := by simp
    simp only [hbw, if_false] at e1 e2 e3 e4 e5 e6 htef htet hallte hcbbte hpte hate hgt
    simp only [Color.opp, Board.get_pieces, Board.get_color_bitboard]
      at e1 e2 e3 e4 hcbbte hpte
    have h56 : t + 8 < 64 := hb56 hturn
    have hepsq : b.state.en_passant_target = 2 ^ t := by
      rw [← fromSquare_eq ht]; exact hept.symm
    have hshl : shl64 ((2 : Nat) ^ t) 8 = 2 ^ (t + 8) := shl64_two_pow h56
    have htz : trailingZeros (2 ^ (t + 8)) = t + 8 := trailingZeros_two_pow h56
    have hfsf : fromSquare f = 2 ^ f := fromSquare_eq hf
    have hfst : fromSquare t = 2 ^ t := fromSquare_eq ht
    have hfste : fromSquare (t + 8) = 2 ^ (t + 8) := fromSquare_eq h56
    have hxz : (2 ^ f ||| 2 ^ t) ^^^ (2 ^ t ^^^ 2 ^ f) = 0 := by
      rw [single_or_eq_xor hne, Nat.xor_comm (2 ^ t) (2 ^ f), Nat.xor_self]
    have hmk : Board.make_move zk b (Move.Normal f t) =
        ⟨(Board.make_move zk b (Move.Normal f t)).state,
         { state := b.state, captured_piece := some PieceType.Pawn, ep := true } ::
           b.previous_moves,
         Color.White, b.full_turns + 1, b.plies + 1,
         b.white_pieces.xor_type PieceType.Pawn (fromSquare (t + 8)),
         b.black_pieces.xor_type PieceType.Pawn (fromSquare f ||| fromSquare t),
         b.all_whites ^^^ fromSquare (t + 8),
         b.all_blacks ^^^ (fromSquare f ||| fromSquare t),
         ((b.all_pieces ^^^ fromSquare (t + 8)) ^^^ fromSquare f) ||| fromSquare t,
         ((b.piece_on_square.set (t + 8) Option.none).set f Option.none).set t
           (some PieceType.Pawn)⟩ := by
      apply Board.ext
      · rfl
      · rw [make_pm zk b (Move.Normal f t) rfl, e7]
      · rw [make_turn zk b (Move.Normal f t) rfl, hturn]; simp [Color.opp]
      · rw [make_ft zk b (Move.Normal f t) rfl, hturn]
        simp [Color.opp, Color.toIndex]
      · exact make_plies zk b (Move.Normal f t) rfl
      · rw [make_w zk b (Move.Normal f t) rfl]; exact e2
      · rw [make_b zk b (Move.Normal f t) rfl]; exact e1
      · rw [make_aw zk b (Move.Normal f t) rfl]; exact e4
      · rw [make_ab zk b (Move.Normal f t) rfl]; exact e3
      · rw [make_all zk b (Move.Normal f t) rfl]; exact e5
      · rw [make_pos zk b (Move.Normal f t) rfl]; exact e6
    rw [hmk]
    have hbw2 : (Color.Black = Color.White) = False := by simp
    simp only [Board.unmake_move, Move.is_castle, Bool.false_eq_true, if_false,
      Move.fromSq, Move.toSq, Move.is_promotion, Board.turn_color, Color.opp,
      Color.toIndex, Board.get_color_bitboard, Board.set_color_bitboard,
      Board.get_pieces, Board.set_pieces, Board.set_piece_on, Board.piece_on,
      Board.ep_square, hgt, Option.getD_some, eq_self_iff_true, if_true, hbw2,
      hepsq, hshl, htz, hfsf, hfst, hfste]
    apply Board.ext
    · rfl
    · rfl
    · exact hturn.symm
    · simp
    · simp
    · exact pieces_xor_or_restore b.white_pieces PieceType.Pawn hpte
    · rw [Pieces.xor_type_xor_type, Pieces.xor_type_xor_type, hxz,
        Pieces.xor_type_zero]
    · exact xor_or_restore hcbbte
    · simp [Nat.xor_assoc, Nat.xor_self]
    · exact all_restore_ep hallf hallt hallte hne htef htet
    · exact set_chain3 b.piece_on_square Option.none _ _ _ _ _ _
        (by rw [hlen]; exact h56) (by rw [hlen]; exact hf) (by rw [hlen]; exact ht)
        htef htet hne hate hp hto


set_option maxHeartbeats 8000000 in
theorem restore_promq (zk : ZKeys) (b : Board) (f t : Nat) (pc : PieceType)
    (hlen : b.piece_on_square.length = 64)
    (hf : f < 64) (ht : t < 64) (hne : f ≠ t)
    (hp : b.piece_on f = some PieceType.Pawn)
    (hnep : fromSquare t ≠ b.ep_square)
    (hq : b.get_color_bitboard b.turn.opp &&& fromSquare t = 0)
    (hto : b.piece_on t = Option.none)
    (hallf : b.all_pieces.testBit f = true)
    (hallt : b.all_pieces.testBit t = false) :
    Board.unmake_move (Board.make_move zk b (Move.PawnPromotion f t pc))
      (Move.PawnPromotion f t pc) = b := by
  have hEP : ¬(PieceType.Pawn = PieceType.Pawn ∧ fromSquare t = b.ep_square) :=
    fun h => hnep h.2
  have hpE : (Board.ep_zobrist_flip zk b).piece_on f = some PieceType.Pawn := by
    rw [epf_piece_on]; exact hp
  have hEPE : ¬(PieceType.Pawn = PieceType.Pawn ∧
      fromSquare t = (Board.ep_zobrist_flip zk b).ep_square) := by
    rw [epf_ep_square]; exact hEP
  have hqE : (Board.ep_zobrist_flip zk b).get_color_bitboard
      (Board.ep_zobrist_flip zk b).turn.opp &&& fromSquare t = 0 := by
    rw [epf_turn, epf_cbb]; exact hq
  obtain ⟨e1, e2, e3, e4, e5, e6, e7⟩ := mvp_promq zk (Board.ep_zobrist_flip zk b) f t
    { state := b.state, captured_piece := Option.none, ep := false } PieceType.Pawn pc
    hpE hEPE hqE
  rw [epf_turn, epf_get] at e1
  rw [epf_turn, epf_get] at e2
  rw [epf_turn, epf_cbb] at e3
  rw [epf_turn, epf_cbb] at e4
  rw [epf_all] at e5
  rw [epf_pos] at e6
  have hgt : ((b.piece_on_square.set f Option.none).set t (some pc)).getD t Option.none
      = some pc := by
    refine getD_set_self _ _ _ _ ?_
    rw [List.length_set, hlen]; exact ht
  have harr : (((b.piece_on_square.set f Option.none).set t (some pc)).set t
      Option.none).set f (some PieceType.Pawn) = b.piece_on_square := by
    rw [List.set_set, List.set_comm _ _ _ hne, List.set_set]
    have h1 : b.piece_on_square.set t Option.none = b.piece_on_square := by
      conv_lhs => rw [show (Option.none : Option PieceType) =
        b.piece_on_square.getD t Option.none from hto.symm]
      exact set_getD_self _ _ _
    rw [h1]
    conv_lhs => rw [show (some PieceType.Pawn : Option PieceType) =
      b.piece_on_square.getD f Option.none from hp.symm]
    exact set_getD_self _ _ _
  have hall : ((b.all_pieces ^^^ fromSquare f) ||| fromSquare t) ^^^
      (fromSquare f ||| fromSquare t) = b.all_pieces := by
    rw [fromSquare_eq hf, fromSquare_eq ht]
    exact all_restore_quiet hallf hallt hne
  have hpieces : ∀ P : Pieces,
      ((((P.xor_type PieceType.Pawn (fromSquare f)).xor_type pc
        (fromSquare t)).xor_type pc (fromSquare t)).xor_type PieceType.Pawn
        (fromSquare f)) = P := by
    intro P
    rw [Pieces.xor_type_xor_type, Nat.xor_self, Pieces.xor_type_zero,
      Pieces.xor_type_xor_type, Nat.xor_self, Pieces.xor_type_zero]
  cases hturn : b.turn with
  | White =>
    rw [hturn] at e1 e2 e3 e4
    simp only [Color.opp, Board.get_pieces, Board.get_color_bitboard] at e1 e2 e3 e4
    have hmk : Board.make_move zk b (Move.PawnPromotion f t pc) =
        ⟨(Board.make_move zk b (Move.PawnPromotion f t pc)).state,
         { state := b.state, captured_piece := Option.none, ep := false } ::
           b.previous_moves,
         Color.Black, b.full_turns, b.plies + 1,
         (b.white_pieces.xor_type PieceType.Pawn (fromSquare f)).xor_type pc
           (fromSquare t),
         b.black_pieces,
         b.all_whites ^^^ (fromSquare f ||| fromSquare t),
         b.all_blacks,
         (b.all_pieces ^^^ fromSquare f) ||| fromSquare t,
         (b.piece_on_square.set f Option.none).set t (some pc)⟩ := by
      apply Board.ext
      · rfl
      · rw [make_pm zk b (Move.PawnPromotion f t pc) rfl, e7]
      · rw [make_turn zk b (Move.PawnPromotion f t pc) rfl, hturn]; simp [Color.opp]
      · rw [make_ft zk b (Move.PawnPromotion f t pc) rfl, hturn]
        simp [Color.opp, Color.toIndex]
      · exact make_plies zk b (Move.PawnPromotion f t pc) rfl
      · rw [make_w zk b (Move.PawnPromotion f t pc) rfl]; exact e1
      · rw [make_b zk b (Move.PawnPromotion f t pc) rfl]; exact e2
      · rw [make_aw zk b (Move.PawnPromotion f t pc) rfl]; exact e3
      · rw [make_ab zk b (Move.PawnPromotion f t pc) rfl]; exact e4
      · rw [make_all zk b (Move.PawnPromotion f t pc) rfl]; exact e5
      · rw [make_pos zk b (Move.PawnPromotion f t pc) rfl]; exact e6
    rw [hmk]
    simp only [Board.unmake_move, Move.is_castle, Bool.false_eq_true, if_false,
      Move.fromSq, Move.toSq, Move.is_promotion, Board.turn_color, Color.opp,
      Color.toIndex, Board.get_color_bitboard, Board.set_color_bitboard,
      Board.get_pieces, Board.set_pieces, Board.set_piece_on, Board.piece_on,
      hgt, Option.getD_some, if_true]
    apply Board.ext
    · rfl
    · rfl
    · exact hturn.symm
    · simp
    · simp
    · exact hpieces b.white_pieces
    · rfl
    · simp [Nat.xor_assoc, Nat.xor_self]
    · rfl
    · exact hall
    · exact harr
  | Black =>
    rw [hturn] at e1 e2 e3 e4
    simp only [Color.opp, Board.get_pieces, Board.get_color_bitboard] at e1 e2 e3 e4
    have hmk : Board.make_move zk b (Move.PawnPromotion f t pc) =
        ⟨(Board.make_move zk b (Move.PawnPromotion f t pc)).state,
         { state := b.state, captured_piece := Option.none, ep := false } ::
           b.previous_moves,
         Color.White, b.full_turns + 1, b.plies + 1,
         b.white_pieces,
         (b.black_pieces.xor_type PieceType.Pawn (fromSquare f)).xor_type pc
           (fromSquare t),
         b.all_whites,
         b.all_blacks ^^^ (fromSquare f ||| fromSquare t),
         (b.all_pieces ^^^ fromSquare f) ||| fromSquare t,
         (b.piece_on_square.set f Option.none).set t (some pc)⟩ := by
      apply Board.ext
      · rfl
      · rw [make_pm zk b (Move.PawnPromotion f t pc) rfl, e7]
      · rw [make_turn zk b (Move.PawnPromotion f t pc) rfl, hturn]; simp [Color.opp]
      · rw [make_ft zk b (Move.PawnPromotion f t pc) rfl, hturn]
        simp [Color.opp, Color.toIndex]
      · exact make_plies zk b (Move.PawnPromotion f t pc) rfl
      · rw [make_w zk b (Move.PawnPromotion f t pc) rfl]; exact e2
      · rw [make_b zk b (Move.PawnPromotion f t pc) rfl]; exact e1
      · rw [make_aw zk b (Move.PawnPromotion f t pc) rfl]; exact e4
      · rw [make_ab zk b (Move.PawnPromotion f t pc) rfl]; exact e3
      · rw [make_all zk b (Move.PawnPromotion f t pc) rfl]; exact e5
      · rw [make_pos zk b (Move.PawnPromotion f t pc) rfl]; exact e6
    rw [hmk]
    simp only [Board.unmake_move, Move.is_castle, Bool.false_eq_true, if_false,
      Move.fromSq, Move.toSq, Move.is_promotion, Board.turn_color, Color.opp,
      Color.toIndex, Board.get_color_bitboard, Board.set_color_bitboard,
      Board.get_pieces, Board.set_pieces, Board.set_piece_on, Board.piece_on,
      hgt, Option.getD_some, if_true]
    apply Board.ext
    · rfl
    · rfl
    · exact hturn.symm
    · simp
    · simp
    · rfl
    · exact hpieces b.black_pieces
    · rfl
    · simp [Nat.xor_assoc, Nat.xor_self]
    · exact hall
    · exact harr


set_option maxHeartbeats 8000000 in
theorem restore_promc (zk : ZKeys) (b : Board) (f t : Nat) (pc q : PieceType)
    (hlen : b.piece_on_square.length = 64)
    (hf : f < 64) (ht : t < 64) (hne : f ≠ t)
    (hp : b.piece_on f = some PieceType.Pawn)
    (hnep : fromSquare t ≠ b.ep_square)
    (hcap : b.get_color_bitboard b.turn.opp &&& fromSquare t ≠ 0)
    (hc : b.piece_on t = some q)
    (hallf : b.all_pieces.testBit f = true)
    (hallt : b.all_pieces.testBit t = true)
    (het : (b.get_color_bitboard b.turn.opp).testBit t = true)
    (hbound : ∀ r : PieceType,
      (b.get_pieces b.turn.opp).get_pieces_of_type r < U64)
    (hqt : ((b.get_pieces b.turn.opp).get_pieces_of_type q).testBit t = true)
    (hothers : ∀ r : PieceType, r ≠ q →
      ((b.get_pieces b.turn.opp).get_pieces_of_type r).testBit t = false) :
    Board.unmake_move (Board.make_move zk b (Move.PawnPromotion f t pc))
      (Move.PawnPromotion f t pc) = b := by
  have hEP : ¬(PieceType.Pawn = PieceType.Pawn ∧ fromSquare t = b.ep_square) :=
    fun h => hnep h.2
  have hpE : (Board.ep_zobrist_flip zk b).piece_on f = some PieceType.Pawn := by
    rw [epf_piece_on]; exact hp
  have hEPE : ¬(PieceType.Pawn = PieceType.Pawn ∧
      fromSquare t = (Board.ep_zobrist_flip zk b).ep_square) := by
    rw [epf_ep_square]; exact hEP
  have hcapE : (Board.ep_zobrist_flip zk b).get_color_bitboard
      (Board.ep_zobrist_flip zk b).turn.opp &&& fromSquare t ≠ 0 := by
    rw [epf_turn, epf_cbb]; exact hcap
  have hcE : (Board.ep_zobrist_flip zk b).piece_on t = some q := by
    rw [epf_piece_on]; exact hc
  obtain ⟨e1, e2, e3, e4, e5, e6, e7⟩ := mvp_promc zk (Board.ep_zobrist_flip zk b) f t
    { state := b.state, captured_piece := Option.none, ep := false } PieceType.Pawn pc q
    hpE hEPE hcapE hcE
  rw [epf_turn, epf_get] at e1
  rw [epf_turn, epf_get] at e2
  rw [epf_turn, epf_cbb] at e3
  rw [epf_turn, epf_cbb] at e4
  rw [epf_all] at e5
  rw [epf_pos] at e6
  have hgt : ((b.piece_on_square.set f Option.none).set t (some pc)).getD t Option.none
      = some pc := by
    refine getD_set_self _ _ _ _ ?_
    rw [List.length_set, hlen]; exact ht
  have harr : ((((b.piece_on_square.set f Option.none).set t (some pc)).set t
      Option.none).set f (some PieceType.Pawn)).set t (some q)
      = b.piece_on_square := by
    rw [List.set_set, List.set_comm _ _ _ hne, List.set_set,
      List.set_comm _ _ _ (Ne.symm hne), List.set_set]
    have hgq : (b.piece_on_square.set f (some PieceType.Pawn)).getD t Option.none
        = some q := by
      rw [getD_set_ne _ _ _ hne]; exact hc
    conv_lhs => rw [show (some q : Option PieceType) =
      (b.piece_on_square.set f (some PieceType.Pawn)).getD t Option.none from hgq.symm]
    rw [set_getD_self]
    conv_lhs => rw [show (some PieceType.Pawn : Option PieceType) =
      b.piece_on_square.getD f Option.none from hp.symm]
    exact set_getD_self _ _ _
  have hall : (((b.all_pieces ^^^ fromSquare f) ||| fromSquare t) ^^^
      (fromSquare f ||| fromSquare t)) ||| fromSquare t = b.all_pieces := by
    rw [fromSquare_eq hf, fromSquare_eq ht]
    exact all_restore_capture hallf hallt hne
  have hpieces : ∀ P : Pieces,
      ((((P.xor_type PieceType.Pawn (fromSquare f)).xor_type pc
        (fromSquare t)).xor_type pc (fromSquare t)).xor_type PieceType.Pawn
        (fromSquare f)) = P := by
    intro P
    rw [Pieces.xor_type_xor_type, Nat.xor_self, Pieces.xor_type_zero,
      Pieces.xor_type_xor_type, Nat.xor_self, Pieces.xor_type_zero]
  cases hturn : b.turn with
  | White =>
    rw [hturn] at e1 e2 e3 e4 het hbound hqt hothers
    simp only [Color.opp, Board.get_pieces, Board.get_color_bitboard] at e1 e2 e3 e4 het hbound hqt hothers
    have hrest : ((b.black_pieces.remove_in_all (fromSquare t)).or_type q
        (fromSquare t)) = b.black_pieces := by
      rw [fromSquare_eq ht]
      exact pieces_remove_or_restore _ _ hbound ht hqt hothers
    have hcbb : (b.all_blacks ^^^ fromSquare t) ||| fromSquare t = b.all_blacks := by
      rw [fromSquare_eq ht]
      exact xor_or_restore het
    have hmk : Board.make_move zk b (Move.PawnPromotion f t pc) =
        ⟨(Board.make_move zk b (Move.PawnPromotion f t pc)).state,
         { state := b.state, captured_piece := some q, ep := false } ::
           b.previous_moves,
         Color.Black, b.full_turns, b.plies + 1,
         (b.white_pieces.xor_type PieceType.Pawn (fromSquare f)).xor_type pc
           (fromSquare t),
         b.black_pieces.remove_in_all (fromSquare t),
         b.all_whites ^^^ (fromSquare f ||| fromSquare t),
         b.all_blacks ^^^ fromSquare t,
         (b.all_pieces ^^^ fromSquare f) ||| fromSquare t,
         (b.piece_on_square.set f Option.none).set t (some pc)⟩ := by
      apply Board.ext
      · rfl
      · rw [make_pm zk b (Move.PawnPromotion f t pc) rfl, e7]
      · rw [make_turn zk b (Move.PawnPromotion f t pc) rfl, hturn]; simp [Color.opp]
      · rw [make_ft zk b (Move.PawnPromotion f t pc) rfl, hturn]
        simp [Color.opp, Color.toIndex]
      · exact make_plies zk b (Move.PawnPromotion f t pc) rfl
      · rw [make_w zk b (Move.PawnPromotion f t pc) rfl]; exact e1
      · rw [make_b zk b (Move.PawnPromotion f t pc) rfl]; exact e2
      · rw [make_aw zk b (Move.PawnPromotion f t pc) rfl]; exact e3
      · rw [make_ab zk b (Move.PawnPromotion f t pc) rfl]; exact e4
      · rw [make_all zk b (Move.PawnPromotion f t pc) rfl]; exact e5
      · rw [make_pos zk b (Move.PawnPromotion f t pc) rfl]; exact e6
    rw [hmk]
    simp only [Board.unmake_move, Move.is_castle, Bool.false_eq_true, if_false,
      Move.fromSq, Move.toSq, Move.is_promotion, Board.turn_color, Color.opp,
      Color.toIndex, Board.get_color_bitboard, Board.set_color_bitboard,
      Board.get_pieces, Board.set_pieces, Board.set_piece_on, Board.piece_on,
      hgt, Option.getD_some, if_true]
    apply Board.ext
    · rfl
    · rfl
    · exact hturn.symm
    · simp
    · simp
    · exact hpieces b.white_pieces
    · exact hrest
    · simp [Nat.xor_assoc, Nat.xor_self]
    · exact hcbb
    · exact hall
    · exact harr
  | Black =>
    rw [hturn] at e1 e2 e3 e4 het hbound hqt hothers
    simp only [Color.opp, Board.get_pieces, Board.get_color_bitboard] at e1 e2 e3 e4 het hbound hqt hothers
    have hrest : ((b.white_pieces.remove_in_all (fromSquare t)).or_type q
        (fromSquare t)) = b.white_pieces := by
      rw [fromSquare_eq ht]
      exact pieces_remove_or_restore _ _ hbound ht hqt hothers
    have hcbb : (b.all_whites ^^^ fromSquare t) ||| fromSquare t = b.all_whites := by
      rw [fromSquare_eq ht]
      exact xor_or_restore het
    have hmk : Board.make_move zk b (Move.PawnPromotion f t pc) =
        ⟨(Board.make_move zk b (Move.PawnPromotion f t pc)).state,
         { state := b.state, captured_piece := some q, ep := false } ::
           b.previous_moves,
         Color.White, b.full_turns + 1, b.plies + 1,
         b.white_pieces.remove_in_all (fromSquare t),
         (b.black_pieces.xor_type PieceType.Pawn (fromSquare f)).xor_type pc
           (fromSquare t),
         b.all_whites ^^^ fromSquare t,
         b.all_blacks ^^^ (fromSquare f ||| fromSquare t),
         (b.all_pieces ^^^ fromSquare f) ||| fromSquare t,
         (b.piece_on_square.set f Option.none).set t (some pc)⟩ := by
      apply Board.ext
      · rfl
      · rw [make_pm zk b (Move.PawnPromotion f t pc) rfl, e7]
      · rw [make_turn zk b (Move.PawnPromotion f t pc) rfl, hturn]; simp [Color.opp]
      · rw [make_ft zk b (Move.PawnPromotion f t pc) rfl, hturn]
        simp [Color.opp, Color.toIndex]
      · exact make_plies zk b (Move.PawnPromotion f t pc) rfl
      · rw [make_w zk b (Move.PawnPromotion f t pc) rfl]; exact e2
      · rw [make_b zk b (Move.PawnPromotion f t pc) rfl]; exact e1
      · rw [make_aw zk b (Move.PawnPromotion f t pc) rfl]; exact e4
      · rw [make_ab zk b (Move.PawnPromotion f t pc) rfl]; exact e3
      · rw [make_all zk b (Move.PawnPromotion f t pc) rfl]; exact e5
      · rw [make_pos zk b (Move.PawnPromotion f t pc) rfl]; exact e6
    rw [hmk]
    simp only [Board.unmake_move, Move.is_castle, Bool.false_eq_true, if_false,
      Move.fromSq, Move.toSq, Move.is_promotion, Board.turn_color, Color.opp,
      Color.toIndex, Board.get_color_bitboard, Board.set_color_bitboard,
      Board.get_pieces, Board.set_pieces, Board.set_piece_on, Board.piece_on,
      hgt, Option.getD_some, if_true]
    apply Board.ext
    · rfl
    · rfl
    · exact hturn.symm
    · simp
    · simp
    · exact hrest
    · exact hpieces b.black_pieces
    · exact hcbb
    · simp [Nat.xor_assoc, Nat.xor_self]
    · exact hall
    · exact harr

/-- C8, witness: the K+R vs K position with 50-move counter 100 is a draw and
produces no pseudolegal or legal moves, although the raw move generator does
emit moves for it. -/
theorem C8_witness :
    b100.is_draw = true ∧ b100.pseudolegal_moves = [] ∧
    Board.legal_moves zk0 b100 = [] ∧
    movegen.get_pseudolegal_moves b100 b100.turn_color ≠ [] := by
  have h := C8_draw_empties_movegen b100 (by decide)
  exact ⟨by decide, h.1, h.2.2 zk0, by decide⟩

end Shakmat
